import Mathlib

/-!
The readiness multiplexer of the nbio native layer.

A shallow embedding of the two select-set backends of
`seda/nbio/jni/nbio.c`:

* `Java_seda_nbio_SelectSetPollImpl_doSelect` (stateless, built on `poll`),
* `Java_seda_nbio_SelectSetDevPollImpl_init`, `_register`, `_deregister` and
  `_doSelect` (cached interest, built on `/dev/poll`, flat `selitems` table
  because `USE_BTREE` is `#undef`), and the registry branches written under
  `#ifdef USE_BTREE`, which no build contains,

of the B-tree of `seda/nbio/jni/mdw-btree.h` those branches use, and of the
stream methods `nbSocketRead` and `nbSocketWrite` of nbio.c.

Java `short` fields (`events`, `revents`) and the `short` fields of
`struct pollfd` are represented by their 16-bit pattern as a `Nat`; `jint`
and C `int` values are `Int`.  The operating system is an explicit
argument: the reply of the one `poll` / `ioctl(DP_POLL)` call a `doSelect`
may issue, and the success of `malloc` and `write`.  Every effect a function
has on the outside world (the system call it issues, the `SetShortField`
and `SetObjectArrayElement` calls) is also recorded in its outcome.
-/

namespace Nbio

/-! ## Constants -/

/-- Portable wire value `#define SELECTABLE_READ_READY 0x01`. -/
def SELECTABLE_READ_READY : Nat := 0x01

/-- Portable wire value `#define SELECTABLE_WRITE_READY 0x02`. -/
def SELECTABLE_WRITE_READY : Nat := 0x02

/-- Portable wire value `#define SELECTABLE_SELECT_ERROR 0x80`. -/
def SELECTABLE_SELECT_ERROR : Nat := 0x80

/-- Size of the flat table, `#define MAX_FDS 32768`. -/
def MAX_FDS : Nat := 32768

/-- The values nbio.c takes from the system headers `<sys/poll.h>` and
`<errno.h>`.  They are not part of the repository, so every definition below
takes them as a parameter. -/
structure SysConsts where
  POLLIN : Nat
  POLLPRI : Nat
  POLLOUT : Nat
  POLLERR : Nat
  POLLHUP : Nat
  POLLNVAL : Nat
  EINTR : Int
  deriving DecidableEq

/-- The header values of Linux (Solaris and FreeBSD use the same poll bits),
used for the concrete evaluations. -/
def linuxConsts : SysConsts :=
  { POLLIN := 0x001, POLLPRI := 0x002, POLLOUT := 0x004,
    POLLERR := 0x008, POLLHUP := 0x010, POLLNVAL := 0x020, EINTR := 4 }

/-! ## Data model -/

/-- The Java exception classes nbio.c names in `THROW_EXCEPTION`. -/
inductive JavaException where
  | ArrayIndexOutOfBoundsException
  | NullPointerException
  | OutOfMemoryError
  | IOException
  | UnsatisfiedLinkError
  | SocketException
  deriving DecidableEq

/-- A `seda.nbio.SelectItem` as the native code sees it: the `fd` field of its
`NBIOFileDescriptor`, and the `short` fields `events` and `revents`. -/
structure SelectItem where
  fd : Int
  events : Nat
  revents : Nat
  deriving DecidableEq

/-- C `struct pollfd`. -/
structure PollFd where
  fd : Int
  events : Nat
  revents : Nat
  deriving DecidableEq

/-! ## Event-bit translation (inline in the source, same text at each place) -/

/-- Portable mask to OS interest bits: the body of `if (events != 0)` at
nbio.c 1253-1258 (register) and 1558-1563 (stateless doSelect), starting from
`realevents = 0`. -/
def realevents_of_events (c : SysConsts) (events : Nat) : Nat :=
  let realevents := 0
  let realevents :=
    if events &&& SELECTABLE_READ_READY ≠ 0 then realevents ||| (c.POLLIN ||| c.POLLPRI)
    else realevents
  let realevents :=
    if events &&& SELECTABLE_WRITE_READY ≠ 0 then realevents ||| c.POLLOUT
    else realevents
  realevents

/-- OS `revents` to portable mask: nbio.c 1439-1448 (cached-interest doSelect)
and 1616-1625 (stateless doSelect). -/
def realevents_of_revents (c : SysConsts) (revents : Nat) : Nat :=
  let realevents := 0
  let realevents :=
    if revents &&& (c.POLLIN ||| c.POLLPRI) ≠ 0 then realevents ||| SELECTABLE_READ_READY
    else realevents
  let realevents :=
    if revents &&& c.POLLOUT ≠ 0 then realevents ||| SELECTABLE_WRITE_READY
    else realevents
  let realevents :=
    if revents &&& (c.POLLERR ||| c.POLLHUP ||| c.POLLNVAL) ≠ 0 then
      realevents ||| SELECTABLE_SELECT_ERROR
    else realevents
  realevents

/-! ## Stateless backend: `Java_seda_nbio_SelectSetPollImpl_doSelect` -/

/-- What the native code cannot decide itself: whether the field IDs are (or
can be) initialised, and whether the two `malloc` calls of the stateless
doSelect succeed. -/
structure Runtime where
  fids_ok : Bool
  malloc_ufds : Bool
  malloc_ufds_map : Bool
  deriving DecidableEq

/-- The reply of the OS to `poll(ufds, num_ufds, timeout)`: the return value,
`errno`, and the `revents` field of `ufds[n]` after the call. -/
structure PollReply where
  ret : Int
  errno : Int
  revents : Nat → Nat

/-- A recorded call `poll(ufds, num_ufds, timeout)`. -/
structure PollCall where
  ufds : List PollFd
  num_ufds : Nat
  timeout : Int
  deriving DecidableEq

/-- The outcome of a stateless doSelect: returned `jint`, pending exception,
the item array afterwards, the `poll` calls issued, and the
`SetShortField(itemarr[i], revents, v)` calls made, as pairs `(i, v)`.
The elements of the item array are taken to be distinct objects. -/
structure PollOutcome where
  ret : Int
  exn : Option JavaException
  itemarr : Option (List (Option SelectItem))
  polls : List PollCall
  writes : List (Nat × Nat)
  deriving DecidableEq

/-- First loop (nbio.c 1519-1528): counts the items with `events != 0`;
`none` when an element is null. -/
def count_ufds : List (Option SelectItem) → Nat → Option Nat
  | [], num_ufds => some num_ufds
  | none :: _, _ => none
  | some selitemobj :: rest, num_ufds =>
    count_ufds rest (if selitemobj.events ≠ 0 then num_ufds + 1 else num_ufds)

/-- Second loop (nbio.c 1545-1573): fills `ufds[n]` and `ufds_map[n]` for the
items with `events != 0`; the arguments are the remaining items, the index
`i`, and the slots filled so far (`n` is their number).  `none` when an
element is null. -/
def fill_ufds (c : SysConsts) :
    List (Option SelectItem) → Nat → List PollFd → List Nat → Option (List PollFd × List Nat)
  | [], _, ufds, ufds_map => some (ufds, ufds_map)
  | none :: _, _, _, _ => none
  | some selitemobj :: rest, i, ufds, ufds_map =>
    if selitemobj.events ≠ 0 then
      fill_ufds c rest (i + 1)
        (ufds ++ [{ fd := selitemobj.fd,
                    events := realevents_of_events c selitemobj.events,
                    revents := 0 }])
        (ufds_map ++ [i])
    else
      fill_ufds c rest (i + 1) ufds ufds_map

/-- Third loop (nbio.c 1602-1630) from slot `n` on: the first argument is
`ufds_map[n..]`, `revents n` is `ufds[n].revents` after `poll`.  Returns the
pending exception (a null element), the item array and the writes made. -/
def write_back (c : SysConsts) (revents : Nat → Nat) :
    List Nat → Nat → List (Option SelectItem) → List (Nat × Nat) →
      Option JavaException × List (Option SelectItem) × List (Nat × Nat)
  | [], _, items, writes => (none, items, writes)
  | i :: ufds_map, n, items, writes =>
    if revents n ≠ 0 then
      match items.get? i with
      | some (some selitemobj) =>
        let realevents := realevents_of_revents c (revents n)
        write_back c revents ufds_map (n + 1)
          (items.set i (some { selitemobj with revents := realevents }))
          (writes ++ [(i, realevents)])
      | _ => (some JavaException.NullPointerException, items, writes)
    else
      write_back c revents ufds_map (n + 1) items writes

/-- The native method `Java_seda_nbio_SelectSetPollImpl_doSelect`
(nbio.c 1481-1638).  `itemarr` is the `itemarr` field of the select set
(`none` = null), `reply` what the OS answers to the `poll` call. -/
def SelectSetPollImpl_doSelect (c : SysConsts) (rt : Runtime)
    (itemarr : Option (List (Option SelectItem))) (timeout : Int) (reply : PollReply) :
    PollOutcome :=
  if rt.fids_ok = false then
    { ret := -1, exn := some JavaException.UnsatisfiedLinkError, itemarr := itemarr,
      polls := [], writes := [] }
  else
    match itemarr with
    | none => { ret := 0, exn := none, itemarr := none, polls := [], writes := [] }
    | some items =>
      if (items.length : Int) ≤ 0 then
        { ret := 0, exn := some JavaException.ArrayIndexOutOfBoundsException,
          itemarr := some items, polls := [], writes := [] }
      else
        match count_ufds items 0 with
        | none =>
          { ret := 0, exn := some JavaException.NullPointerException,
            itemarr := some items, polls := [], writes := [] }
        | some num_ufds =>
          if num_ufds = 0 then
            { ret := 0, exn := none, itemarr := some items, polls := [], writes := [] }
          else if rt.malloc_ufds = false then
            { ret := 0, exn := some JavaException.OutOfMemoryError,
              itemarr := some items, polls := [], writes := [] }
          else if rt.malloc_ufds_map = false then
            { ret := 0, exn := some JavaException.OutOfMemoryError,
              itemarr := some items, polls := [], writes := [] }
          else
            match fill_ufds c items 0 [] [] with
            | none =>
              { ret := 0, exn := some JavaException.NullPointerException,
                itemarr := some items, polls := [], writes := [] }
            | some (ufds, ufds_map) =>
              let call : PollCall := { ufds := ufds, num_ufds := num_ufds, timeout := timeout }
              let ret := reply.ret
              if ret = 0 then
                { ret := 0, exn := none, itemarr := some items, polls := [call], writes := [] }
              else if ret < 0 then
                let myerrno := reply.errno
                if myerrno ≠ c.EINTR then
                  { ret := 0, exn := some JavaException.IOException,
                    itemarr := some items, polls := [call], writes := [] }
                else
                  { ret := 0, exn := none, itemarr := some items, polls := [call],
                    writes := [] }
              else
                match write_back c reply.revents (ufds_map.take num_ufds) 0 items [] with
                | (some e, items1, writes) =>
                  { ret := 0, exn := some e, itemarr := some items1, polls := [call],
                    writes := writes }
                | (none, items1, writes) =>
                  { ret := ret, exn := none, itemarr := some items1, polls := [call],
                    writes := writes }

/-! ## Cached-interest backend: `Java_seda_nbio_SelectSetDevPollImpl_*` -/

/-- C `struct devpoll_impl_state` with the flat table (`USE_BTREE` is
`#undef`): `selitems[fd]` holds a reference to the registered object or NULL
(`none`).  Only the indices below `MAX_FDS` exist in the C array; the code
guards each access.  The scratch buffer `retevents` is represented by what the
OS leaves in it (`DpReply.retevents`). -/
structure devpoll_impl_state where
  devpoll_fd : Int
  max_retevents : Int
  selitems : Nat → Option Nat

/-- What the cached-interest native methods can read and change: the backend
state, the `SelectItem` objects (by reference) and the `retevents` array field
of the select set (the result array). -/
structure DevPollWorld where
  state : devpoll_impl_state
  heap : Nat → SelectItem
  retitemarr : List (Option Nat)

/-- The effects of the cached-interest native methods, in program order. -/
inductive DevPollEvent where
  | write_devpoll (fd : Int) (events : Nat)
  | ioctl_DP_POLL (dp_timeout : Int) (dp_nfds : Int)
  | MonitorEnter
  | MonitorExit
  | SetShortField_revents (selitemobj : Nat) (realevents : Nat)
  | SetObjectArrayElement (index : Nat) (selitemobj : Nat)
  deriving DecidableEq

/-- The outcome of a cached-interest native method: returned `jint` (0 for a
`void` method), pending exception, the world afterwards and the effects. -/
structure DevPollOutcome where
  ret : Int
  exn : Option JavaException
  world : DevPollWorld
  trace : List DevPollEvent

/-- The native method `Java_seda_nbio_SelectSetDevPollImpl_register`
(nbio.c 1232-1291); `write_ok` says whether `write` on `/dev/poll` returns
`sizeof(struct pollfd)`. -/
def SelectSetDevPollImpl_register (c : SysConsts) (w : DevPollWorld) (selitemobj : Nat)
    (write_ok : Bool) : DevPollOutcome :=
  let fd := (w.heap selitemobj).fd
  let events := (w.heap selitemobj).events
  let realevents := if events ≠ 0 then realevents_of_events c events else 0
  let tr := [DevPollEvent.write_devpoll fd realevents]
  if write_ok = false then
    { ret := 0, exn := some JavaException.IOException, world := w, trace := tr }
  else if fd < 0 ∨ fd ≥ (MAX_FDS : Int) then
    { ret := 0, exn := none, world := w, trace := tr }
  else
    match w.state.selitems fd.toNat with
    | none =>
      { ret := 0, exn := none,
        world := { w with state := { w.state with
          selitems := Function.update w.state.selitems fd.toNat (some selitemobj) } },
        trace := tr }
    | some _ => { ret := 0, exn := none, world := w, trace := tr }

/-- The reply of the OS to `ioctl(devpoll_fd, DP_POLL, &dopoll)`: the return
value, `errno`, and the content of the scratch buffer `state->retevents`
after the call. -/
structure DpReply where
  ret : Int
  errno : Int
  retevents : Nat → PollFd

/-- The loop of the cached-interest doSelect (nbio.c 1406-1471) followed by
`MonitorExit` and the return.  The first argument is the number of rounds
left (`ret - i`). -/
def devpoll_loop (c : SysConsts) (retevents : Nat → PollFd) :
    Nat → Nat → Int → DevPollWorld → List DevPollEvent → DevPollOutcome
  | 0, _, count, w, tr =>
    { ret := count, exn := none, world := w, trace := tr ++ [DevPollEvent.MonitorExit] }
  | k + 1, i, count, w, tr =>
    let pfd := retevents i
    let retfd := pfd.fd
    if retfd < 0 ∨ retfd ≥ (MAX_FDS : Int) then
      { ret := 0, exn := some JavaException.ArrayIndexOutOfBoundsException, world := w,
        trace := tr ++ [DevPollEvent.MonitorExit] }
    else
      match w.state.selitems retfd.toNat with
      | none => devpoll_loop c retevents k (i + 1) count w tr
      | some selitemobj =>
        let realevents := realevents_of_revents c pfd.revents
        let w1 : DevPollWorld :=
          { w with
            heap := Function.update w.heap selitemobj
              { (w.heap selitemobj) with revents := realevents } }
        let tr1 := tr ++ [DevPollEvent.SetShortField_revents selitemobj realevents,
                          DevPollEvent.SetObjectArrayElement count.toNat selitemobj]
        if 0 ≤ count ∧ count < (w.retitemarr.length : Int) then
          devpoll_loop c retevents k (i + 1) (count + 1)
            { w1 with retitemarr := w.retitemarr.set count.toNat (some selitemobj) } tr1
        else
          devpoll_loop c retevents k (i + 1) count w1 tr1

/-- The native method `Java_seda_nbio_SelectSetDevPollImpl_doSelect`
(nbio.c 1338-1475).  `itemarr` is the `itemarr` field of the select set
(`none` = null; only its length is read), `reply` what the OS answers to the
`ioctl` call. -/
def SelectSetDevPollImpl_doSelect (c : SysConsts) (w : DevPollWorld)
    (itemarr : Option (List (Option Nat))) (timeout : Int) (num_fds : Int) (reply : DpReply) :
    DevPollOutcome :=
  match itemarr with
  | none => { ret := 0, exn := none, world := w, trace := [] }
  | some items =>
    if (items.length : Int) ≤ 0 then
      { ret := 0, exn := some JavaException.ArrayIndexOutOfBoundsException, world := w,
        trace := [] }
    else if (w.retitemarr.length : Int) ≤ 0 then
      { ret := 0, exn := some JavaException.ArrayIndexOutOfBoundsException, world := w,
        trace := [] }
    else
      let dp_timeout := timeout
      let dp_nfds := if num_fds > w.state.max_retevents then w.state.max_retevents else num_fds
      let tr := [DevPollEvent.ioctl_DP_POLL dp_timeout dp_nfds]
      let ret := reply.ret
      if ret = 0 then
        { ret := 0, exn := none, world := w, trace := tr }
      else if ret < 0 then
        let myerrno := reply.errno
        if myerrno ≠ c.EINTR then
          { ret := 0, exn := some JavaException.IOException, world := w, trace := tr }
        else
          { ret := 0, exn := none, world := w, trace := tr }
      else
        devpoll_loop c reply.retevents ret.toNat 0 0 w (tr ++ [DevPollEvent.MonitorEnter])

/-- The native method `Java_seda_nbio_SelectSetDevPollImpl_deregister`
(nbio.c 1293-1336).  `POLLREMOVE` comes from `<sys/devpoll.h>` (nbio.c defines
it as `0x1000` when the header does not); `write_ok` says whether `write` on
`/dev/poll` returns `sizeof(struct pollfd)`. -/
def SelectSetDevPollImpl_deregister (POLLREMOVE : Nat) (w : DevPollWorld) (selitemobj : Nat)
    (write_ok : Bool) : DevPollOutcome :=
  let fd := (w.heap selitemobj).fd
  let tr := [DevPollEvent.write_devpoll fd POLLREMOVE]
  if write_ok = false then
    { ret := 0, exn := some JavaException.IOException, world := w, trace := tr }
  else if fd < 0 ∨ fd ≥ (MAX_FDS : Int) then
    { ret := 0, exn := none, world := w, trace := tr }
  else
    match w.state.selitems fd.toNat with
    | some _ =>
      { ret := 0, exn := none,
        world := { w with state := { w.state with
          selitems := Function.update w.state.selitems fd.toNat none } },
        trace := tr }
    | none => { ret := 0, exn := none, world := w, trace := tr }

/-- The platform values the allocation in `init` depends on: the width of
`size_t` in bits and `sizeof(struct pollfd)`. -/
structure Platform where
  size_bits : Nat
  sizeof_pollfd : Nat
  deriving DecidableEq

/-- What `init` cannot decide itself: whether the field IDs are (or can be)
initialised, whether the two `malloc` calls succeed, what `open("/dev/poll")`
returns, and the content of the fresh state block before the table is
cleared. -/
structure InitRuntime where
  fids_ok : Bool
  malloc_state : Bool
  open_ret : Int
  malloc_retevents : Bool
  fresh_selitems : Nat → Option Nat

/-- The outcome of `init`: pending exception, whether the `native_state` field
of the object was set to the state block, whether that block was released
with `free`, the content of the block (`none`: never allocated) and the
number of `struct pollfd` slots of the scratch buffer `retevents` (`none`: no
buffer was obtained). -/
structure InitOutcome where
  exn : Option JavaException
  native_state_set : Bool
  state_freed : Bool
  state : Option devpoll_impl_state
  retevents_slots : Option Nat

/-- The native method `Java_seda_nbio_SelectSetDevPollImpl_init`
(nbio.c 1180-1230).  The byte size passed to the second `malloc` is
`max_retevents * sizeof(struct pollfd)` computed in `size_t`, that is modulo
`2 ^ size_bits`. -/
def SelectSetDevPollImpl_init (p : Platform) (rt : InitRuntime) (max_retevents : Int) :
    InitOutcome :=
  if rt.fids_ok = false then
    { exn := some JavaException.UnsatisfiedLinkError, native_state_set := false,
      state_freed := false, state := none, retevents_slots := none }
  else if rt.malloc_state = false then
    { exn := some JavaException.OutOfMemoryError, native_state_set := false,
      state_freed := false, state := none, retevents_slots := none }
  else
    let devpoll_fd := rt.open_ret
    if devpoll_fd < 0 then
      { exn := some JavaException.IOException, native_state_set := true, state_freed := true,
        state := some { devpoll_fd := devpoll_fd, max_retevents := max_retevents,
                        selitems := rt.fresh_selitems },
        retevents_slots := none }
    else
      let state : devpoll_impl_state :=
        { devpoll_fd := devpoll_fd, max_retevents := max_retevents, selitems := fun _ => none }
      if rt.malloc_retevents = false then
        { exn := some JavaException.OutOfMemoryError, native_state_set := true,
          state_freed := true, state := some state, retevents_slots := none }
      else
        let bytes := ((max_retevents * (p.sizeof_pollfd : Int)) % (2 ^ p.size_bits : Int)).toNat
        { exn := none, native_state_set := true, state_freed := false, state := some state,
          retevents_slots := some (bytes / p.sizeof_pollfd) }

/-! ## Socket streams: `nbSocketRead` and `nbSocketWrite` -/

/-- The sum of two `jint` values as the machine computes it: 32 bits, two's
complement. -/
def jint_add (a b : Int) : Int := (a + b + 2 ^ 31) % 2 ^ 32 - 2 ^ 31

/-- The arguments of `nbSocketRead` / `nbSocketWrite` as the native code sees
them: the `fd` field of the stream (`none` = null object, else the `int` in
it), the byte array `b` (`none` = null, else its length), `off` and `len`. -/
structure StreamCall where
  fdobj : Option Int
  b : Option Int
  off : Int
  len : Int
  deriving DecidableEq

/-- The reply of the OS to the `read` / `write` call: the return value and
`errno`. -/
structure IoReply where
  n : Int
  errno : Int
  deriving DecidableEq

/-- A recorded call `read(fd, data+off, len)` or `write(fd, data+off, len)`
on the elements `data` of the byte array. -/
inductive StreamEvent where
  | read (fd : Int) (off : Int) (len : Int)
  | write (fd : Int) (off : Int) (len : Int)
  deriving DecidableEq

/-- The outcome of a stream method: returned `jint`, the exceptions raised
with `THROW_EXCEPTION` in program order, and the OS calls made on the
buffer. -/
structure StreamOutcome where
  ret : Int
  thrown : List JavaException
  os_calls : List StreamEvent
  deriving DecidableEq

/-- The native method
`Java_seda_nbio_NonblockingSocketInputStream_nbSocketRead` (nbio.c 669-722);
`EAGAIN` comes from `<errno.h>`. -/
def nbSocketRead (EAGAIN : Int) (call : StreamCall) (reply : IoReply) : StreamOutcome :=
  match call.fdobj with
  | none => { ret := -1, thrown := [JavaException.SocketException], os_calls := [] }
  | some fd =>
    if fd = -1 then
      { ret := -1, thrown := [JavaException.SocketException], os_calls := [] }
    else
      match call.b with
      | none => { ret := -1, thrown := [JavaException.NullPointerException], os_calls := [] }
      | some datalen =>
        let thrown :=
          if call.len < 0 ∨ jint_add call.len call.off > datalen then
            [JavaException.ArrayIndexOutOfBoundsException]
          else []
        let os_calls := [StreamEvent.read fd call.off call.len]
        let n := reply.n
        if n = 0 then
          { ret := -1, thrown := thrown, os_calls := os_calls }
        else if n < 0 then
          if reply.errno = EAGAIN then
            { ret := 0, thrown := thrown, os_calls := os_calls }
          else
            { ret := -1, thrown := thrown ++ [JavaException.SocketException],
              os_calls := os_calls }
        else
          { ret := n, thrown := thrown, os_calls := os_calls }

/-- The native method
`Java_seda_nbio_NonblockingSocketOutputStream_nbSocketWrite` (nbio.c 729-778);
`EAGAIN` and `EINTR` come from `<errno.h>`. -/
def nbSocketWrite (EAGAIN EINTR : Int) (call : StreamCall) (reply : IoReply) : StreamOutcome :=
  match call.fdobj with
  | none => { ret := -1, thrown := [JavaException.SocketException], os_calls := [] }
  | some fd =>
    if fd = -1 then
      { ret := -1, thrown := [JavaException.SocketException], os_calls := [] }
    else
      match call.b with
      | none => { ret := -1, thrown := [JavaException.NullPointerException], os_calls := [] }
      | some datalen =>
        let thrown :=
          if call.len < 0 ∨ jint_add call.len call.off > datalen then
            [JavaException.ArrayIndexOutOfBoundsException]
          else []
        let os_calls := [StreamEvent.write fd call.off call.len]
        let n := reply.n
        if n < 0 then
          if reply.errno = EAGAIN ∨ reply.errno = EINTR then
            { ret := 0, thrown := thrown, os_calls := os_calls }
          else
            { ret := -1, thrown := thrown ++ [JavaException.SocketException],
              os_calls := os_calls }
        else
          { ret := n, thrown := thrown, os_calls := os_calls }

/-! ## Cached-interest backend: the steps of doSelect -/

/-- The steps of the cached-interest doSelect in program order: the effects
of `DevPollEvent` together with the reads `state->selitems[index]` of the
registry. -/
inductive DoSelectStep where
  | ioctl_DP_POLL (dp_timeout : Int) (dp_nfds : Int)
  | MonitorEnter
  | selitems_read (index : Int)
  | SetShortField_revents (selitemobj : Nat) (realevents : Nat)
  | SetObjectArrayElement (index : Nat) (selitemobj : Nat)
  | MonitorExit
  deriving DecidableEq

/-- The steps of the loop of the cached-interest doSelect (nbio.c 1406-1471)
and of the `MonitorExit` that precedes each `return` behind it (nbio.c 1425
and 1473); the arguments are those of `devpoll_loop`. -/
def devpoll_loop_steps (c : SysConsts) (retevents : Nat → PollFd) :
    Nat → Nat → Int → DevPollWorld → List DoSelectStep
  | 0, _, _, _ => [DoSelectStep.MonitorExit]
  | k + 1, i, count, w =>
    let pfd := retevents i
    let retfd := pfd.fd
    if retfd < 0 ∨ retfd ≥ (MAX_FDS : Int) then
      [DoSelectStep.MonitorExit]
    else
      DoSelectStep.selitems_read retfd ::
      match w.state.selitems retfd.toNat with
      | none => devpoll_loop_steps c retevents k (i + 1) count w
      | some selitemobj =>
        let realevents := realevents_of_revents c pfd.revents
        let w1 : DevPollWorld :=
          { w with
            heap := Function.update w.heap selitemobj
              { (w.heap selitemobj) with revents := realevents } }
        DoSelectStep.SetShortField_revents selitemobj realevents ::
        DoSelectStep.SetObjectArrayElement count.toNat selitemobj ::
        if 0 ≤ count ∧ count < (w.retitemarr.length : Int) then
          devpoll_loop_steps c retevents k (i + 1) (count + 1)
            { w1 with retitemarr := w.retitemarr.set count.toNat (some selitemobj) }
        else
          devpoll_loop_steps c retevents k (i + 1) count w1

/-- The steps of `Java_seda_nbio_SelectSetDevPollImpl_doSelect`
(nbio.c 1338-1475) in program order, up to its `return`. -/
def SelectSetDevPollImpl_doSelect_steps (c : SysConsts) (w : DevPollWorld)
    (itemarr : Option (List (Option Nat))) (timeout : Int) (num_fds : Int) (reply : DpReply) :
    List DoSelectStep :=
  match itemarr with
  | none => []
  | some items =>
    if (items.length : Int) ≤ 0 then []
    else if (w.retitemarr.length : Int) ≤ 0 then []
    else
      let dp_timeout := timeout
      let dp_nfds := if num_fds > w.state.max_retevents then w.state.max_retevents else num_fds
      let ret := reply.ret
      if ret = 0 then [DoSelectStep.ioctl_DP_POLL dp_timeout dp_nfds]
      else if ret < 0 then [DoSelectStep.ioctl_DP_POLL dp_timeout dp_nfds]
      else
        DoSelectStep.ioctl_DP_POLL dp_timeout dp_nfds :: DoSelectStep.MonitorEnter ::
          devpoll_loop_steps c reply.retevents ret.toNat 0 0 w

/-! ## B-tree: `mdw-btree.h` -/

/-- The minimum degree, `#define BTREE_PARAM_M 3`. -/
def BTREE_PARAM_M : Nat := 3

/-- C `struct _btree_node` (mdw-btree.h 37-43) behind a pointer: `NULL` stands
for a null or uninitialised pointer. The arrays `keys` and `data`, which the
source reads and writes at the same index in every place, are one list of
pairs `(keys[i], data[i])`; `data` is a `void *` (`none` = NULL, else the
object). Arrays are lists of their fixed length, `2M-1` and `2M`; slots the
code has not written yet hold `(0, none)` and `NULL`. The `int numkeys`, which
the code only sets to 0 and to `M-1` and increments, is a `Nat`. -/
inductive btree_node where
  | NULL
  | node (numkeys : Nat) (keys_data : List (Int × Option Nat)) (children : List btree_node)
      (leaf : Int)

/-- The read `a[i]` of a C array; `none` when `i` is outside the array. -/
def array_read {α : Type} (a : List α) (i : Nat) : Option α := a[i]?

/-- The write `a[i] = v` of a C array; `none` when `i` is outside the array. -/
def array_write {α : Type} (a : List α) (i : Nat) (v : α) : Option (List α) :=
  if i < a.length then some (a.set i v) else none

/-- The loop `for (j = j0; j < j0 + n; j++) dst[j] = src[j+off];` (the two
copy loops of `btree_split_child`, mdw-btree.h 104-107 and 110-112); the
arguments are the rounds left `n`, `j` and `dst`. -/
def array_copy {α : Type} (src : List α) (off : Nat) : Nat → Nat → List α → Option (List α)
  | 0, _, dst => some dst
  | n + 1, j, dst =>
    match array_read src (j + off) with
    | none => none
    | some v =>
      match array_write dst j v with
      | none => none
      | some dst1 => array_copy src off n (j + 1) dst1

/-- The loop `for (j = lo + n - 1; j >= lo; j--) a[j+1] = a[j];` (the two
shift loops of `btree_split_child`, mdw-btree.h 117-119 and, with `j-1` for
`j`, 123-126); the arguments are the rounds left `n` and `a`. -/
def array_shift_right {α : Type} (lo : Nat) : Nat → List α → Option (List α)
  | 0, a => some a
  | n + 1, a =>
    match array_read a (lo + n) with
    | none => none
    | some v =>
      match array_write a (lo + n + 1) v with
      | none => none
      | some a1 => array_shift_right lo n a1

/-- `btree_newnode` (mdw-btree.h 83-91), `malloc` succeeding. -/
def btree_newnode : btree_node :=
  btree_node.node 0 (List.replicate (2 * BTREE_PARAM_M - 1) (0, none))
    (List.replicate (2 * BTREE_PARAM_M) btree_node.NULL) 1

/-- The `while` loop of `btree_search` (mdw-btree.h 66-69); the arguments are
the rounds left and `i`, the result is `i` after the loop, `none` when
`keys[i]` is read outside the array. -/
def btree_search_loop (numkeys : Nat) (keys_data : List (Int × Option Nat)) (key : Int) :
    Nat → Nat → Option Nat
  | 0, i => some i
  | r + 1, i =>
    if i < numkeys then
      match array_read keys_data i with
      | none => none
      | some e => if key > e.1 then btree_search_loop numkeys keys_data key r (i + 1) else some i
    else some i

mutual
/-- `btree_search` (mdw-btree.h 60-81): `some d` is the returned pointer `d`
(`none` = NULL); the outer `none` is a read outside an array or through a
null pointer. -/
def btree_search : btree_node → Int → Option (Option Nat)
  | btree_node.NULL, _ => none
  | btree_node.node numkeys keys_data children leaf, key =>
    match btree_search_loop numkeys keys_data key numkeys 0 with
    | none => none
    | some i =>
      if i < numkeys then
        match array_read keys_data i with
        | none => none
        | some e =>
          if key = e.1 then some e.2
          else if leaf ≠ 0 then some none
          else btree_search_children children i key
      else if leaf ≠ 0 then some none
      else btree_search_children children i key
/-- The call `btree_search(node->children[i], key)` of `btree_search`
(mdw-btree.h 80) on the array `children`. -/
def btree_search_children : List btree_node → Nat → Int → Option (Option Nat)
  | [], _, _ => none
  | child :: _, 0, key => btree_search child key
  | _ :: rest, i + 1, key => btree_search_children rest i key
end

/-- `btree_split_child` (mdw-btree.h 93-136). `child` is the node that
`node->children[index]` points to, as at both call sites, so the update of
`child->numkeys` shows in that slot. -/
def btree_split_child (node : btree_node) (index : Nat) (child : btree_node) :
    Option btree_node :=
  match node, child with
  | btree_node.node numkeys keys_data children leaf,
    btree_node.node _ child_keys_data child_children child_leaf =>
    match btree_newnode with
    | btree_node.NULL => none
    | btree_node.node _ newnode_keys_data newnode_children _ =>
      match array_copy child_keys_data BTREE_PARAM_M (BTREE_PARAM_M - 1) 0 newnode_keys_data with
      | none => none
      | some newnode_keys_data1 =>
        match (if child_leaf = 0 then
            array_copy child_children BTREE_PARAM_M BTREE_PARAM_M 0 newnode_children
          else some newnode_children) with
        | none => none
        | some newnode_children1 =>
          let newnode :=
            btree_node.node (BTREE_PARAM_M - 1) newnode_keys_data1 newnode_children1 child_leaf
          let child1 :=
            btree_node.node (BTREE_PARAM_M - 1) child_keys_data child_children child_leaf
          match array_write children index child1 with
          | none => none
          | some children0 =>
            match array_shift_right index (numkeys + 1 - index) children0 with
            | none => none
            | some children1 =>
              match array_write children1 (index + 1) newnode with
              | none => none
              | some children2 =>
                match array_shift_right index (numkeys - index) keys_data with
                | none => none
                | some keys_data1 =>
                  match array_read child_keys_data (BTREE_PARAM_M - 1) with
                  | none => none
                  | some median =>
                    match array_write keys_data1 index median with
                    | none => none
                    | some keys_data2 =>
                      some (btree_node.node (numkeys + 1) keys_data2 children2 leaf)
  | _, _ => none

/-- The `while` loop of the leaf case of `btree_insert_nonfull`
(mdw-btree.h 146-150); the arguments are `i+1` and the array, the result the
array and `i+1` after the loop. -/
def btree_leaf_shift (key : Int) :
    Nat → List (Int × Option Nat) → Option (List (Int × Option Nat) × Nat)
  | 0, keys_data => some (keys_data, 0)
  | n + 1, keys_data =>
    match array_read keys_data n with
    | none => none
    | some e =>
      if key < e.1 then
        match array_write keys_data (n + 1) e with
        | none => none
        | some keys_data1 => btree_leaf_shift key n keys_data1
      else some (keys_data, n + 1)

/-- The `while` loop of the non-leaf case of `btree_insert_nonfull` and the
`i++` behind it (mdw-btree.h 159-162); the argument is `i+1`, the result `i`
after the `i++`. -/
def btree_descend_index (key : Int) (keys_data : List (Int × Option Nat)) : Nat → Option Nat
  | 0 => some 0
  | n + 1 =>
    match array_read keys_data n with
    | none => none
    | some e => if key < e.1 then btree_descend_index key keys_data n else some (n + 1)

/-- `btree_insert_nonfull` (mdw-btree.h 138-179). The first argument bounds
the depth of the recursion; the result is the node after the call, `none`
when the depth is used up, an array is accessed outside its bounds or a null
pointer is followed. -/
def btree_insert_nonfull : Nat → btree_node → Int → Option Nat → Option btree_node
  | 0, _, _, _ => none
  | _ + 1, btree_node.NULL, _, _ => none
  | depth + 1, btree_node.node numkeys keys_data children leaf, key, data =>
    if leaf = 1 then
      match btree_leaf_shift key numkeys keys_data with
      | none => none
      | some (keys_data1, i1) =>
        match array_write keys_data1 i1 (key, data) with
        | none => none
        | some keys_data2 => some (btree_node.node (numkeys + 1) keys_data2 children leaf)
    else
      match btree_descend_index key keys_data numkeys with
      | none => none
      | some i =>
        match array_read children i with
        | none => none
        | some btree_node.NULL => none
        | some (btree_node.node child_numkeys child_keys_data child_children child_leaf) =>
          if child_numkeys = 2 * BTREE_PARAM_M - 1 then
            match btree_split_child (btree_node.node numkeys keys_data children leaf) i
                (btree_node.node child_numkeys child_keys_data child_children child_leaf) with
            | none => none
            | some btree_node.NULL => none
            | some (btree_node.node numkeys1 keys_data1 children1 leaf1) =>
              match array_read keys_data1 i with
              | none => none
              | some e =>
                let i1 := if key > e.1 then i + 1 else i
                match array_read children1 i1 with
                | none => none
                | some child1 =>
                  match btree_insert_nonfull depth child1 key data with
                  | none => none
                  | some child2 =>
                    match array_write children1 i1 child2 with
                    | none => none
                    | some children2 =>
                      some (btree_node.node numkeys1 keys_data1 children2 leaf1)
          else
            match btree_insert_nonfull depth
                (btree_node.node child_numkeys child_keys_data child_children child_leaf)
                key data with
            | none => none
            | some child2 =>
              match array_write children i child2 with
              | none => none
              | some children2 => some (btree_node.node numkeys keys_data children2 leaf)

mutual
/-- The number of nodes on the longest path from the node down through its
`children` array, a bound for the depth of the recursion of
`btree_insert_nonfull`. -/
def btree_depth : btree_node → Nat
  | btree_node.NULL => 0
  | btree_node.node _ _ children _ => btree_depth_children children + 1
/-- The largest `btree_depth` among the nodes of a `children` array. -/
def btree_depth_children : List btree_node → Nat
  | [] => 0
  | child :: rest => max (btree_depth child) (btree_depth_children rest)
end

/-- `btree_insert` (mdw-btree.h 182-200): the new root of the tree. -/
def btree_insert (tree : btree_node) (key : Int) (data : Option Nat) : Option btree_node :=
  match tree with
  | btree_node.NULL => none
  | btree_node.node numkeys _ _ _ =>
    if numkeys = 2 * BTREE_PARAM_M - 1 then
      match btree_newnode with
      | btree_node.NULL => none
      | btree_node.node node_numkeys node_keys_data node_children _ =>
        match array_write node_children 0 tree with
        | none => none
        | some node_children1 =>
          match btree_split_child
              (btree_node.node node_numkeys node_keys_data node_children1 0) 0 tree with
          | none => none
          | some node1 => btree_insert_nonfull (btree_depth tree + 1) node1 key data
    else btree_insert_nonfull (btree_depth tree) tree key data

/-! ## Cached-interest backend with the B-tree registry (`#ifdef USE_BTREE`) -/

/-- The read `state->selitems[i]` of the array `jobject selitems[MAX_FDS]`
(nbio.c 1163): there is no result when `i` is not an index of the array. -/
def selitems_read (selitems : Nat → Option Nat) (i : Int) : Option (Option Nat) :=
  if 0 ≤ i ∧ i < (MAX_FDS : Int) then some (selitems i.toNat) else none

/-- The store `state->selitems[i] = v` into the array `jobject
selitems[MAX_FDS]` (nbio.c 1163): there is no result when `i` is not an index
of the array. -/
def selitems_write (selitems : Nat → Option Nat) (i : Int) (v : Option Nat) :
    Option (Nat → Option Nat) :=
  if 0 ≤ i ∧ i < (MAX_FDS : Int) then some (Function.update selitems i.toNat v) else none

/-- The native method `Java_seda_nbio_SelectSetDevPollImpl_register`
(nbio.c 1232-1291) with every access to the table made through
`selitems_read` and `selitems_write`: the read of `state->selitems[fd]` at
1284 and the store at 1286, after the range test at 1278.  The result is
`none` when an access falls outside the array. -/
def SelectSetDevPollImpl_register_array (c : SysConsts) (w : DevPollWorld) (selitemobj : Nat)
    (write_ok : Bool) : Option DevPollOutcome :=
  let fd := (w.heap selitemobj).fd
  let events := (w.heap selitemobj).events
  let realevents := if events ≠ 0 then realevents_of_events c events else 0
  let tr := [DevPollEvent.write_devpoll fd realevents]
  if write_ok = false then
    some { ret := 0, exn := some JavaException.IOException, world := w, trace := tr }
  else if fd < 0 ∨ fd ≥ (MAX_FDS : Int) then
    some { ret := 0, exn := none, world := w, trace := tr }
  else
    match selitems_read w.state.selitems fd with
    | none => none
    | some none =>
      match selitems_write w.state.selitems fd (some selitemobj) with
      | none => none
      | some selitems1 =>
        some { ret := 0, exn := none,
               world := { w with state := { w.state with selitems := selitems1 } },
               trace := tr }
    | some (some _) => some { ret := 0, exn := none, world := w, trace := tr }

/-- The native method `Java_seda_nbio_SelectSetDevPollImpl_deregister`
(nbio.c 1293-1336) with every access to the table made through
`selitems_read` and `selitems_write`: the read of `state->selitems[fd]` at
1326 and the store at 1331, after the range test at 1321.  The result is
`none` when an access falls outside the array. -/
def SelectSetDevPollImpl_deregister_array (POLLREMOVE : Nat) (w : DevPollWorld)
    (selitemobj : Nat) (write_ok : Bool) : Option DevPollOutcome :=
  let fd := (w.heap selitemobj).fd
  let tr := [DevPollEvent.write_devpoll fd POLLREMOVE]
  if write_ok = false then
    some { ret := 0, exn := some JavaException.IOException, world := w, trace := tr }
  else if fd < 0 ∨ fd ≥ (MAX_FDS : Int) then
    some { ret := 0, exn := none, world := w, trace := tr }
  else
    match selitems_read w.state.selitems fd with
    | none => none
    | some (some _) =>
      match selitems_write w.state.selitems fd none with
      | none => none
      | some selitems1 =>
        some { ret := 0, exn := none,
               world := { w with state := { w.state with selitems := selitems1 } },
               trace := tr }
    | some none => some { ret := 0, exn := none, world := w, trace := tr }

/-- The loop of the cached-interest doSelect (nbio.c 1406-1471) followed by
`MonitorExit` and the return, with the read of `state->selitems[retfd]` at
1429 made through `selitems_read`, after the range test at 1422.  The first
argument is the number of rounds left (`ret - i`); the result is `none` when
the read falls outside the array. -/
def devpoll_loop_array (c : SysConsts) (retevents : Nat → PollFd) :
    Nat → Nat → Int → DevPollWorld → List DevPollEvent → Option DevPollOutcome
  | 0, _, count, w, tr =>
    some { ret := count, exn := none, world := w, trace := tr ++ [DevPollEvent.MonitorExit] }
  | k + 1, i, count, w, tr =>
    let pfd := retevents i
    let retfd := pfd.fd
    if retfd < 0 ∨ retfd ≥ (MAX_FDS : Int) then
      some { ret := 0, exn := some JavaException.ArrayIndexOutOfBoundsException, world := w,
             trace := tr ++ [DevPollEvent.MonitorExit] }
    else
      match selitems_read w.state.selitems retfd with
      | none => none
      | some none => devpoll_loop_array c retevents k (i + 1) count w tr
      | some (some selitemobj) =>
        let realevents := realevents_of_revents c pfd.revents
        let w1 : DevPollWorld :=
          { w with
            heap := Function.update w.heap selitemobj
              { (w.heap selitemobj) with revents := realevents } }
        let tr1 := tr ++ [DevPollEvent.SetShortField_revents selitemobj realevents,
                          DevPollEvent.SetObjectArrayElement count.toNat selitemobj]
        if 0 ≤ count ∧ count < (w.retitemarr.length : Int) then
          devpoll_loop_array c retevents k (i + 1) (count + 1)
            { w1 with retitemarr := w.retitemarr.set count.toNat (some selitemobj) } tr1
        else
          devpoll_loop_array c retevents k (i + 1) count w1 tr1

/-- The native method `Java_seda_nbio_SelectSetDevPollImpl_doSelect`
(nbio.c 1338-1475) with the reads of the table made through `selitems_read`;
the table is accessed in the loop only.  The result is `none` when a read
falls outside the array. -/
def SelectSetDevPollImpl_doSelect_array (c : SysConsts) (w : DevPollWorld)
    (itemarr : Option (List (Option Nat))) (timeout : Int) (num_fds : Int) (reply : DpReply) :
    Option DevPollOutcome :=
  match itemarr with
  | none => some { ret := 0, exn := none, world := w, trace := [] }
  | some items =>
    if (items.length : Int) ≤ 0 then
      some { ret := 0, exn := some JavaException.ArrayIndexOutOfBoundsException, world := w,
             trace := [] }
    else if (w.retitemarr.length : Int) ≤ 0 then
      some { ret := 0, exn := some JavaException.ArrayIndexOutOfBoundsException, world := w,
             trace := [] }
    else
      let dp_timeout := timeout
      let dp_nfds := if num_fds > w.state.max_retevents then w.state.max_retevents else num_fds
      let tr := [DevPollEvent.ioctl_DP_POLL dp_timeout dp_nfds]
      let ret := reply.ret
      if ret = 0 then
        some { ret := 0, exn := none, world := w, trace := tr }
      else if ret < 0 then
        let myerrno := reply.errno
        if myerrno ≠ c.EINTR then
          some { ret := 0, exn := some JavaException.IOException, world := w, trace := tr }
        else
          some { ret := 0, exn := none, world := w, trace := tr }
      else
        devpoll_loop_array c reply.retevents ret.toNat 0 0 w
          (tr ++ [DevPollEvent.MonitorEnter])

/-! ## Vocabulary of the statements -/

/-- The items with a nonzero requested mask, each paired with its index in the
item array (the head of `its` has index `i`), in array order. -/
def active_items (its : List SelectItem) (i : Nat) : List (Nat × SelectItem) :=
  (its.enumFrom i).filter (fun p => p.2.events ≠ 0)

/-- The portable mask of an OS `revents` value as the translation table is
stated: `0x01` for input-ready or priority-input, `0x02` for output-ready,
`0x80` for error, hangup or invalid descriptor, OR-ed together. -/
def table_mask (c : SysConsts) (r : Nat) : Nat :=
  ((if r &&& (c.POLLIN ||| c.POLLPRI) ≠ 0 then 0x01 else 0) |||
   (if r &&& c.POLLOUT ≠ 0 then 0x02 else 0)) |||
   (if r &&& (c.POLLERR ||| c.POLLHUP ||| c.POLLNVAL) ≠ 0 then 0x80 else 0)

/-- The OS interest bits of a portable mask as the translation table is stated:
`POLLIN|POLLPRI` for `0x01`, `POLLOUT` for `0x02`, OR-ed together. -/
def table_interest (c : SysConsts) (e : Nat) : Nat :=
  (if e &&& 0x01 ≠ 0 then c.POLLIN ||| c.POLLPRI else 0) |||
  (if e &&& 0x02 ≠ 0 then c.POLLOUT else 0)

/-- The `pollfd` requested for an item: its handle, the OS interest bits of its
mask, and `revents = 0`. -/
def request_of (c : SysConsts) (p : Nat × SelectItem) : PollFd :=
  { fd := p.2.fd, events := table_interest c p.2.events, revents := 0 }

/-- The request slot of the item at index `j`: the number of items before it
whose requested mask is nonzero. -/
def slot_of (its : List SelectItem) (j : Nat) : Nat :=
  (its.take j).countP (fun x => x.events ≠ 0)

/-- What poll(2) guarantees about its reply to a call: a positive return value
is the number of `pollfd`s whose `revents` is nonzero, and the `revents` of a
`pollfd` holds only bits that were requested in its `events` or one of
`POLLERR`, `POLLHUP`, `POLLNVAL`. -/
def PollContract (c : SysConsts) (call : PollCall) (reply : PollReply) : Prop :=
  (0 < reply.ret →
    reply.ret = (((List.range call.num_ufds).filter (fun n => reply.revents n ≠ 0)).length : Int)) ∧
  ∀ p ∈ call.ufds.enum,
    reply.revents p.1 &&& (p.2.events ||| (c.POLLERR ||| c.POLLHUP ||| c.POLLNVAL))
      = reply.revents p.1

/-- The item array after the third loop, item by item from slot `n` on. -/
def written_items (c : SysConsts) (rev : Nat → Nat) : List SelectItem → Nat → List SelectItem
  | [], _ => []
  | it :: rest, n =>
    if it.events ≠ 0 then
      (if rev n ≠ 0 then { it with revents := realevents_of_revents c (rev n) } else it)
        :: written_items c rev rest (n + 1)
    else it :: written_items c rev rest n

/-- The writes of the third loop, for items from index `i` and slot `n` on. -/
def written_log (c : SysConsts) (rev : Nat → Nat) : List SelectItem → Nat → Nat → List (Nat × Nat)
  | [], _, _ => []
  | it :: rest, i, n =>
    if it.events ≠ 0 then
      if rev n ≠ 0 then
        (i, realevents_of_revents c (rev n)) :: written_log c rev rest (i + 1) (n + 1)
      else written_log c rev rest (i + 1) (n + 1)
    else written_log c rev rest (i + 1) n

/-- The loop of the cached-interest doSelect (the body of `devpoll_loop`) run
over an explicit list of raw events, followed by `MonitorExit` and the
return. -/
def devpoll_scan (c : SysConsts) :
    List PollFd → Int → DevPollWorld → List DevPollEvent → DevPollOutcome
  | [], count, w, tr =>
    { ret := count, exn := none, world := w, trace := tr ++ [DevPollEvent.MonitorExit] }
  | pfd :: rest, count, w, tr =>
    if pfd.fd < 0 ∨ pfd.fd ≥ (MAX_FDS : Int) then
      { ret := 0, exn := some JavaException.ArrayIndexOutOfBoundsException, world := w,
        trace := tr ++ [DevPollEvent.MonitorExit] }
    else
      match w.state.selitems pfd.fd.toNat with
      | none => devpoll_scan c rest count w tr
      | some selitemobj =>
        if 0 ≤ count ∧ count < (w.retitemarr.length : Int) then
          devpoll_scan c rest (count + 1)
            { state := w.state,
              heap := Function.update w.heap selitemobj
                { (w.heap selitemobj) with revents := realevents_of_revents c pfd.revents },
              retitemarr := w.retitemarr.set count.toNat (some selitemobj) }
            (tr ++ [DevPollEvent.SetShortField_revents selitemobj
                      (realevents_of_revents c pfd.revents),
                    DevPollEvent.SetObjectArrayElement count.toNat selitemobj])
        else
          devpoll_scan c rest count
            { state := w.state,
              heap := Function.update w.heap selitemobj
                { (w.heap selitemobj) with revents := realevents_of_revents c pfd.revents },
              retitemarr := w.retitemarr }
            (tr ++ [DevPollEvent.SetShortField_revents selitemobj
                      (realevents_of_revents c pfd.revents),
                    DevPollEvent.SetObjectArrayElement count.toNat selitemobj])

/-- The reply of the OS to `ioctl(DP_POLL)` that returns the raw events `evs`,
in this order. -/
def dp_reply_of (evs : List PollFd) : DpReply :=
  { ret := (evs.length : Int), errno := 0,
    retevents := fun i => evs.getD i { fd := 0, events := 0, revents := 0 } }

/-- The raw events of a batch whose handle has a registry entry, each with the
registered owner, in batch order. -/
def registered_events (st : devpoll_impl_state) (evs : List PollFd) : List (Nat × PollFd) :=
  evs.filterMap (fun e => (st.selitems e.fd.toNat).map (fun o => (o, e)))

/-- All handles of a batch lie in `[0, MAX_FDS)`. -/
def handles_in_range (evs : List PollFd) : Prop :=
  ∀ e ∈ evs, 0 ≤ e.fd ∧ e.fd < (MAX_FDS : Int)

/-- A sequence of register calls on the same backend: each pair is the object
registered and whether the `write` of its interest record succeeds. -/
def register_all (c : SysConsts) : List (Nat × Bool) → DevPollWorld → DevPollWorld
  | [], w => w
  | (selitemobj, write_ok) :: rest, w =>
    register_all c rest (SelectSetDevPollImpl_register c w selitemobj write_ok).world

/-- Whether a register call of the object enters it into the registry slot
`n` when that slot is free: the write succeeds and the handle is `n`, within
`[0, MAX_FDS)`. -/
def registers_at (w : DevPollWorld) (n : Nat) (call : Nat × Bool) : Bool :=
  call.2 && decide (0 ≤ (w.heap call.1).fd ∧ (w.heap call.1).fd < (MAX_FDS : Int) ∧
    (w.heap call.1).fd.toNat = n)

/-- The backend after an item has been registered and then immediately
deregistered, the removal record being written. -/
def registered_then_deregistered (c : SysConsts) (POLLREMOVE : Nat) (w : DevPollWorld)
    (selitemobj : Nat) (write_ok : Bool) : DevPollWorld :=
  (SelectSetDevPollImpl_deregister POLLREMOVE
    (SelectSetDevPollImpl_register c w selitemobj write_ok).world selitemobj true).world

/-- The effect a step of doSelect leaves in the outcome's trace; a read of the
registry leaves none. -/
def DoSelectStep.effect : DoSelectStep → Option DevPollEvent
  | DoSelectStep.ioctl_DP_POLL t n => some (DevPollEvent.ioctl_DP_POLL t n)
  | DoSelectStep.MonitorEnter => some DevPollEvent.MonitorEnter
  | DoSelectStep.selitems_read _ => none
  | DoSelectStep.SetShortField_revents o r => some (DevPollEvent.SetShortField_revents o r)
  | DoSelectStep.SetObjectArrayElement i o => some (DevPollEvent.SetObjectArrayElement i o)
  | DoSelectStep.MonitorExit => some DevPollEvent.MonitorExit

/-- The steps of the translation phase: a registry lookup, or the write of a
result into an item or into the result array. -/
def DoSelectStep.translates : DoSelectStep → Bool
  | DoSelectStep.selitems_read _ => true
  | DoSelectStep.SetShortField_revents _ _ => true
  | DoSelectStep.SetObjectArrayElement _ _ => true
  | _ => false

/-- A select set shared by several threads: the backend, the thread that owns
the monitor of the select-set object (`none`: free), and the `count` of the
doSelect in progress. -/
structure SelectSetSystem where
  world : DevPollWorld
  monitor : Option Nat
  count : Int

/-- The atomic actions of a thread on a shared select set: entering and leaving
the monitor of the select-set object, the body of the native `register` and
`deregister`, and one round of the loop of doSelect on a raw event. -/
inductive ThreadAction where
  | MonitorEnter
  | MonitorExit
  | register (selitemobj : Nat) (write_ok : Bool)
  | deregister (selitemobj : Nat) (write_ok : Bool)
  | translate (pfd : PollFd)
  deriving DecidableEq

/-- Modelled from the spec: the Java methods `register` and `deregister` of
the class `SelectSetDevPollImpl`, which call the native functions of nbio.c and
whose source is not among the files of the native layer.  The spec says of
them: "`register`/`deregister` must take the same lock" as `poll`.  So a
thread runs the native `register` or `deregister` only while it owns the
monitor of the select-set object. -/
def caller_owns_monitor (s : SelectSetSystem) (t : Nat) : Bool :=
  decide (s.monitor = some t)

/-- One action of thread `t`, `none` when it is not enabled. The thread
`selector` runs doSelect: its `MonitorEnter` (nbio.c 1403) starts the count at
0, and its rounds run with the monitor held. The other threads call register
and deregister, whose native code (nbio.c 1232-1336) enters no monitor itself
and runs when `caller_owns_monitor` allows it.  A monitor is entered only when
it is free and left only by its owner. -/
def system_step (c : SysConsts) (POLLREMOVE : Nat)
    (selector : Nat) (s : SelectSetSystem) (t : Nat) : ThreadAction → Option SelectSetSystem
  | ThreadAction.MonitorEnter =>
    if s.monitor = none then
      some { s with monitor := some t, count := if t = selector then 0 else s.count }
    else none
  | ThreadAction.MonitorExit =>
    if s.monitor = some t then some { s with monitor := none } else none
  | ThreadAction.register selitemobj write_ok =>
    if t ≠ selector ∧ caller_owns_monitor s t = true then
      some { s with world := (SelectSetDevPollImpl_register c s.world selitemobj write_ok).world }
    else none
  | ThreadAction.deregister selitemobj write_ok =>
    if t ≠ selector ∧ caller_owns_monitor s t = true then
      some { s with
        world := (SelectSetDevPollImpl_deregister POLLREMOVE s.world selitemobj write_ok).world }
    else none
  | ThreadAction.translate pfd =>
    if t = selector ∧ s.monitor = some selector then
      some { s with
        world := (devpoll_loop c (fun _ => pfd) 1 0 s.count s.world []).world,
        count := (devpoll_loop c (fun _ => pfd) 1 0 s.count s.world []).ret }
    else none

/-- An interleaving: the states passed through when the threads take the
given actions one after the other from `s`, the first being `s` itself; `none`
when one of the actions is not enabled where it is taken. -/
def system_run (c : SysConsts) (POLLREMOVE : Nat)
    (selector : Nat) : SelectSetSystem → List (Nat × ThreadAction) → Option (List SelectSetSystem)
  | s, [] => some [s]
  | s, (t, a) :: rest =>
    match system_step c POLLREMOVE selector s t a with
    | none => none
    | some s1 =>
      match system_run c POLLREMOVE selector s1 rest with
      | none => none
      | some states => some (s :: states)

/-- The key `keys[i]` of an array `keys_data`. -/
def key_at (keys_data : List (Int × Option Nat)) (i : Nat) : Int :=
  (keys_data.getD i (0, none)).1

/-- The key `k` lies above the lower bound `lo` (`none`: no bound). -/
def above (lo : Option Int) (k : Int) : Prop :=
  match lo with
  | none => True
  | some l => l < k

/-- The key `k` lies below the upper bound `hi` (`none`: no bound). -/
def below (k : Int) (hi : Option Int) : Prop :=
  match hi with
  | none => True
  | some u => k < u

/-- The conditions on one node: between `m` and `2M-1` keys, arrays of the
declared lengths `2M-1` and `2M`, the first `numkeys` keys strictly increasing
and strictly between the bounds `lo` and `hi`. -/
def node_ok (m : Nat) (lo hi : Option Int) (numkeys : Nat)
    (keys_data : List (Int × Option Nat)) (children : List btree_node) : Prop :=
  m ≤ numkeys ∧ numkeys ≤ 2 * BTREE_PARAM_M - 1 ∧
  keys_data.length = 2 * BTREE_PARAM_M - 1 ∧ children.length = 2 * BTREE_PARAM_M ∧
  (∀ i j, i < j → j < numkeys → key_at keys_data i < key_at keys_data j) ∧
  (∀ i, i < numkeys → above lo (key_at keys_data i) ∧ below (key_at keys_data i) hi)

/-- A well-formed subtree of height `h` (0: a leaf) whose keys lie strictly
between `lo` and `hi` and whose root has at least `m` keys: every node obeys
`node_ok`, with at least `M-1` keys below the root, and child `i` of a node with
`n` keys, for each `i ≤ n`, is a well-formed subtree of height `h-1` between
`keys[i-1]` and `keys[i]` (the bounds of the node itself at both ends). -/
def btree_wf : Nat → Nat → Option Int → Option Int → btree_node → Prop
  | _, _, _, _, btree_node.NULL => False
  | 0, m, lo, hi, btree_node.node numkeys keys_data children leaf =>
    leaf = 1 ∧ node_ok m lo hi numkeys keys_data children
  | h + 1, m, lo, hi, btree_node.node numkeys keys_data children leaf =>
    leaf = 0 ∧ node_ok m lo hi numkeys keys_data children ∧
    ∀ i, i ≤ numkeys →
      btree_wf h (BTREE_PARAM_M - 1)
        (if i = 0 then lo else some (key_at keys_data (i - 1)))
        (if i = numkeys then hi else some (key_at keys_data i))
        (children.getD i btree_node.NULL)

/-- The pair `x = (key, data)` is stored in the subtree of height `h`: in one
of the first `numkeys` slots of the node or in one of its first `numkeys + 1`
children. -/
def btree_contains : Nat → btree_node → Int × Option Nat → Prop
  | _, btree_node.NULL, _ => False
  | 0, btree_node.node numkeys keys_data _ _, x => ∃ i, i < numkeys ∧ keys_data[i]? = some x
  | h + 1, btree_node.node numkeys keys_data children _, x =>
    (∃ i, i < numkeys ∧ keys_data[i]? = some x) ∨
    ∃ i, i ≤ numkeys ∧ btree_contains h (children.getD i btree_node.NULL) x

/-- A sequence of `btree_insert` calls on the tree, each on the root the call
before returned. -/
def btree_insert_seq : btree_node → List (Int × Option Nat) → Option btree_node
  | tree, [] => some tree
  | tree, (key, data) :: rest =>
    match btree_insert tree key data with
    | none => none
    | some tree1 => btree_insert_seq tree1 rest

/-- The statement proved of `btree_insert_nonfull` at height `h` with recursion
depth `depth`. -/
def insert_nonfull_ok (h depth : Nat) : Prop :=
  ∀ (m : Nat) (lo hi : Option Int) (nk : Nat) (kd : List (Int × Option Nat))
    (cs : List btree_node) (leaf : Int) (key : Int) (data : Option Nat),
    btree_wf h m lo hi (btree_node.node nk kd cs leaf) → nk < 2 * BTREE_PARAM_M - 1 →
    above lo key → below key hi →
    (∀ d, ¬ btree_contains h (btree_node.node nk kd cs leaf) (key, d)) →
    ∃ t, btree_insert_nonfull depth (btree_node.node nk kd cs leaf) key data = some t ∧
      btree_wf h m lo hi t ∧
      ∀ x, btree_contains h t x ↔
        x = (key, data) ∨ btree_contains h (btree_node.node nk kd cs leaf) x

/-- The B-tree invariant with minimum degree `M` for a subtree whose leaves
are all at depth `h` below its root; `root` says whether the node is the root
of the tree. The keys of the node are strictly increasing, there are at most
`2M-1` of them and, below the root, at least `M-1`; a leaf has `leaf` set; a
non-leaf node with `n` keys has `n+1` children, each obeying the invariant
with its leaves at depth `h-1`, and every key stored under child `i` lies
strictly between `keys[i-1]` and `keys[i]`. -/
def btree_invariant : Nat → Bool → btree_node → Prop
  | _, _, btree_node.NULL => False
  | 0, root, btree_node.node numkeys keys_data _ leaf =>
    leaf ≠ 0 ∧
    (∀ i j, i < j → j < numkeys → key_at keys_data i < key_at keys_data j) ∧
    numkeys ≤ 2 * BTREE_PARAM_M - 1 ∧ (root = false → BTREE_PARAM_M - 1 ≤ numkeys)
  | h + 1, root, btree_node.node numkeys keys_data children leaf =>
    leaf = 0 ∧
    (∀ i j, i < j → j < numkeys → key_at keys_data i < key_at keys_data j) ∧
    numkeys ≤ 2 * BTREE_PARAM_M - 1 ∧ (root = false → BTREE_PARAM_M - 1 ≤ numkeys) ∧
    ∀ i, i ≤ numkeys →
      btree_invariant h false (children.getD i btree_node.NULL) ∧
      ∀ x, btree_contains h (children.getD i btree_node.NULL) x →
        (0 < i → key_at keys_data (i - 1) < x.1) ∧ (i < numkeys → x.1 < key_at keys_data i)

/-- A runtime in which the field IDs are initialised and `malloc` succeeds. -/
def rt_ok : Runtime := { fids_ok := true, malloc_ufds := true, malloc_ufds_map := true }

/-- An interest set with one item on handle 3 that requests only
`WRITE_READY`. -/
def write_only_set : List SelectItem := [{ fd := 3, events := 0x02, revents := 0 }]

/-- The OS reports one ready slot, with both `POLLIN` and `POLLOUT` set (Linux
values) in every `revents`. -/
def reply_in_out : PollReply := { ret := 1, errno := 0, revents := fun _ => 0x005 }

/-- The OS reports one ready slot with only `POLLOUT` set. -/
def reply_out : PollReply := { ret := 1, errno := 0, revents := fun _ => 0x004 }

/-- A `poll` call interrupted by a signal (`EINTR` is 4 on Linux). -/
def reply_eintr : PollReply := { ret := -1, errno := 4, revents := fun _ => 0 }

/-- A `poll` call failing with `EBADF` (9 on Linux). -/
def reply_ebadf : PollReply := { ret := -1, errno := 9, revents := fun _ => 0 }

/-- A `poll` call that times out. -/
def reply_zero : PollReply := { ret := 0, errno := 0, revents := fun _ => 0 }

/-- A cached-interest backend in which object 0 (handle 3, requesting only
`WRITE_READY`) is registered, with a result array of one slot. -/
def world_one : DevPollWorld :=
  { state := { devpoll_fd := 7, max_retevents := 16,
               selitems := fun n => if n = 3 then some 0 else none },
    heap := fun _ => { fd := 3, events := 0x02, revents := 0 },
    retitemarr := [none] }

/-- The kernel returns one raw event, for handle 3, with `POLLIN` and `POLLOUT`
set. -/
def dp_reply_in_out : DpReply :=
  { ret := 1, errno := 0, retevents := fun _ => { fd := 3, events := 0x004, revents := 0x005 } }

/-- The kernel returns one raw event, for handle 3, with only `POLLOUT` set. -/
def dp_reply_out : DpReply :=
  { ret := 1, errno := 0, retevents := fun _ => { fd := 3, events := 0x004, revents := 0x004 } }

/-- An `ioctl(DP_POLL)` interrupted by a signal. -/
def dp_reply_eintr : DpReply :=
  { ret := -1, errno := 4, retevents := fun _ => { fd := 0, events := 0, revents := 0 } }

/-- An `ioctl(DP_POLL)` failing with `EBADF`. -/
def dp_reply_ebadf : DpReply :=
  { ret := -1, errno := 9, retevents := fun _ => { fd := 0, events := 0, revents := 0 } }

/-- An `ioctl(DP_POLL)` that times out. -/
def dp_reply_zero : DpReply :=
  { ret := 0, errno := 0, retevents := fun _ => { fd := 0, events := 0, revents := 0 } }

/-- A cached-interest backend with an empty registry whose objects are items on
the closed handle -1 that request `READ_READY`. -/
def world_closed : DevPollWorld :=
  { state := { devpoll_fd := 7, max_retevents := 16, selitems := fun _ => none },
    heap := fun _ => { fd := -1, events := 0x01, revents := 0 },
    retitemarr := [none] }

/-- An interest set with one item on the closed handle -1 that requests
`READ_READY`. -/
def closed_set : List SelectItem := [{ fd := -1, events := 0x01, revents := 0 }]

/-- Objects of the example scenario: object 0 is channel A (handle 5,
`READ_READY`), object 1 is channel B (handle 9, `WRITE_READY`), every other
object is an item on handle 12 requesting `READ_READY`. -/
def heap_ab : Nat → SelectItem := fun o =>
  if o = 0 then { fd := 5, events := 0x01, revents := 0 }
  else if o = 1 then { fd := 9, events := 0x02, revents := 0 }
  else { fd := 12, events := 0x01, revents := 0 }

/-- A freshly initialised cached-interest backend (empty registry) over the
objects `heap_ab`, with a result array of two slots. -/
def world_fresh : DevPollWorld :=
  { state := { devpoll_fd := 7, max_retevents := 16, selitems := fun _ => none },
    heap := heap_ab,
    retitemarr := [none, none] }

/-- The backend `world_fresh` after A and B have been registered. -/
def world_ab : DevPollWorld :=
  { state := { devpoll_fd := 7, max_retevents := 16,
               selitems := fun n => if n = 5 then some 0 else if n = 9 then some 1 else none },
    heap := heap_ab,
    retitemarr := [none, none] }

/-- The backend `world_ab` with a result array of one slot only. -/
def world_ab_one_slot : DevPollWorld :=
  { state := world_ab.state, heap := heap_ab, retitemarr := [none] }

/-- The OS reports handle 5 readable and handle 9 writable (Linux values). -/
def events_ab : List PollFd :=
  [{ fd := 5, events := 0x003, revents := 0x001 }, { fd := 9, events := 0x004, revents := 0x004 }]

/-- A raw event for the handle 40000, which is not below `MAX_FDS`. -/
def event_high : PollFd := { fd := 40000, events := 0x003, revents := 0x001 }

/-- A raw event for handle 12, which has no entry in `world_ab`. -/
def event_stale : PollFd := { fd := 12, events := 0x003, revents := 0x001 }

/-- A stream on handle 3 asked to transfer `len = 8` bytes at `off = 0` of a
byte array of length 4. -/
def stream_call_long : StreamCall := { fdobj := some 3, b := some 4, off := 0, len := 8 }

/-- A stream on handle 3 asked to transfer `len = -1` bytes at `off = 0` of a
byte array of length 4. -/
def stream_call_negative : StreamCall := { fdobj := some 3, b := some 4, off := 0, len := -1 }

/-- The OS transfers 8 bytes. -/
def io_reply_eight : IoReply := { n := 8, errno := 0 }

/-- The OS call fails with `EINVAL` (22 on Linux; `EAGAIN` is 11). -/
def io_reply_einval : IoReply := { n := -1, errno := 22 }

/-- A runtime of `init` in which `open("/dev/poll")` fails. -/
def init_open_fails : InitRuntime :=
  { fids_ok := true, malloc_state := true, open_ret := -1, malloc_retevents := true,
    fresh_selitems := fun _ => none }

/-- A runtime of `init` in which the scratch buffer cannot be allocated. -/
def init_scratch_fails : InitRuntime :=
  { fids_ok := true, malloc_state := true, open_ret := 7, malloc_retevents := false,
    fresh_selitems := fun _ => none }

/-- A cached-interest backend with an empty registry whose objects are items on
the handle 40000, which is not below `MAX_FDS`, that request `READ_READY`. -/
def world_high : DevPollWorld :=
  { state := { devpoll_fd := 7, max_retevents := 16, selitems := fun _ => none },
    heap := fun _ => { fd := 40000, events := 0x01, revents := 0 },
    retitemarr := [none] }

/-- The shared select set over `world_fresh` with the monitor free. -/
def system_fresh : SelectSetSystem := { world := world_fresh, monitor := none, count := 0 }

/-- Thread 1 registers A and B owning the monitor; thread 0, in doSelect,
translates the raw events `events_ab` owning it; thread 1 deregisters A
owning it. -/
def run_synchronized : List (Nat × ThreadAction) :=
  [(1, ThreadAction.MonitorEnter), (1, ThreadAction.register 0 true),
   (1, ThreadAction.register 1 true), (1, ThreadAction.MonitorExit),
   (0, ThreadAction.MonitorEnter),
   (0, ThreadAction.translate { fd := 5, events := 0x003, revents := 0x001 }),
   (0, ThreadAction.translate { fd := 9, events := 0x004, revents := 0x004 }),
   (0, ThreadAction.MonitorExit),
   (1, ThreadAction.MonitorEnter), (1, ThreadAction.deregister 0 true),
   (1, ThreadAction.MonitorExit)]

/-- Seven insertions with the keys 4, 2, 6, 1, 3, 5, 7 in this order (the
sixth finds the root full and splits it) and the data 14, 12, 16, 11, 13, 15,
17. -/
def inserts_seven : List (Int × Option Nat) :=
  [(4, some 14), (2, some 12), (6, some 16), (1, some 11), (3, some 13), (5, some 15),
   (7, some 17)]

/-- A runtime of `init` in which every step succeeds and `open("/dev/poll")`
returns the descriptor 7. -/
def init_ok : InitRuntime :=
  { fids_ok := true, malloc_state := true, open_ret := 7, malloc_retevents := true,
    fresh_selitems := fun _ => none }

/-- A freshly initialised cached-interest backend configured with
`max_retevents = 2 ^ 29 + 1`, over the objects `heap_ab`, with a result array
of two slots. -/
def world_wrapped : DevPollWorld :=
  { state := { devpoll_fd := 7, max_retevents := 536870913, selitems := fun _ => none },
    heap := heap_ab,
    retitemarr := [none, none] }

/-- A cached-interest backend over the objects `heap_ab` whose registry holds
the item A, whose handle is 5, in the slot of the handle 3 and nothing else,
with a result array of two slots. -/
def world_other_slot : DevPollWorld :=
  { state := { devpoll_fd := 7, max_retevents := 16,
               selitems := fun n => if n = 3 then some 0 else none },
    heap := heap_ab,
    retitemarr := [none, none] }

/-- Raw events for the handles 5 and 3, both readable. -/
def events_five_three : List PollFd :=
  [{ fd := 5, events := 0x003, revents := 0x001 }, { fd := 3, events := 0x003, revents := 0x001 }]

/-! ## Auxiliary lemmas -/


theorem realevents_of_revents_eq (c : SysConsts) (r : Nat) :
    realevents_of_revents c r = table_mask c r := by
  unfold realevents_of_revents table_mask SELECTABLE_READ_READY SELECTABLE_WRITE_READY
    SELECTABLE_SELECT_ERROR
  by_cases h1 : r &&& (c.POLLIN ||| c.POLLPRI) = 0 <;>
    by_cases h2 : r &&& c.POLLOUT = 0 <;>
    by_cases h3 : r &&& (c.POLLERR ||| c.POLLHUP ||| c.POLLNVAL) = 0 <;>
    simp [h1, h2, h3]

theorem realevents_of_events_eq (c : SysConsts) (e : Nat) :
    realevents_of_events c e = table_interest c e := by
  unfold realevents_of_events table_interest SELECTABLE_READ_READY SELECTABLE_WRITE_READY
  by_cases h1 : e &&& 1 = 0 <;> by_cases h2 : e &&& 2 = 0 <;> simp [h1, h2]

theorem active_items_cons (it : SelectItem) (rest : List SelectItem) (i : Nat) :
    active_items (it :: rest) i =
      if it.events ≠ 0 then (i, it) :: active_items rest (i + 1) else active_items rest (i + 1) := by
  unfold active_items
  by_cases h : it.events = 0 <;> simp [List.enumFrom_cons, List.filter_cons, h]

theorem active_items_length (its : List SelectItem) :
    ∀ i, (active_items its i).length = its.countP (fun x => x.events ≠ 0) := by
  induction its with
  | nil => intro i; simp [active_items]
  | cons it rest ih =>
    intro i
    rw [active_items_cons]
    by_cases h : it.events = 0
    · simp [h, ih, List.countP_cons]
    · simp [h, ih, List.countP_cons]

theorem count_ufds_some (its : List SelectItem) :
    ∀ i k, count_ufds (its.map some) k = some (k + (active_items its i).length) := by
  induction its with
  | nil => intro i k; simp [count_ufds, active_items]
  | cons it rest ih =>
    intro i k
    rw [active_items_cons]
    simp only [List.map_cons, count_ufds]
    by_cases h : it.events = 0
    · simp [h, ih (i + 1)]
    · simp [h, ih (i + 1)]; omega

theorem count_ufds_no_null :
    ∀ (items : List (Option SelectItem)) (k m : Nat), count_ufds items k = some m →
      ∃ its : List SelectItem, items = its.map some := by
  intro items
  induction items with
  | nil => intro k m _; exact ⟨[], rfl⟩
  | cons x rest ih =>
    intro k m h
    cases x with
    | none => simp [count_ufds] at h
    | some it =>
      simp only [count_ufds] at h
      obtain ⟨its, hits⟩ := ih _ _ h
      exact ⟨it :: its, by simp [hits]⟩

theorem fill_ufds_some (c : SysConsts) (its : List SelectItem) :
    ∀ (i : Nat) (ufds : List PollFd) (ufds_map : List Nat),
      fill_ufds c (its.map some) i ufds ufds_map =
        some (ufds ++ (active_items its i).map (request_of c),
              ufds_map ++ (active_items its i).map Prod.fst) := by
  induction its with
  | nil => intro i ufds ufds_map; simp [fill_ufds, active_items]
  | cons it rest ih =>
    intro i ufds ufds_map
    rw [active_items_cons]
    simp only [List.map_cons, fill_ufds]
    by_cases h : it.events = 0
    · simp [h, ih]
    · simp [h, ih, request_of, realevents_of_events_eq]

theorem write_back_some (c : SysConsts) (rev : Nat → Nat) (its : List SelectItem) :
    ∀ (pre : List (Option SelectItem)) (n : Nat) (w : List (Nat × Nat)),
      write_back c rev ((active_items its pre.length).map Prod.fst) n (pre ++ its.map some) w =
        (none, pre ++ (written_items c rev its n).map some,
          w ++ written_log c rev its pre.length n) := by
  induction its with
  | nil => intro pre n w; simp [active_items, write_back, written_items, written_log]
  | cons it rest ih =>
    intro pre n w
    rw [active_items_cons]
    have hlen : ∀ x : Option SelectItem, (pre ++ [x]).length = pre.length + 1 := by
      intro x; simp
    have happ : ∀ x : Option SelectItem, pre ++ x :: rest.map some = (pre ++ [x]) ++ rest.map some := by
      intro x; simp
    by_cases h : it.events = 0
    · have := ih (pre ++ [some it]) n w
      rw [hlen] at this
      simp only [h, ne_eq, not_true_eq_false, if_false, List.map_cons, written_items,
        written_log]
      rw [happ, this]
      simp
    · simp only [h, ne_eq, not_false_eq_true, if_true, List.map_cons, written_items,
        written_log, write_back]
      by_cases hr : rev n = 0
      · have := ih (pre ++ [some it]) (n + 1) w
        rw [hlen] at this
        simp only [hr, not_true_eq_false, if_false]
        rw [happ, this]
        simp
      · have hget : (pre ++ some it :: rest.map some).get? pre.length = some (some it) := by
          rw [List.get?_eq_getElem?, List.getElem?_append_right (Nat.le_refl _)]
          simp
        have hset : ∀ y : Option SelectItem,
            (pre ++ some it :: rest.map some).set pre.length y = pre ++ y :: rest.map some := by
          intro y; simp [List.set_append_right]
        simp only [hr, not_false_eq_true, if_true, hget, hset]
        have := ih (pre ++ [some { it with revents := realevents_of_revents c (rev n) }])
          (n + 1) (w ++ [(pre.length, realevents_of_revents c (rev n))])
        rw [hlen] at this
        rw [happ, this]
        simp

theorem doSelect_run (c : SysConsts) (rt : Runtime) (its : List SelectItem) (timeout : Int)
    (reply : PollReply) (h1 : rt.fids_ok = true) (h2 : rt.malloc_ufds = true)
    (h3 : rt.malloc_ufds_map = true) (hact : active_items its 0 ≠ []) :
    SelectSetPollImpl_doSelect c rt (some (its.map some)) timeout reply =
      if reply.ret = 0 then
        { ret := 0, exn := none, itemarr := some (its.map some),
          polls := [{ ufds := (active_items its 0).map (request_of c),
                      num_ufds := (active_items its 0).length, timeout := timeout }],
          writes := [] }
      else if reply.ret < 0 then
        { ret := 0,
          exn := if reply.errno ≠ c.EINTR then some JavaException.IOException else none,
          itemarr := some (its.map some),
          polls := [{ ufds := (active_items its 0).map (request_of c),
                      num_ufds := (active_items its 0).length, timeout := timeout }],
          writes := [] }
      else
        { ret := reply.ret, exn := none,
          itemarr := some ((written_items c reply.revents its 0).map some),
          polls := [{ ufds := (active_items its 0).map (request_of c),
                      num_ufds := (active_items its 0).length, timeout := timeout }],
          writes := written_log c reply.revents its 0 0 } := by
  have hne : its ≠ [] := by
    rintro rfl; exact hact (by simp [active_items])
  have hlen : ¬ ((its.map some).length : Int) ≤ 0 := by
    cases its with
    | nil => exact absurd rfl hne
    | cons a l => simp
  have hcnt := count_ufds_some its 0 0
  have hfill := fill_ufds_some c its 0 [] []
  have hwb := write_back_some c reply.revents its [] 0 []
  simp only [List.length_nil, List.nil_append, Nat.zero_add] at hcnt hfill hwb
  have hpos : (active_items its 0).length ≠ 0 := by
    intro h0; exact hact (List.length_eq_zero.1 h0)
  unfold SelectSetPollImpl_doSelect
  simp only [h1, h2, h3, hlen, hcnt, hfill, hpos, if_false, Bool.true_eq_false]
  by_cases hr0 : reply.ret = 0
  · simp [hr0]
  · by_cases hneg : reply.ret < 0
    · by_cases he : reply.errno = c.EINTR <;> simp [hr0, hneg, he]
    · have htake : List.take (active_items its 0).length
          (List.map Prod.fst (active_items its 0)) = List.map Prod.fst (active_items its 0) := by
        apply List.take_of_length_le; simp
      simp only [hr0, hneg, if_false, htake, hwb]

theorem doSelect_idle (c : SysConsts) (rt : Runtime) (its : List SelectItem) (timeout : Int)
    (reply : PollReply) (h1 : rt.fids_ok = true) (hne : its ≠ [])
    (hact : active_items its 0 = []) :
    SelectSetPollImpl_doSelect c rt (some (its.map some)) timeout reply =
      { ret := 0, exn := none, itemarr := some (its.map some), polls := [], writes := [] } := by
  have hlen : ¬ ((its.map some).length : Int) ≤ 0 := by
    cases its with
    | nil => exact absurd rfl hne
    | cons a l => simp
  have hcnt := count_ufds_some its 0 0
  simp only [hact, List.length_nil, Nat.add_zero] at hcnt
  unfold SelectSetPollImpl_doSelect
  simp only [h1, hlen, hcnt, if_false, Bool.true_eq_false, if_true]

theorem realevents_of_revents_ne_zero (c : SysConsts) (e r : Nat) (hr : r ≠ 0)
    (hsub : r &&& (table_interest c e ||| (c.POLLERR ||| c.POLLHUP ||| c.POLLNVAL)) = r) :
    realevents_of_revents c r ≠ 0 := by
  intro h0
  rw [realevents_of_revents_eq] at h0
  unfold table_mask at h0
  unfold table_interest at hsub
  by_cases h1 : r &&& (c.POLLIN ||| c.POLLPRI) = 0
  · by_cases h2 : r &&& c.POLLOUT = 0
    · by_cases h3 : r &&& (c.POLLERR ||| c.POLLHUP ||| c.POLLNVAL) = 0
      · apply hr
        rw [Nat.and_or_distrib_left, Nat.and_or_distrib_left, h3] at hsub
        split_ifs at hsub <;>
          simp only [h1, h2, Nat.and_zero, Nat.or_zero, Nat.zero_or] at hsub <;>
          exact hsub.symm
      · simp [h1, h2, h3] at h0
    · by_cases h3 : r &&& (c.POLLERR ||| c.POLLHUP ||| c.POLLNVAL) = 0 <;>
        simp [h1, h2, h3] at h0
  · by_cases h2 : r &&& c.POLLOUT = 0 <;>
      by_cases h3 : r &&& (c.POLLERR ||| c.POLLHUP ||| c.POLLNVAL) = 0 <;>
      simp [h1, h2, h3] at h0

theorem written_items_length (c : SysConsts) (rev : Nat → Nat) (its : List SelectItem) :
    ∀ n, (written_items c rev its n).length = its.length := by
  induction its with
  | nil => intro n; simp [written_items]
  | cons it rest ih =>
    intro n
    by_cases h : it.events = 0 <;> simp [written_items, h, ih]

theorem written_items_get (c : SysConsts) (rev : Nat → Nat) (its : List SelectItem) :
    ∀ (n j : Nat) (it : SelectItem), its[j]? = some it →
      (written_items c rev its n)[j]? =
        some (if it.events ≠ 0 ∧ rev (n + slot_of its j) ≠ 0 then
                { it with revents := realevents_of_revents c (rev (n + slot_of its j)) }
              else it) := by
  induction its with
  | nil => intro n j it h; simp at h
  | cons a rest ih =>
    intro n j it h
    cases j with
    | zero =>
      simp only [List.getElem?_cons_zero, Option.some.injEq] at h
      subst h
      by_cases ha : a.events = 0 <;> simp [written_items, ha, slot_of]
    | succ j =>
      simp only [List.getElem?_cons_succ] at h
      by_cases ha : a.events = 0
      · have := ih n j it h
        simp [written_items, ha, slot_of, List.countP_cons] at this ⊢
        exact this
      · have := ih (n + 1) j it h
        have hs : n + slot_of (a :: rest) (j + 1) = n + 1 + slot_of rest j := by
          simp [slot_of, List.countP_cons, ha]; omega
        rw [hs]
        simp [written_items, ha] at this ⊢
        exact this

theorem active_items_slot (its : List SelectItem) :
    ∀ (i j : Nat) (it : SelectItem), its[j]? = some it → it.events ≠ 0 →
      (active_items its i)[slot_of its j]? = some (i + j, it) := by
  induction its with
  | nil => intro i j it h; simp at h
  | cons a rest ih =>
    intro i j it h hne
    rw [active_items_cons]
    cases j with
    | zero =>
      simp only [List.getElem?_cons_zero, Option.some.injEq] at h
      subst h
      simp [hne, slot_of]
    | succ j =>
      simp only [List.getElem?_cons_succ] at h
      have := ih (i + 1) j it h hne
      by_cases ha : a.events = 0
      · simp [ha, slot_of, List.countP_cons] at this ⊢
        rw [this]; congr 2; omega
      · have hs : slot_of (a :: rest) (j + 1) = slot_of rest j + 1 := by
          simp [slot_of, List.countP_cons, ha]
        rw [hs]
        simp [ha] at this ⊢
        rw [this]; congr 2; omega

theorem written_log_count (c : SysConsts) (rev : Nat → Nat) (its : List SelectItem) :
    ∀ (i n : Nat),
      (∀ p ∈ ((active_items its i).map (request_of c)).enumFrom n,
        rev p.1 &&& (p.2.events ||| (c.POLLERR ||| c.POLLHUP ||| c.POLLNVAL)) = rev p.1) →
      ((written_log c rev its i n).filter (fun w => w.2 ≠ 0)).length =
        ((List.range' n (active_items its i).length).filter (fun k => rev k ≠ 0)).length := by
  induction its with
  | nil => intro i n _; simp [written_log, active_items]
  | cons it rest ih =>
    intro i n hc
    rw [active_items_cons] at hc ⊢
    by_cases h : it.events = 0
    · simp only [h, ne_eq, not_true_eq_false, if_false, written_log] at hc ⊢
      exact ih (i + 1) n hc
    · simp only [h, ne_eq, not_false_eq_true, if_true, written_log, List.map_cons,
        List.enumFrom_cons, List.length_cons, List.range'_succ] at hc ⊢
      have hrest := ih (i + 1) (n + 1) (fun p hp => hc p (List.mem_cons_of_mem _ hp))
      have hhead := hc (n, request_of c (i, it)) (List.mem_cons_self _ _)
      by_cases hr : rev n = 0
      · simp only [hr, not_true_eq_false, if_false, List.filter_cons, decide_False]
        simpa using hrest
      · have hT := realevents_of_revents_ne_zero c it.events (rev n) hr hhead
        simp only [hr, not_false_eq_true, if_true, List.filter_cons, hT, decide_True,
          List.length_cons]
        simpa using hrest

theorem written_log_fst_ge (c : SysConsts) (rev : Nat → Nat) (its : List SelectItem) :
    ∀ (i n : Nat), ∀ w ∈ written_log c rev its i n, i ≤ w.1 := by
  induction its with
  | nil => intro i n w hw; simp [written_log] at hw
  | cons it rest ih =>
    intro i n w hw
    simp only [written_log] at hw
    split_ifs at hw
    · rcases List.mem_cons.1 hw with h | h
      · rw [h]
      · exact Nat.le_of_succ_le (ih _ _ w h)
    · exact Nat.le_of_succ_le (ih _ _ w hw)
    · exact Nat.le_of_succ_le (ih _ _ w hw)

theorem written_log_nodup (c : SysConsts) (rev : Nat → Nat) (its : List SelectItem) :
    ∀ (i n : Nat), ((written_log c rev its i n).map Prod.fst).Nodup := by
  induction its with
  | nil => intro i n; simp [written_log]
  | cons it rest ih =>
    intro i n
    simp only [written_log]
    split_ifs
    · rw [List.map_cons, List.nodup_cons]
      refine ⟨?_, ih _ _⟩
      intro hmem
      obtain ⟨w, hw, hwi⟩ := List.mem_map.1 hmem
      have := written_log_fst_ge c rev rest (i + 1) (n + 1) w hw
      omega
    · exact ih _ _
    · exact ih _ _

theorem devpoll_loop_succ (c : SysConsts) (retevents : Nat → PollFd) (k i : Nat) (count : Int)
    (w : DevPollWorld) (tr : List DevPollEvent) :
    devpoll_loop c retevents (k + 1) i count w tr =
      if (retevents i).fd < 0 ∨ (retevents i).fd ≥ (MAX_FDS : Int) then
        { ret := 0, exn := some JavaException.ArrayIndexOutOfBoundsException, world := w,
          trace := tr ++ [DevPollEvent.MonitorExit] }
      else
        match w.state.selitems (retevents i).fd.toNat with
        | none => devpoll_loop c retevents k (i + 1) count w tr
        | some selitemobj =>
          if 0 ≤ count ∧ count < (w.retitemarr.length : Int) then
            devpoll_loop c retevents k (i + 1) (count + 1)
              { state := w.state,
                heap := Function.update w.heap selitemobj
                  { (w.heap selitemobj) with
                    revents := realevents_of_revents c (retevents i).revents },
                retitemarr := w.retitemarr.set count.toNat (some selitemobj) }
              (tr ++ [DevPollEvent.SetShortField_revents selitemobj
                        (realevents_of_revents c (retevents i).revents),
                      DevPollEvent.SetObjectArrayElement count.toNat selitemobj])
          else
            devpoll_loop c retevents k (i + 1) count
              { state := w.state,
                heap := Function.update w.heap selitemobj
                  { (w.heap selitemobj) with
                    revents := realevents_of_revents c (retevents i).revents },
                retitemarr := w.retitemarr }
              (tr ++ [DevPollEvent.SetShortField_revents selitemobj
                        (realevents_of_revents c (retevents i).revents),
                      DevPollEvent.SetObjectArrayElement count.toNat selitemobj]) := by
  rw [devpoll_loop]

theorem devpoll_loop_exn (c : SysConsts) (retevents : Nat → PollFd) :
    ∀ (k i : Nat) (count : Int) (w : DevPollWorld) (tr : List DevPollEvent),
      (devpoll_loop c retevents k i count w tr).exn ≠ some JavaException.IOException := by
  intro k
  induction k with
  | zero => intro i count w tr; simp [devpoll_loop]
  | succ k ih =>
    intro i count w tr
    rw [devpoll_loop_succ]
    by_cases h1 : (retevents i).fd < 0 ∨ (retevents i).fd ≥ (MAX_FDS : Int)
    · rw [if_pos h1]; simp
    · rw [if_neg h1]
      cases hs : w.state.selitems (retevents i).fd.toNat with
      | none => exact ih _ _ _ _
      | some obj =>
        simp only
        by_cases h2 : 0 ≤ count ∧ count < (w.retitemarr.length : Int)
        · rw [if_pos h2]; exact ih _ _ _ _
        · rw [if_neg h2]; exact ih _ _ _ _

theorem devpoll_loop_exit (c : SysConsts) (retevents : Nat → PollFd) :
    ∀ (k i : Nat) (count : Int) (w : DevPollWorld) (tr : List DevPollEvent),
      DevPollEvent.MonitorExit ∈ (devpoll_loop c retevents k i count w tr).trace := by
  intro k
  induction k with
  | zero => intro i count w tr; simp [devpoll_loop]
  | succ k ih =>
    intro i count w tr
    rw [devpoll_loop_succ]
    by_cases h1 : (retevents i).fd < 0 ∨ (retevents i).fd ≥ (MAX_FDS : Int)
    · rw [if_pos h1]; simp
    · rw [if_neg h1]
      cases hs : w.state.selitems (retevents i).fd.toNat with
      | none => exact ih _ _ _ _
      | some obj =>
        simp only
        by_cases h2 : 0 ≤ count ∧ count < (w.retitemarr.length : Int)
        · rw [if_pos h2]; exact ih _ _ _ _
        · rw [if_neg h2]; exact ih _ _ _ _

theorem doSelect_cases (c : SysConsts) (rt : Runtime)
    (itemarr : Option (List (Option SelectItem))) (timeout : Int) (reply : PollReply) :
    ((SelectSetPollImpl_doSelect c rt itemarr timeout reply).polls = [] ∧
      (SelectSetPollImpl_doSelect c rt itemarr timeout reply).writes = [] ∧
      (SelectSetPollImpl_doSelect c rt itemarr timeout reply).itemarr = itemarr ∧
      (SelectSetPollImpl_doSelect c rt itemarr timeout reply).exn
        ≠ some JavaException.IOException ∧
      ((SelectSetPollImpl_doSelect c rt itemarr timeout reply).exn = none →
        (SelectSetPollImpl_doSelect c rt itemarr timeout reply).ret = 0) ∧
      (∀ reply0 : PollReply, SelectSetPollImpl_doSelect c rt itemarr timeout reply =
        SelectSetPollImpl_doSelect c rt itemarr timeout reply0)) ∨
    (rt.fids_ok = true ∧ rt.malloc_ufds = true ∧ rt.malloc_ufds_map = true ∧
      ∃ its : List SelectItem, itemarr = some (its.map some) ∧ active_items its 0 ≠ []) := by
  by_cases h1 : rt.fids_ok = false
  · left; simp [SelectSetPollImpl_doSelect, h1]
  · cases itemarr with
    | none => left; simp [SelectSetPollImpl_doSelect, h1]
    | some items =>
      by_cases hl : (items.length : Int) ≤ 0
      · left; simp [SelectSetPollImpl_doSelect, h1, hl]
      · cases hc : count_ufds items 0 with
        | none => left; simp [SelectSetPollImpl_doSelect, h1, hl, hc]
        | some num =>
          obtain ⟨its, rfl⟩ := count_ufds_no_null items 0 num hc
          have hcnt := count_ufds_some its 0 0
          rw [hc] at hcnt
          simp only [Option.some.injEq, Nat.zero_add] at hcnt
          have hne : ¬ its = [] := by
            rintro rfl; simp at hl
          by_cases hn : num = 0
          · left; simp [SelectSetPollImpl_doSelect, h1, hne, hc, hn]
          · by_cases h2 : rt.malloc_ufds = false
            · left; simp [SelectSetPollImpl_doSelect, h1, hne, hc, hn, h2]
            · by_cases h3 : rt.malloc_ufds_map = false
              · left; simp [SelectSetPollImpl_doSelect, h1, hne, hc, hn, h2, h3]
              · right
                refine ⟨by simpa using h1, by simpa using h2, by simpa using h3, its, rfl, ?_⟩
                intro h0
                apply hn
                rw [hcnt, h0]; rfl

theorem doSelect_polls_ne_nil (c : SysConsts) (rt : Runtime)
    (itemarr : Option (List (Option SelectItem))) (timeout : Int) (reply : PollReply)
    (h : (SelectSetPollImpl_doSelect c rt itemarr timeout reply).polls ≠ []) :
    rt.fids_ok = true ∧ rt.malloc_ufds = true ∧ rt.malloc_ufds_map = true ∧
      ∃ its : List SelectItem, itemarr = some (its.map some) ∧ active_items its 0 ≠ [] := by
  rcases doSelect_cases c rt itemarr timeout reply with hA | hB
  · exact absurd hA.1 h
  · exact hB

theorem active_items_mem (its : List SelectItem) :
    ∀ (i : Nat) (p : Nat × SelectItem), p ∈ active_items its i → p.2 ∈ its ∧ p.2.events ≠ 0 := by
  induction its with
  | nil => intro i p hp; simp [active_items] at hp
  | cons it rest ih =>
    intro i p hp
    rw [active_items_cons] at hp
    by_cases h : it.events = 0
    · simp only [h, ne_eq, not_true_eq_false, if_false] at hp
      have := ih _ p hp
      exact ⟨List.mem_cons_of_mem _ this.1, this.2⟩
    · simp only [h, ne_eq, not_false_eq_true, if_true, List.mem_cons] at hp
      rcases hp with hp | hp
      · subst hp; exact ⟨List.mem_cons_self _ _, h⟩
      · have := ih _ p hp
        exact ⟨List.mem_cons_of_mem _ this.1, this.2⟩

theorem table_interest_low_bits (c : SysConsts) (e : Nat) :
    table_interest c (e &&& 0x03) = table_interest c e := by
  have h1 : e &&& 3 &&& 1 = e &&& 1 := by
    rw [Nat.and_assoc]; rfl
  have h2 : e &&& 3 &&& 2 = e &&& 2 := by
    rw [Nat.and_assoc]; rfl
  unfold table_interest
  rw [h1, h2]

theorem active_items_ne_nil (its : List SelectItem) (j : Nat) (it : SelectItem)
    (hj : its[j]? = some it) (he : it.events ≠ 0) : active_items its 0 ≠ [] := by
  intro h0
  have := active_items_slot its 0 j it hj he
  rw [h0] at this
  simp at this

theorem doSelect_positive (c : SysConsts) (rt : Runtime) (its : List SelectItem) (timeout : Int)
    (reply : PollReply) (h1 : rt.fids_ok = true) (h2 : rt.malloc_ufds = true)
    (h3 : rt.malloc_ufds_map = true) (hact : active_items its 0 ≠ []) (hret : 0 < reply.ret) :
    SelectSetPollImpl_doSelect c rt (some (its.map some)) timeout reply =
      { ret := reply.ret, exn := none,
        itemarr := some ((written_items c reply.revents its 0).map some),
        polls := [{ ufds := (active_items its 0).map (request_of c),
                    num_ufds := (active_items its 0).length, timeout := timeout }],
        writes := written_log c reply.revents its 0 0 } := by
  rw [doSelect_run c rt its timeout reply h1 h2 h3 hact]
  have ha : ¬ reply.ret = 0 := by omega
  have hb : ¬ reply.ret < 0 := by omega
  simp only [ha, hb, if_false]

theorem devpoll_single_event (c : SysConsts) (w : DevPollWorld) (items : List (Option Nat))
    (timeout num_fds : Int) (reply : DpReply) (obj : Nat)
    (hitems : items ≠ []) (hcap : w.retitemarr ≠ []) (hret : reply.ret = 1)
    (hlo : 0 ≤ (reply.retevents 0).fd) (hhi : (reply.retevents 0).fd < (MAX_FDS : Int))
    (hreg : w.state.selitems (reply.retevents 0).fd.toNat = some obj) :
    SelectSetDevPollImpl_doSelect c w (some items) timeout num_fds reply =
      { ret := 1, exn := none,
        world :=
          { state := w.state,
            heap := Function.update w.heap obj
              { (w.heap obj) with revents := realevents_of_revents c (reply.retevents 0).revents },
            retitemarr := w.retitemarr.set 0 (some obj) },
        trace :=
          [DevPollEvent.ioctl_DP_POLL timeout
              (if num_fds > w.state.max_retevents then w.state.max_retevents else num_fds),
            DevPollEvent.MonitorEnter,
            DevPollEvent.SetShortField_revents obj
              (realevents_of_revents c (reply.retevents 0).revents),
            DevPollEvent.SetObjectArrayElement 0 obj,
            DevPollEvent.MonitorExit] } := by
  have hl1 : ¬ ((items.length : Int) ≤ 0) := by
    cases items with
    | nil => exact absurd rfl hitems
    | cons a l => simp only [List.length_cons]; omega
  have hl2 : ¬ ((w.retitemarr.length : Int) ≤ 0) := by
    cases hw : w.retitemarr with
    | nil => exact absurd hw hcap
    | cons a l => simp only [List.length_cons]; omega
  have hl3 : (0 : Int) ≤ 0 ∧ (0 : Int) < (w.retitemarr.length : Int) := ⟨le_refl _, by omega⟩
  have hrange : ¬ ((reply.retevents 0).fd < 0 ∨ (reply.retevents 0).fd ≥ (MAX_FDS : Int)) := by
    omega
  unfold SelectSetDevPollImpl_doSelect
  simp only [hl1, hl2, hret, if_false, one_ne_zero, Int.toNat_one]
  have h10 : ¬ ((1 : Int) < 0) := by omega
  simp only [h10, if_false]
  rw [devpoll_loop_succ, if_neg hrange]
  simp only [hreg]
  rw [if_pos hl3]
  simp [devpoll_loop]


theorem devpoll_doSelect_nonpositive (c : SysConsts) (w : DevPollWorld)
    (itemarr : Option (List (Option Nat))) (timeout num_fds : Int) (reply : DpReply)
    (hret : reply.ret ≤ 0) :
    SelectSetDevPollImpl_doSelect c w itemarr timeout num_fds reply =
      match itemarr with
      | none => { ret := 0, exn := none, world := w, trace := [] }
      | some items =>
        if (items.length : Int) ≤ 0 ∨ (w.retitemarr.length : Int) ≤ 0 then
          { ret := 0, exn := some JavaException.ArrayIndexOutOfBoundsException, world := w,
            trace := [] }
        else
          { ret := 0,
            exn := if reply.ret < 0 ∧ reply.errno ≠ c.EINTR then some JavaException.IOException
                   else none,
            world := w,
            trace := [DevPollEvent.ioctl_DP_POLL timeout
              (if num_fds > w.state.max_retevents then w.state.max_retevents else num_fds)] } := by
  unfold SelectSetDevPollImpl_doSelect
  cases itemarr with
  | none => rfl
  | some items =>
    simp only
    by_cases h1 : (items.length : Int) ≤ 0
    · simp [h1]
    · by_cases h2 : (w.retitemarr.length : Int) ≤ 0
      · simp [h1, h2]
      · simp only [h1, h2, if_false, or_self]
        by_cases h0 : reply.ret = 0
        · simp [h0]
        · have hneg : reply.ret < 0 := by omega
          by_cases he : reply.errno = c.EINTR <;> simp [h0, hneg, he]

theorem devpoll_doSelect_positive (c : SysConsts) (w : DevPollWorld)
    (itemarr : Option (List (Option Nat))) (timeout num_fds : Int) (reply : DpReply)
    (hret : 0 < reply.ret) :
    SelectSetDevPollImpl_doSelect c w itemarr timeout num_fds reply =
      match itemarr with
      | none => { ret := 0, exn := none, world := w, trace := [] }
      | some items =>
        if (items.length : Int) ≤ 0 ∨ (w.retitemarr.length : Int) ≤ 0 then
          { ret := 0, exn := some JavaException.ArrayIndexOutOfBoundsException, world := w,
            trace := [] }
        else
          devpoll_loop c reply.retevents reply.ret.toNat 0 0 w
            [DevPollEvent.ioctl_DP_POLL timeout
              (if num_fds > w.state.max_retevents then w.state.max_retevents else num_fds),
             DevPollEvent.MonitorEnter] := by
  unfold SelectSetDevPollImpl_doSelect
  cases itemarr with
  | none => rfl
  | some items =>
    simp only
    by_cases h1 : (items.length : Int) ≤ 0
    · simp [h1]
    · by_cases h2 : (w.retitemarr.length : Int) ≤ 0
      · simp [h1, h2]
      · have h0 : ¬ reply.ret = 0 := by omega
        have hneg : ¬ reply.ret < 0 := by omega
        simp only [h1, h2, h0, hneg, if_false, or_self, List.singleton_append]

theorem devpoll_loop_eq_scan (c : SysConsts) (retevents : Nat → PollFd) :
    ∀ (k i : Nat) (count : Int) (w : DevPollWorld) (tr : List DevPollEvent),
      devpoll_loop c retevents k i count w tr =
        devpoll_scan c ((List.range' i k).map retevents) count w tr := by
  intro k
  induction k with
  | zero => intro i count w tr; simp [devpoll_loop, devpoll_scan]
  | succ k ih =>
    intro i count w tr
    rw [devpoll_loop_succ, List.range'_succ, List.map_cons, devpoll_scan]
    by_cases h1 : (retevents i).fd < 0 ∨ (retevents i).fd ≥ (MAX_FDS : Int)
    · rw [if_pos h1, if_pos h1]
    · rw [if_neg h1, if_neg h1]
      cases hs : w.state.selitems (retevents i).fd.toNat with
      | none => simp only [ih]
      | some obj =>
        simp only
        by_cases h2 : 0 ≤ count ∧ count < (w.retitemarr.length : Int)
        · rw [if_pos h2, if_pos h2, ih]
        · rw [if_neg h2, if_neg h2, ih]

theorem map_getD_range' (evs : List PollFd) (d : PollFd) :
    ∀ (pre : List PollFd),
      (List.range' pre.length evs.length).map (fun i => (pre ++ evs).getD i d) = evs := by
  induction evs with
  | nil => intro pre; simp
  | cons e rest ih =>
    intro pre
    rw [List.length_cons, List.range'_succ, List.map_cons]
    have h1 : (pre ++ e :: rest).getD pre.length d = e := by
      rw [List.getD_eq_getElem?_getD, List.getElem?_append_right (Nat.le_refl _)]
      simp
    have h2 := ih (pre ++ [e])
    simp only [List.length_append, List.length_singleton, List.append_assoc,
      List.singleton_append] at h2
    rw [h1, h2]

theorem dp_reply_of_events (evs : List PollFd) :
    (List.range' 0 (dp_reply_of evs).ret.toNat).map (dp_reply_of evs).retevents = evs := by
  have := map_getD_range' evs { fd := 0, events := 0, revents := 0 } []
  simpa [dp_reply_of] using this

/-- The cached-interest doSelect on a positive return of the OS, as a scan of
the raw events. -/
theorem devpoll_doSelect_scan (c : SysConsts) (w : DevPollWorld) (items : List (Option Nat))
    (timeout num_fds : Int) (reply : DpReply) (hitems : items ≠ []) (hcap : w.retitemarr ≠ [])
    (hret : 0 < reply.ret) :
    SelectSetDevPollImpl_doSelect c w (some items) timeout num_fds reply =
      devpoll_scan c ((List.range' 0 reply.ret.toNat).map reply.retevents) 0 w
        [DevPollEvent.ioctl_DP_POLL timeout
          (if num_fds > w.state.max_retevents then w.state.max_retevents else num_fds),
         DevPollEvent.MonitorEnter] := by
  rw [devpoll_doSelect_positive c w (some items) timeout num_fds reply hret]
  have hl : ¬ ((items.length : Int) ≤ 0 ∨ (w.retitemarr.length : Int) ≤ 0) := by
    cases items with
    | nil => exact absurd rfl hitems
    | cons a l =>
      cases hw : w.retitemarr with
      | nil => exact absurd hw hcap
      | cons b m => simp only [List.length_cons]; omega
  simp only [if_neg hl]
  exact devpoll_loop_eq_scan c reply.retevents _ 0 0 w _

theorem devpoll_scan_cons (c : SysConsts) (pfd : PollFd) (rest : List PollFd) (count : Int)
    (w : DevPollWorld) (tr : List DevPollEvent) :
    devpoll_scan c (pfd :: rest) count w tr =
      if pfd.fd < 0 ∨ pfd.fd ≥ (MAX_FDS : Int) then
        { ret := 0, exn := some JavaException.ArrayIndexOutOfBoundsException, world := w,
          trace := tr ++ [DevPollEvent.MonitorExit] }
      else
        match w.state.selitems pfd.fd.toNat with
        | none => devpoll_scan c rest count w tr
        | some selitemobj =>
          devpoll_scan c rest
            (if 0 ≤ count ∧ count < (w.retitemarr.length : Int) then count + 1 else count)
            { state := w.state,
              heap := Function.update w.heap selitemobj
                { (w.heap selitemobj) with revents := realevents_of_revents c pfd.revents },
              retitemarr :=
                if 0 ≤ count ∧ count < (w.retitemarr.length : Int) then
                  w.retitemarr.set count.toNat (some selitemobj)
                else w.retitemarr }
            (tr ++ [DevPollEvent.SetShortField_revents selitemobj
                      (realevents_of_revents c pfd.revents),
                    DevPollEvent.SetObjectArrayElement count.toNat selitemobj]) := by
  rw [devpoll_scan]
  by_cases h1 : pfd.fd < 0 ∨ pfd.fd ≥ (MAX_FDS : Int)
  · rw [if_pos h1, if_pos h1]
  · rw [if_neg h1, if_neg h1]
    cases hs : w.state.selitems pfd.fd.toNat with
    | none => rfl
    | some obj =>
      simp only
      by_cases h2 : 0 ≤ count ∧ count < (w.retitemarr.length : Int)
      · simp only [if_pos h2]
      · simp only [if_neg h2]

theorem devpoll_scan_state (c : SysConsts) (evs : List PollFd) :
    ∀ (count : Int) (w : DevPollWorld) (tr : List DevPollEvent),
      (devpoll_scan c evs count w tr).world.state = w.state := by
  induction evs with
  | nil => intro count w tr; rfl
  | cons e rest ih =>
    intro count w tr
    rw [devpoll_scan_cons]
    by_cases h1 : e.fd < 0 ∨ e.fd ≥ (MAX_FDS : Int)
    · rw [if_pos h1]
    · rw [if_neg h1]
      cases hs : w.state.selitems e.fd.toNat with
      | none => exact ih _ _ _
      | some obj => simp only; rw [ih]

theorem devpoll_scan_skip (c : SysConsts) (e : PollFd) (post : List PollFd)
    (hlo : 0 ≤ e.fd) (hhi : e.fd < (MAX_FDS : Int)) :
    ∀ (pre : List PollFd) (count : Int) (w : DevPollWorld) (tr : List DevPollEvent),
      w.state.selitems e.fd.toNat = none →
      devpoll_scan c (pre ++ e :: post) count w tr = devpoll_scan c (pre ++ post) count w tr := by
  intro pre
  induction pre with
  | nil =>
    intro count w tr hnone
    have h1 : ¬ (e.fd < 0 ∨ e.fd ≥ (MAX_FDS : Int)) := by omega
    rw [List.nil_append, List.nil_append, devpoll_scan_cons, if_neg h1]
    simp only [hnone]
  | cons a pre ih =>
    intro count w tr hnone
    rw [List.cons_append, List.cons_append, devpoll_scan_cons, devpoll_scan_cons]
    by_cases h1 : a.fd < 0 ∨ a.fd ≥ (MAX_FDS : Int)
    · rw [if_pos h1, if_pos h1]
    · rw [if_neg h1, if_neg h1]
      cases hs : w.state.selitems a.fd.toNat with
      | none => exact ih _ _ _ hnone
      | some obj => exact ih _ _ _ hnone

theorem devpoll_scan_bounds (c : SysConsts) (evs : List PollFd) :
    ∀ (count : Int) (w : DevPollWorld) (tr : List DevPollEvent),
      0 ≤ count → count ≤ (w.retitemarr.length : Int) →
      0 ≤ (devpoll_scan c evs count w tr).ret ∧
      (devpoll_scan c evs count w tr).ret ≤ (w.retitemarr.length : Int) ∧
      (devpoll_scan c evs count w tr).world.retitemarr.length = w.retitemarr.length := by
  induction evs with
  | nil => intro count w tr h0 h1; exact ⟨h0, h1, rfl⟩
  | cons e rest ih =>
    intro count w tr h0 hc
    rw [devpoll_scan_cons]
    by_cases h1 : e.fd < 0 ∨ e.fd ≥ (MAX_FDS : Int)
    · rw [if_pos h1]
      exact ⟨le_refl _, by simp, rfl⟩
    · rw [if_neg h1]
      cases hs : w.state.selitems e.fd.toNat with
      | none => exact ih _ _ _ h0 hc
      | some obj =>
        simp only
        by_cases h2 : 0 ≤ count ∧ count < (w.retitemarr.length : Int)
        · simp only [if_pos h2]
          have := ih (count + 1)
            { state := w.state,
              heap := Function.update w.heap obj
                { (w.heap obj) with revents := realevents_of_revents c e.revents },
              retitemarr := w.retitemarr.set count.toNat (some obj) }
            (tr ++ [DevPollEvent.SetShortField_revents obj (realevents_of_revents c e.revents),
                    DevPollEvent.SetObjectArrayElement count.toNat obj])
            (by omega) (by simp only [List.length_set]; omega)
          simpa only [List.length_set] using this
        · simp only [if_neg h2]
          exact ih _ _ _ h0 hc

theorem devpoll_scan_exn (c : SysConsts) (evs : List PollFd) :
    ∀ (count : Int) (w : DevPollWorld) (tr : List DevPollEvent),
      handles_in_range evs → (devpoll_scan c evs count w tr).exn = none := by
  induction evs with
  | nil => intro count w tr _; rfl
  | cons e rest ih =>
    intro count w tr hr
    have he := hr e (List.mem_cons_self _ _)
    have hrest : handles_in_range rest := fun x hx => hr x (List.mem_cons_of_mem _ hx)
    have h1 : ¬ (e.fd < 0 ∨ e.fd ≥ (MAX_FDS : Int)) := by omega
    rw [devpoll_scan_cons, if_neg h1]
    cases hs : w.state.selitems e.fd.toNat with
    | none => exact ih _ _ _ hrest
    | some obj => exact ih _ _ _ hrest

theorem devpoll_scan_trace (c : SysConsts) (evs : List PollFd) :
    ∀ (count : Int) (w : DevPollWorld) (tr : List DevPollEvent) (ev : DevPollEvent),
      ev ∈ (devpoll_scan c evs count w tr).trace →
      ev ∈ tr ∨ ev = DevPollEvent.MonitorExit ∨
        ∃ e ∈ evs, 0 ≤ e.fd ∧ e.fd < (MAX_FDS : Int) ∧
          ∃ o, w.state.selitems e.fd.toNat = some o ∧
            (ev = DevPollEvent.SetShortField_revents o (realevents_of_revents c e.revents) ∨
              ∃ idx, ev = DevPollEvent.SetObjectArrayElement idx o) := by
  induction evs with
  | nil =>
    intro count w tr ev hev
    simp only [devpoll_scan, List.mem_append, List.mem_singleton] at hev
    rcases hev with h | h
    · exact Or.inl h
    · exact Or.inr (Or.inl h)
  | cons e rest ih =>
    intro count w tr ev hev
    rw [devpoll_scan_cons] at hev
    by_cases h1 : e.fd < 0 ∨ e.fd ≥ (MAX_FDS : Int)
    · rw [if_pos h1] at hev
      simp only [List.mem_append, List.mem_singleton] at hev
      rcases hev with h | h
      · exact Or.inl h
      · exact Or.inr (Or.inl h)
    · rw [if_neg h1] at hev
      have hlift : (∃ x ∈ rest, 0 ≤ x.fd ∧ x.fd < (MAX_FDS : Int) ∧
          ∃ o, w.state.selitems x.fd.toNat = some o ∧
            (ev = DevPollEvent.SetShortField_revents o (realevents_of_revents c x.revents) ∨
              ∃ idx, ev = DevPollEvent.SetObjectArrayElement idx o)) →
          ∃ x ∈ e :: rest, 0 ≤ x.fd ∧ x.fd < (MAX_FDS : Int) ∧
          ∃ o, w.state.selitems x.fd.toNat = some o ∧
            (ev = DevPollEvent.SetShortField_revents o (realevents_of_revents c x.revents) ∨
              ∃ idx, ev = DevPollEvent.SetObjectArrayElement idx o) := by
        rintro ⟨x, hx, rest⟩
        exact ⟨x, List.mem_cons_of_mem _ hx, rest⟩
      cases hs : w.state.selitems e.fd.toNat with
      | none =>
        simp only [hs] at hev
        rcases ih _ _ _ ev hev with h | h | h
        · exact Or.inl h
        · exact Or.inr (Or.inl h)
        · exact Or.inr (Or.inr (hlift h))
      | some obj =>
        simp only [hs] at hev
        rcases ih _ _ _ ev hev with h | h | h
        · simp only [List.mem_append, List.mem_cons, List.mem_singleton, List.not_mem_nil,
            or_false] at h
          rcases h with h | h | h
          · exact Or.inl h
          · exact Or.inr (Or.inr ⟨e, List.mem_cons_self _ _, by omega, by omega, obj, hs,
              Or.inl h⟩)
          · exact Or.inr (Or.inr ⟨e, List.mem_cons_self _ _, by omega, by omega, obj, hs,
              Or.inr ⟨_, h⟩⟩)
        · exact Or.inr (Or.inl h)
        · exact Or.inr (Or.inr (hlift h))

theorem devpoll_scan_trace_mono (c : SysConsts) (evs : List PollFd) :
    ∀ (count : Int) (w : DevPollWorld) (tr : List DevPollEvent) (ev : DevPollEvent),
      ev ∈ tr → ev ∈ (devpoll_scan c evs count w tr).trace := by
  induction evs with
  | nil => intro count w tr ev hev; simp [devpoll_scan, hev]
  | cons e rest ih =>
    intro count w tr ev hev
    rw [devpoll_scan_cons]
    by_cases h1 : e.fd < 0 ∨ e.fd ≥ (MAX_FDS : Int)
    · rw [if_pos h1]; simp [hev]
    · rw [if_neg h1]
      cases hs : w.state.selitems e.fd.toNat with
      | none => exact ih _ _ _ ev hev
      | some obj => exact ih _ _ _ ev (List.mem_append_left _ hev)

theorem devpoll_scan_writes_owner (c : SysConsts) (evs : List PollFd) :
    ∀ (count : Int) (w : DevPollWorld) (tr : List DevPollEvent),
      handles_in_range evs →
      ∀ e ∈ evs, ∀ o, w.state.selitems e.fd.toNat = some o →
        DevPollEvent.SetShortField_revents o (realevents_of_revents c e.revents) ∈
          (devpoll_scan c evs count w tr).trace := by
  induction evs with
  | nil => intro count w tr _ e he; simp at he
  | cons a rest ih =>
    intro count w tr hr e he o ho
    have ha := hr a (List.mem_cons_self _ _)
    have hrest : handles_in_range rest := fun x hx => hr x (List.mem_cons_of_mem _ hx)
    have h1 : ¬ (a.fd < 0 ∨ a.fd ≥ (MAX_FDS : Int)) := by omega
    rw [devpoll_scan_cons, if_neg h1]
    rcases List.mem_cons.1 he with rfl | hmem
    · simp only [ho]
      apply devpoll_scan_trace_mono
      simp
    · cases hs : w.state.selitems a.fd.toNat with
      | none => exact ih _ _ _ hrest e hmem o ho
      | some obj => exact ih _ _ _ hrest e hmem o ho

theorem devpoll_scan_heap_frame (c : SysConsts) (evs : List PollFd) (o : Nat) :
    ∀ (count : Int) (w : DevPollWorld) (tr : List DevPollEvent),
      (∀ e ∈ evs, 0 ≤ e.fd → e.fd < (MAX_FDS : Int) → w.state.selitems e.fd.toNat ≠ some o) →
      (devpoll_scan c evs count w tr).world.heap o = w.heap o := by
  induction evs with
  | nil => intro count w tr _; rfl
  | cons a rest ih =>
    intro count w tr hno
    have hrest : ∀ e ∈ rest, 0 ≤ e.fd → e.fd < (MAX_FDS : Int) →
        w.state.selitems e.fd.toNat ≠ some o :=
      fun e he => hno e (List.mem_cons_of_mem _ he)
    rw [devpoll_scan_cons]
    by_cases h1 : a.fd < 0 ∨ a.fd ≥ (MAX_FDS : Int)
    · rw [if_pos h1]
    · rw [if_neg h1]
      cases hs : w.state.selitems a.fd.toNat with
      | none => exact ih _ _ _ hrest
      | some obj =>
        simp only
        have hne : o ≠ obj := by
          intro h
          exact hno a (List.mem_cons_self _ _) (by omega) (by omega) (by rw [hs, h])
        refine Eq.trans (ih _ _ _ ?_) ?_
        · exact hrest
        · simp [Function.update, hne]

theorem devpoll_scan_heap_fields (c : SysConsts) (evs : List PollFd) (o : Nat) :
    ∀ (count : Int) (w : DevPollWorld) (tr : List DevPollEvent),
      ((devpoll_scan c evs count w tr).world.heap o).fd = (w.heap o).fd ∧
      ((devpoll_scan c evs count w tr).world.heap o).events = (w.heap o).events := by
  induction evs with
  | nil => intro count w tr; exact ⟨rfl, rfl⟩
  | cons a rest ih =>
    intro count w tr
    rw [devpoll_scan_cons]
    by_cases h1 : a.fd < 0 ∨ a.fd ≥ (MAX_FDS : Int)
    · rw [if_pos h1]; exact ⟨rfl, rfl⟩
    · rw [if_neg h1]
      cases hs : w.state.selitems a.fd.toNat with
      | none => exact ih _ _ _
      | some obj =>
        simp only
        have := ih (if 0 ≤ count ∧ count < (w.retitemarr.length : Int) then count + 1 else count)
          { state := w.state,
            heap := Function.update w.heap obj
              { (w.heap obj) with revents := realevents_of_revents c a.revents },
            retitemarr :=
              if 0 ≤ count ∧ count < (w.retitemarr.length : Int) then
                w.retitemarr.set count.toNat (some obj)
              else w.retitemarr }
          (tr ++ [DevPollEvent.SetShortField_revents obj (realevents_of_revents c a.revents),
                  DevPollEvent.SetObjectArrayElement count.toNat obj])
        rw [this.1, this.2]
        by_cases ho : o = obj
        · subst ho; simp [Function.update]
        · simp [Function.update, ho]

theorem set_take_succ {α : Type} (l : List α) (n : Nat) (x : α) (h : n < l.length) :
    (l.set n x).take (n + 1) = l.take n ++ [x] := by
  rw [List.set_eq_take_append_cons_drop, if_pos h]
  have hlen : (l.take n).length = n := by
    rw [List.length_take]; omega
  rw [List.take_append_eq_append_take, hlen]
  simp [List.take_of_length_le, hlen]

theorem registered_events_cons (st : devpoll_impl_state) (e : PollFd) (rest : List PollFd) :
    registered_events st (e :: rest) =
      match st.selitems e.fd.toNat with
      | none => registered_events st rest
      | some o => (o, e) :: registered_events st rest := by
  unfold registered_events
  cases hs : st.selitems e.fd.toNat <;> simp [List.filterMap_cons, hs]

theorem devpoll_scan_results (c : SysConsts) (evs : List PollFd) :
    ∀ (n : Nat) (w : DevPollWorld) (tr : List DevPollEvent),
      handles_in_range evs →
      n + (registered_events w.state evs).length ≤ w.retitemarr.length →
      (devpoll_scan c evs (n : Int) w tr).ret =
        ((n + (registered_events w.state evs).length : Nat) : Int) ∧
      (devpoll_scan c evs (n : Int) w tr).world.retitemarr =
        w.retitemarr.take n ++ (registered_events w.state evs).map (fun h => some h.1) ++
          w.retitemarr.drop (n + (registered_events w.state evs).length) := by
  induction evs with
  | nil =>
    intro n w tr _ _
    simp [devpoll_scan, registered_events]
  | cons e rest ih =>
    intro n w tr hr hcap
    have he := hr e (List.mem_cons_self _ _)
    have hrest : handles_in_range rest := fun x hx => hr x (List.mem_cons_of_mem _ hx)
    have h1 : ¬ (e.fd < 0 ∨ e.fd ≥ (MAX_FDS : Int)) := by omega
    rw [devpoll_scan_cons, if_neg h1]
    rw [registered_events_cons] at hcap ⊢
    cases hs : w.state.selitems e.fd.toNat with
    | none =>
      simp only [hs] at hcap ⊢
      exact ih n w tr hrest hcap
    | some obj =>
      simp only [hs, List.length_cons] at hcap ⊢
      have hn : n < w.retitemarr.length := by omega
      have h2 : (0 : Int) ≤ (n : Int) ∧ (n : Int) < (w.retitemarr.length : Int) := by omega
      simp only [if_pos h2, Int.toNat_ofNat]
      have := ih (n + 1)
        { state := w.state,
          heap := Function.update w.heap obj
            { (w.heap obj) with revents := realevents_of_revents c e.revents },
          retitemarr := w.retitemarr.set n (some obj) }
        (tr ++ [DevPollEvent.SetShortField_revents obj (realevents_of_revents c e.revents),
                DevPollEvent.SetObjectArrayElement n obj])
        hrest (by simp only [List.length_set]; omega)
      simp only [Nat.cast_add, Nat.cast_one] at this
      rw [this.1, this.2]
      constructor
      · push_cast; omega
      · rw [set_take_succ _ _ _ hn, List.drop_set_of_lt _ _ (by omega)]
        have : n + 1 + (registered_events w.state rest).length =
            n + ((registered_events w.state rest).length + 1) := by omega
        rw [this]
        simp

theorem devpoll_scan_heap_owner (c : SysConsts) (evs : List PollFd) :
    ∀ (count : Int) (w : DevPollWorld) (tr : List DevPollEvent),
      handles_in_range evs →
      ((registered_events w.state evs).map Prod.fst).Nodup →
      ∀ h ∈ registered_events w.state evs,
        (devpoll_scan c evs count w tr).world.heap h.1 =
          { (w.heap h.1) with revents := realevents_of_revents c h.2.revents } := by
  induction evs with
  | nil => intro count w tr _ _ h hh; simp [registered_events] at hh
  | cons e rest ih =>
    intro count w tr hr hnd h hh
    have he := hr e (List.mem_cons_self _ _)
    have hrest : handles_in_range rest := fun x hx => hr x (List.mem_cons_of_mem _ hx)
    have h1 : ¬ (e.fd < 0 ∨ e.fd ≥ (MAX_FDS : Int)) := by omega
    rw [devpoll_scan_cons, if_neg h1]
    rw [registered_events_cons] at hnd hh
    cases hs : w.state.selitems e.fd.toNat with
    | none =>
      simp only [hs] at hnd hh ⊢
      exact ih _ _ _ hrest hnd h hh
    | some obj =>
      simp only [hs, List.map_cons, List.nodup_cons, List.mem_cons] at hnd hh ⊢
      rcases hh with rfl | hh
      · -- the head hit: later events do not touch its owner
        refine Eq.trans (devpoll_scan_heap_frame c rest obj _ _ _ ?_) ?_
        · intro x hx _ _ hsel
          apply hnd.1
          simp only [List.mem_map]
          refine ⟨(obj, x), ?_, rfl⟩
          unfold registered_events
          simp only [List.mem_filterMap]
          have hsel2 : w.state.selitems x.fd.toNat = some obj := hsel
          exact ⟨x, hx, by simp [hsel2]⟩
        · simp [Function.update]
      · have hne : h.1 ≠ obj := by
          intro heq
          apply hnd.1
          simp only [List.mem_map]
          exact ⟨h, hh, heq⟩
        refine Eq.trans (ih _ _ _ hrest ?_ h ?_) ?_
        · exact hnd.2
        · exact hh
        · simp [Function.update, hne]

theorem register_world (c : SysConsts) (w : DevPollWorld) (obj : Nat) (write_ok : Bool) :
    (SelectSetDevPollImpl_register c w obj write_ok).world.heap = w.heap ∧
    (SelectSetDevPollImpl_register c w obj write_ok).world.retitemarr = w.retitemarr ∧
    (SelectSetDevPollImpl_register c w obj write_ok).world.state.devpoll_fd =
      w.state.devpoll_fd ∧
    (SelectSetDevPollImpl_register c w obj write_ok).world.state.max_retevents =
      w.state.max_retevents ∧
    ∀ n, (SelectSetDevPollImpl_register c w obj write_ok).world.state.selitems n =
      if registers_at w n (obj, write_ok) = true ∧ w.state.selitems n = none then some obj
      else w.state.selitems n := by
  unfold SelectSetDevPollImpl_register registers_at
  simp only
  by_cases hw : write_ok = false
  · subst hw; simp
  · have hw' : write_ok = true := by simpa using hw
    subst hw'
    simp only [Bool.true_eq_false, if_false, Bool.true_and, decide_eq_true_eq]
    by_cases hr : (w.heap obj).fd < 0 ∨ (w.heap obj).fd ≥ (MAX_FDS : Int)
    · rw [if_pos hr]
      refine ⟨rfl, rfl, rfl, rfl, ?_⟩
      intro n
      have : ¬ (0 ≤ (w.heap obj).fd ∧ (w.heap obj).fd < (MAX_FDS : Int) ∧
          (w.heap obj).fd.toNat = n) := by omega
      simp [this]
    · rw [if_neg hr]
      cases hs : w.state.selitems (w.heap obj).fd.toNat with
      | none =>
        refine ⟨rfl, rfl, rfl, rfl, ?_⟩
        intro n
        by_cases hn : n = (w.heap obj).fd.toNat
        · subst hn
          have : 0 ≤ (w.heap obj).fd ∧ (w.heap obj).fd < (MAX_FDS : Int) := by omega
          simp [Function.update, hs, this]
        · have : ¬ (0 ≤ (w.heap obj).fd ∧ (w.heap obj).fd < (MAX_FDS : Int) ∧
              (w.heap obj).fd.toNat = n) := fun h => hn h.2.2.symm
          simp [Function.update, hn, this]
      | some o =>
        refine ⟨rfl, rfl, rfl, rfl, ?_⟩
        intro n
        by_cases hn : n = (w.heap obj).fd.toNat
        · subst hn; simp [hs]
        · have : ¬ (0 ≤ (w.heap obj).fd ∧ (w.heap obj).fd < (MAX_FDS : Int) ∧
              (w.heap obj).fd.toNat = n) := fun h => hn h.2.2.symm
          simp [this]

theorem register_all_selitems (c : SysConsts) (calls : List (Nat × Bool)) :
    ∀ (w : DevPollWorld) (n : Nat),
      (register_all c calls w).state.selitems n =
        match w.state.selitems n with
        | some owner => some owner
        | none => (calls.find? (registers_at w n)).map Prod.fst := by
  induction calls with
  | nil => intro w n; cases h : w.state.selitems n <;> simp [register_all, h]
  | cons a rest ih =>
    intro w n
    obtain ⟨obj, ok⟩ := a
    have h := register_world c w obj ok
    have hreg : ∀ call, registers_at (SelectSetDevPollImpl_register c w obj ok).world n call =
        registers_at w n call := by
      intro call; unfold registers_at; rw [h.1]
    have hfun : registers_at (SelectSetDevPollImpl_register c w obj ok).world n =
        registers_at w n := funext hreg
    simp only [register_all]
    rw [ih, h.2.2.2.2 n, hfun]
    cases hs : w.state.selitems n with
    | some owner => simp
    | none =>
      by_cases hr : registers_at w n (obj, ok) = true
      · simp [hr, List.find?_cons]
      · simp [hr, List.find?_cons]

theorem devpoll_scan_array_frame (c : SysConsts) (evs : List PollFd) (o : Nat) :
    ∀ (count : Int) (w : DevPollWorld) (tr : List DevPollEvent),
      (∀ e ∈ evs, 0 ≤ e.fd → e.fd < (MAX_FDS : Int) → w.state.selitems e.fd.toNat ≠ some o) →
      ∀ idx : Nat, (devpoll_scan c evs count w tr).world.retitemarr[idx]? = some (some o) →
        w.retitemarr[idx]? = some (some o) := by
  induction evs with
  | nil => intro count w tr _ idx h; exact h
  | cons a rest ih =>
    intro count w tr hno idx hidx
    have hrest : ∀ e ∈ rest, 0 ≤ e.fd → e.fd < (MAX_FDS : Int) →
        w.state.selitems e.fd.toNat ≠ some o :=
      fun e he => hno e (List.mem_cons_of_mem _ he)
    rw [devpoll_scan_cons] at hidx
    by_cases h1 : a.fd < 0 ∨ a.fd ≥ (MAX_FDS : Int)
    · rw [if_pos h1] at hidx; exact hidx
    · rw [if_neg h1] at hidx
      cases hs : w.state.selitems a.fd.toNat with
      | none =>
        simp only [hs] at hidx
        exact ih _ _ _ hrest idx hidx
      | some obj =>
        simp only [hs] at hidx
        have hne : obj ≠ o := by
          intro h
          exact hno a (List.mem_cons_self _ _) (by omega) (by omega) (by rw [hs, h])
        have h2 := ih
          (if 0 ≤ count ∧ count < (w.retitemarr.length : Int) then count + 1 else count)
          { state := w.state,
            heap := Function.update w.heap obj
              { (w.heap obj) with revents := realevents_of_revents c a.revents },
            retitemarr :=
              if 0 ≤ count ∧ count < (w.retitemarr.length : Int) then
                w.retitemarr.set count.toNat (some obj)
              else w.retitemarr }
          (tr ++ [DevPollEvent.SetShortField_revents obj (realevents_of_revents c a.revents),
                  DevPollEvent.SetObjectArrayElement count.toNat obj])
          hrest idx hidx
        simp only at h2
        by_cases hc : 0 ≤ count ∧ count < (w.retitemarr.length : Int)
        · rw [if_pos hc] at h2
          by_cases hi : count.toNat = idx
          · subst hi
            rw [List.getElem?_set_self (by omega)] at h2
            exact absurd (Option.some.inj (Option.some.inj h2)) hne
          · rwa [List.getElem?_set_ne hi] at h2
        · rwa [if_neg hc] at h2

theorem devpoll_scan_count_le (c : SysConsts) (h : Int) (evs : List PollFd) :
    ∀ (count : Int) (w : DevPollWorld) (tr : List DevPollEvent),
      (∀ e ∈ evs, 0 ≤ e.fd → e.fd < (MAX_FDS : Int) → e.fd = h →
        w.state.selitems e.fd.toNat = none) →
      0 ≤ count →
      (devpoll_scan c evs count w tr).ret ≤
        count + ((evs.filter (fun e => decide (e.fd ≠ h))).length : Int) := by
  induction evs with
  | nil => intro count w tr _ _; simp [devpoll_scan]
  | cons a rest ih =>
    intro count w tr hno h0
    have hrest : ∀ e ∈ rest, 0 ≤ e.fd → e.fd < (MAX_FDS : Int) → e.fd = h →
        w.state.selitems e.fd.toNat = none :=
      fun e he => hno e (List.mem_cons_of_mem _ he)
    have hmono : ((rest.filter (fun e => decide (e.fd ≠ h))).length : Int) ≤
        (((a :: rest).filter (fun e => decide (e.fd ≠ h))).length : Int) := by
      rw [List.filter_cons]
      split_ifs <;> simp
    rw [devpoll_scan_cons]
    by_cases h1 : a.fd < 0 ∨ a.fd ≥ (MAX_FDS : Int)
    · rw [if_pos h1]
      show (0 : Int) ≤ _
      omega
    · rw [if_neg h1]
      cases hs : w.state.selitems a.fd.toNat with
      | none =>
        have := ih count w tr hrest h0
        simp only
        omega
      | some obj =>
        have hah : a.fd ≠ h := by
          intro heq
          have := hno a (List.mem_cons_self _ _) (by omega) (by omega) heq
          rw [hs] at this
          exact absurd this (by simp)
        have hlen : (((a :: rest).filter (fun e => decide (e.fd ≠ h))).length : Int) =
            ((rest.filter (fun e => decide (e.fd ≠ h))).length : Int) + 1 := by
          rw [List.filter_cons]
          simp [hah]
        simp only
        have := ih (if 0 ≤ count ∧ count < (w.retitemarr.length : Int) then count + 1 else count)
          { state := w.state,
            heap := Function.update w.heap obj
              { (w.heap obj) with revents := realevents_of_revents c a.revents },
            retitemarr :=
              if 0 ≤ count ∧ count < (w.retitemarr.length : Int) then
                w.retitemarr.set count.toNat (some obj)
              else w.retitemarr }
          (tr ++ [DevPollEvent.SetShortField_revents obj (realevents_of_revents c a.revents),
                  DevPollEvent.SetObjectArrayElement count.toNat obj])
          hrest (by split_ifs <;> omega)
        simp only at this
        have hstep : (if 0 ≤ count ∧ count < (w.retitemarr.length : Int) then count + 1
            else count) ≤ count + 1 := by
          split_ifs <;> omega
        omega

/-- Every cached-interest doSelect call either ends before its loop, changing
nothing, returning 0 and issuing at most the `ioctl`, or is the scan of the raw
events the OS returned. -/
theorem devpoll_doSelect_cases (c : SysConsts) (w : DevPollWorld)
    (itemarr : Option (List (Option Nat))) (timeout num_fds : Int) (reply : DpReply) :
    ((SelectSetDevPollImpl_doSelect c w itemarr timeout num_fds reply).world = w ∧
      (SelectSetDevPollImpl_doSelect c w itemarr timeout num_fds reply).ret = 0 ∧
      (∀ ev ∈ (SelectSetDevPollImpl_doSelect c w itemarr timeout num_fds reply).trace,
        ev = DevPollEvent.ioctl_DP_POLL timeout
          (if num_fds > w.state.max_retevents then w.state.max_retevents else num_fds)) ∧
      ((SelectSetDevPollImpl_doSelect c w itemarr timeout num_fds reply).exn = none ∨
        reply.ret ≤ 0 ∨ itemarr = some [] ∨ w.retitemarr = [])) ∨
    (0 < reply.ret ∧ w.retitemarr ≠ [] ∧
      SelectSetDevPollImpl_doSelect c w itemarr timeout num_fds reply =
        devpoll_scan c ((List.range' 0 reply.ret.toNat).map reply.retevents) 0 w
          [DevPollEvent.ioctl_DP_POLL timeout
            (if num_fds > w.state.max_retevents then w.state.max_retevents else num_fds),
           DevPollEvent.MonitorEnter]) := by
  by_cases hpos : 0 < reply.ret
  · cases itemarr with
    | none =>
      left
      rw [devpoll_doSelect_positive c w none timeout num_fds reply hpos]
      exact ⟨rfl, rfl, by simp, Or.inl rfl⟩
    | some items =>
      by_cases hitems : items = []
      · left
        subst hitems
        rw [devpoll_doSelect_positive c w (some []) timeout num_fds reply hpos]
        simp
      · by_cases hcap : w.retitemarr = []
        · left
          rw [devpoll_doSelect_positive c w (some items) timeout num_fds reply hpos]
          simp [hcap]
        · right
          exact ⟨hpos, hcap, devpoll_doSelect_scan c w items timeout num_fds reply hitems hcap hpos⟩
  · left
    rw [devpoll_doSelect_nonpositive c w itemarr timeout num_fds reply (by omega)]
    cases itemarr with
    | none => exact ⟨rfl, rfl, by simp, Or.inl rfl⟩
    | some items =>
      simp only
      by_cases hl : (items.length : Int) ≤ 0 ∨ (w.retitemarr.length : Int) ≤ 0
      · refine ⟨?_, ?_, ?_, Or.inr (Or.inl (by omega))⟩ <;>
          (simp only [if_pos hl]; try simp)
      · refine ⟨?_, ?_, ?_, Or.inr (Or.inl (by omega))⟩ <;>
          (simp only [if_neg hl]; try simp)

theorem deregister_world (P : Nat) (w : DevPollWorld) (obj : Nat) :
    (SelectSetDevPollImpl_deregister P w obj true).world.heap = w.heap ∧
    (SelectSetDevPollImpl_deregister P w obj true).world.retitemarr = w.retitemarr ∧
    ∀ n, (SelectSetDevPollImpl_deregister P w obj true).world.state.selitems n =
      if 0 ≤ (w.heap obj).fd ∧ (w.heap obj).fd < (MAX_FDS : Int) ∧ (w.heap obj).fd.toNat = n
      then none else w.state.selitems n := by
  unfold SelectSetDevPollImpl_deregister
  simp only [Bool.true_eq_false, if_false]
  by_cases hr : (w.heap obj).fd < 0 ∨ (w.heap obj).fd ≥ (MAX_FDS : Int)
  · rw [if_pos hr]
    refine ⟨rfl, rfl, ?_⟩
    intro n
    have : ¬ (0 ≤ (w.heap obj).fd ∧ (w.heap obj).fd < (MAX_FDS : Int) ∧
        (w.heap obj).fd.toNat = n) := by omega
    simp [this]
  · rw [if_neg hr]
    have hin : 0 ≤ (w.heap obj).fd ∧ (w.heap obj).fd < (MAX_FDS : Int) := by omega
    cases hs : w.state.selitems (w.heap obj).fd.toNat with
    | none =>
      refine ⟨rfl, rfl, ?_⟩
      intro n
      by_cases hn : (w.heap obj).fd.toNat = n
      · subst hn; simp [hs, hin]
      · simp [hn]
    | some o =>
      refine ⟨rfl, rfl, ?_⟩
      intro n
      by_cases hn : (w.heap obj).fd.toNat = n
      · subst hn; simp [Function.update, hin]
      · have hn' : ¬ n = (w.heap obj).fd.toNat := fun h => hn h.symm
        simp [Function.update, hn, hn']

theorem registered_then_deregistered_selitems (c : SysConsts) (P : Nat) (w : DevPollWorld)
    (obj : Nat) (write_ok : Bool) :
    (registered_then_deregistered c P w obj write_ok).heap = w.heap ∧
    (registered_then_deregistered c P w obj write_ok).retitemarr = w.retitemarr ∧
    ∀ n, (registered_then_deregistered c P w obj write_ok).state.selitems n =
      if 0 ≤ (w.heap obj).fd ∧ (w.heap obj).fd < (MAX_FDS : Int) ∧ (w.heap obj).fd.toNat = n
      then none else w.state.selitems n := by
  have h1 := register_world c w obj write_ok
  have h2 := deregister_world P (SelectSetDevPollImpl_register c w obj write_ok).world obj
  unfold registered_then_deregistered
  refine ⟨h2.1.trans h1.1, h2.2.1.trans h1.2.1, ?_⟩
  intro n
  rw [h2.2.2 n, h1.1, h1.2.2.2.2 n]
  by_cases hn : 0 ≤ (w.heap obj).fd ∧ (w.heap obj).fd < (MAX_FDS : Int) ∧
      (w.heap obj).fd.toNat = n
  · simp [hn]
  · have : ¬ (registers_at w n (obj, write_ok) = true ∧ w.state.selitems n = none) := by
      intro h
      apply hn
      have := h.1
      simp only [registers_at, Bool.and_eq_true, decide_eq_true_eq] at this
      exact this.2
    simp [hn, this]

theorem devpoll_doSelect_events (c : SysConsts) (w : DevPollWorld) (items : List (Option Nat))
    (timeout num_fds : Int) (evs : List PollFd) (hitems : items ≠ [])
    (hcap : w.retitemarr ≠ []) :
    SelectSetDevPollImpl_doSelect c w (some items) timeout num_fds (dp_reply_of evs) =
      if evs = [] then
        { ret := 0, exn := none, world := w,
          trace := [DevPollEvent.ioctl_DP_POLL timeout
            (if num_fds > w.state.max_retevents then w.state.max_retevents else num_fds)] }
      else
        devpoll_scan c evs 0 w
          [DevPollEvent.ioctl_DP_POLL timeout
            (if num_fds > w.state.max_retevents then w.state.max_retevents else num_fds),
           DevPollEvent.MonitorEnter] := by
  have hl : ¬ ((items.length : Int) ≤ 0 ∨ (w.retitemarr.length : Int) ≤ 0) := by
    cases items with
    | nil => exact absurd rfl hitems
    | cons a l =>
      cases hw : w.retitemarr with
      | nil => exact absurd hw hcap
      | cons b m => simp only [List.length_cons]; omega
  by_cases he : evs = []
  · subst he
    rw [if_pos rfl, devpoll_doSelect_nonpositive c w (some items) timeout num_fds _
      (by simp [dp_reply_of])]
    simp only [if_neg hl]
    have : ¬ ((dp_reply_of []).ret < 0 ∧ (dp_reply_of []).errno ≠ c.EINTR) := by
      simp [dp_reply_of]
    rw [if_neg this]
  · rw [if_neg he]
    have hpos : 0 < (dp_reply_of evs).ret := by
      cases evs with
      | nil => exact absurd rfl he
      | cons a l => simp only [dp_reply_of, List.length_cons]; omega
    rw [devpoll_doSelect_scan c w items timeout num_fds _ hitems hcap hpos, dp_reply_of_events]

theorem devpoll_scan_out_of_range (c : SysConsts) (evs : List PollFd) :
    ∀ (count : Int) (w : DevPollWorld) (tr : List DevPollEvent),
      (∃ e ∈ evs, e.fd < 0 ∨ e.fd ≥ (MAX_FDS : Int)) →
      (devpoll_scan c evs count w tr).ret = 0 ∧
      (devpoll_scan c evs count w tr).exn = some JavaException.ArrayIndexOutOfBoundsException := by
  induction evs with
  | nil => intro count w tr h; obtain ⟨e, he, _⟩ := h; simp at he
  | cons a rest ih =>
    intro count w tr h
    rw [devpoll_scan_cons]
    by_cases h1 : a.fd < 0 ∨ a.fd ≥ (MAX_FDS : Int)
    · rw [if_pos h1]; exact ⟨rfl, rfl⟩
    · rw [if_neg h1]
      have hrest : ∃ e ∈ rest, e.fd < 0 ∨ e.fd ≥ (MAX_FDS : Int) := by
        obtain ⟨e, he, hout⟩ := h
        rcases List.mem_cons.1 he with rfl | hm
        · exact absurd hout h1
        · exact ⟨e, hm, hout⟩
      cases hs : w.state.selitems a.fd.toNat with
      | none => exact ih _ _ _ hrest
      | some obj => exact ih _ _ _ hrest

theorem devpoll_doSelect_ioctl (c : SysConsts) (w : DevPollWorld)
    (itemarr : Option (List (Option Nat))) (timeout num_fds : Int) (reply : DpReply)
    (dp_timeout dp_nfds : Int)
    (h : DevPollEvent.ioctl_DP_POLL dp_timeout dp_nfds ∈
      (SelectSetDevPollImpl_doSelect c w itemarr timeout num_fds reply).trace) :
    dp_timeout = timeout ∧
    dp_nfds = if num_fds > w.state.max_retevents then w.state.max_retevents else num_fds := by
  rcases devpoll_doSelect_cases c w itemarr timeout num_fds reply with hA | hB
  · have := hA.2.2.1 _ h
    injection this with h1 h2
    exact ⟨h1, h2⟩
  · rw [hB.2.2] at h
    rcases devpoll_scan_trace c _ _ _ _ _ h with h | h | ⟨e, _, _, _, o, _, h | ⟨idx, h⟩⟩
    · simp only [List.mem_cons, List.mem_singleton, List.not_mem_nil, or_false] at h
      rcases h with h | h
      · injection h with h1 h2
        exact ⟨h1, h2⟩
      · cases h
    · cases h
    · cases h
    · cases h

theorem devpoll_loop_steps_effects (c : SysConsts) (retevents : Nat → PollFd) :
    ∀ (k i : Nat) (count : Int) (w : DevPollWorld) (tr : List DevPollEvent),
      (devpoll_loop c retevents k i count w tr).trace =
        tr ++ (devpoll_loop_steps c retevents k i count w).filterMap DoSelectStep.effect := by
  intro k
  induction k with
  | zero => intro i count w tr; rfl
  | succ k ih =>
    intro i count w tr
    rw [devpoll_loop_succ, devpoll_loop_steps]
    simp only
    by_cases h1 : (retevents i).fd < 0 ∨ (retevents i).fd ≥ (MAX_FDS : Int)
    · rw [if_pos h1, if_pos h1]; rfl
    · rw [if_neg h1, if_neg h1]
      cases hs : w.state.selitems (retevents i).fd.toNat with
      | none =>
        simp only [List.filterMap_cons, DoSelectStep.effect]
        exact ih _ _ _ _
      | some obj =>
        simp only [List.filterMap_cons, DoSelectStep.effect]
        by_cases h2 : 0 ≤ count ∧ count < (w.retitemarr.length : Int)
        · rw [if_pos h2, if_pos h2, ih]
          simp
        · rw [if_neg h2, if_neg h2, ih]
          simp

theorem devpoll_loop_steps_shape (c : SysConsts) (retevents : Nat → PollFd) :
    ∀ (k i : Nat) (count : Int) (w : DevPollWorld),
      ∃ body, devpoll_loop_steps c retevents k i count w = body ++ [DoSelectStep.MonitorExit] ∧
        ∀ s ∈ body, s.translates = true := by
  intro k
  induction k with
  | zero => intro i count w; exact ⟨[], rfl, by simp⟩
  | succ k ih =>
    intro i count w
    rw [devpoll_loop_steps]
    simp only
    by_cases h1 : (retevents i).fd < 0 ∨ (retevents i).fd ≥ (MAX_FDS : Int)
    · rw [if_pos h1]; exact ⟨[], rfl, by simp⟩
    · rw [if_neg h1]
      cases hs : w.state.selitems (retevents i).fd.toNat with
      | none =>
        obtain ⟨body, hb, ht⟩ := ih (i + 1) count w
        refine ⟨DoSelectStep.selitems_read (retevents i).fd :: body, ?_, ?_⟩
        · simp only [hb, List.cons_append]
        · intro s hsm
          rcases List.mem_cons.1 hsm with rfl | h
          · rfl
          · exact ht s h
      | some obj =>
        simp only
        by_cases h2 : 0 ≤ count ∧ count < (w.retitemarr.length : Int)
        · rw [if_pos h2]
          obtain ⟨body, hb, ht⟩ := ih (i + 1) (count + 1)
            { state := w.state,
              heap := Function.update w.heap obj
                { (w.heap obj) with revents := realevents_of_revents c (retevents i).revents },
              retitemarr := w.retitemarr.set count.toNat (some obj) }
          refine ⟨DoSelectStep.selitems_read (retevents i).fd ::
            DoSelectStep.SetShortField_revents obj
              (realevents_of_revents c (retevents i).revents) ::
            DoSelectStep.SetObjectArrayElement count.toNat obj :: body, ?_, ?_⟩
          · simp only [hb, List.cons_append]
          · intro s hsm
            simp only [List.mem_cons] at hsm
            rcases hsm with rfl | rfl | rfl | h
            · rfl
            · rfl
            · rfl
            · exact ht s h
        · rw [if_neg h2]
          obtain ⟨body, hb, ht⟩ := ih (i + 1) count
            { state := w.state,
              heap := Function.update w.heap obj
                { (w.heap obj) with revents := realevents_of_revents c (retevents i).revents },
              retitemarr := w.retitemarr }
          refine ⟨DoSelectStep.selitems_read (retevents i).fd ::
            DoSelectStep.SetShortField_revents obj
              (realevents_of_revents c (retevents i).revents) ::
            DoSelectStep.SetObjectArrayElement count.toNat obj :: body, ?_, ?_⟩
          · simp only [hb, List.cons_append]
          · intro s hsm
            simp only [List.mem_cons] at hsm
            rcases hsm with rfl | rfl | rfl | h
            · rfl
            · rfl
            · rfl
            · exact ht s h

theorem system_step_registry (c : SysConsts) (POLLREMOVE : Nat) (selector : Nat)
    (s s1 : SelectSetSystem) (t : Nat) (a : ThreadAction)
    (hstep : system_step c POLLREMOVE selector s t a = some s1)
    (hsel : s.monitor = some selector) :
    s1.world.state.selitems = s.world.state.selitems := by
  cases a with
  | MonitorEnter =>
    simp only [system_step, hsel] at hstep
    simp at hstep
  | MonitorExit =>
    simp only [system_step] at hstep
    split_ifs at hstep
    rw [← Option.some.inj hstep]
  | register obj ok =>
    simp only [system_step] at hstep
    by_cases h : t ≠ selector ∧ caller_owns_monitor s t = true
    · exfalso
      obtain ⟨hne, h⟩ := h
      have h2 : s.monitor = some t := by simpa [caller_owns_monitor] using h
      rw [hsel] at h2
      exact hne (Option.some.inj h2).symm
    · rw [if_neg h] at hstep
      cases hstep
  | deregister obj ok =>
    simp only [system_step] at hstep
    by_cases h : t ≠ selector ∧ caller_owns_monitor s t = true
    · exfalso
      obtain ⟨hne, h⟩ := h
      have h2 : s.monitor = some t := by simpa [caller_owns_monitor] using h
      rw [hsel] at h2
      exact hne (Option.some.inj h2).symm
    · rw [if_neg h] at hstep
      cases hstep
  | translate pfd =>
    simp only [system_step] at hstep
    split_ifs at hstep
    rw [← Option.some.inj hstep]
    simp only
    rw [devpoll_loop_eq_scan]
    exact congrArg devpoll_impl_state.selitems (devpoll_scan_state c _ _ _ _)

theorem system_run_cons (c : SysConsts) (POLLREMOVE : Nat) (selector : Nat)
    (s : SelectSetSystem) (t : Nat) (a : ThreadAction) (rest : List (Nat × ThreadAction))
    (states : List SelectSetSystem)
    (hrun : system_run c POLLREMOVE selector s ((t, a) :: rest) = some states) :
    ∃ s1 tail, system_step c POLLREMOVE selector s t a = some s1 ∧
      system_run c POLLREMOVE selector s1 rest = some tail ∧ states = s :: tail ∧
      tail.head? = some s1 := by
  simp only [system_run] at hrun
  cases hs : system_step c POLLREMOVE selector s t a with
  | none => simp [hs] at hrun
  | some s1 =>
    simp only [hs] at hrun
    cases hr : system_run c POLLREMOVE selector s1 rest with
    | none => simp [hr] at hrun
    | some tail =>
      simp only [hr] at hrun
      refine ⟨s1, tail, rfl, hr, (Option.some.inj hrun).symm, ?_⟩
      cases rest with
      | nil =>
        simp only [system_run] at hr
        rw [← Option.some.inj hr]; rfl
      | cons b rest2 =>
        obtain ⟨t2, a2⟩ := b
        simp only [system_run] at hr
        cases hs2 : system_step c POLLREMOVE selector s1 t2 a2 with
        | none => simp [hs2] at hr
        | some s2 =>
          simp only [hs2] at hr
          cases hr2 : system_run c POLLREMOVE selector s2 rest2 with
          | none => simp [hr2] at hr
          | some tail2 =>
            simp only [hr2] at hr
            rw [← Option.some.inj hr]; rfl

theorem register_deregister_trace (c : SysConsts) (POLLREMOVE : Nat) (w : DevPollWorld)
    (selitemobj : Nat) (write_ok : Bool) :
    (SelectSetDevPollImpl_register c w selitemobj write_ok).trace =
      [DevPollEvent.write_devpoll (w.heap selitemobj).fd
        (if (w.heap selitemobj).events ≠ 0 then
          realevents_of_events c (w.heap selitemobj).events else 0)] ∧
    (SelectSetDevPollImpl_deregister POLLREMOVE w selitemobj write_ok).trace =
      [DevPollEvent.write_devpoll (w.heap selitemobj).fd POLLREMOVE] := by
  constructor
  · unfold SelectSetDevPollImpl_register
    simp only
    generalize (if (w.heap selitemobj).events ≠ 0 then
      realevents_of_events c (w.heap selitemobj).events else 0) = r
    by_cases h1 : write_ok = false
    · rw [if_pos h1]
    · rw [if_neg h1]
      by_cases h2 : (w.heap selitemobj).fd < 0 ∨ (w.heap selitemobj).fd ≥ (MAX_FDS : Int)
      · rw [if_pos h2]
      · rw [if_neg h2]
        cases w.state.selitems (w.heap selitemobj).fd.toNat <;> rfl
  · unfold SelectSetDevPollImpl_deregister
    simp only
    by_cases h1 : write_ok = false
    · rw [if_pos h1]
    · rw [if_neg h1]
      by_cases h2 : (w.heap selitemobj).fd < 0 ∨ (w.heap selitemobj).fd ≥ (MAX_FDS : Int)
      · rw [if_pos h2]
      · rw [if_neg h2]
        cases w.state.selitems (w.heap selitemobj).fd.toNat <;> rfl

theorem array_write_some {α : Type} (a : List α) (i : Nat) (v : α) (h : i < a.length) :
    array_write a i v = some (a.set i v) := by
  unfold array_write
  rw [if_pos h]

theorem array_read_some {α : Type} (a : List α) (i : Nat) (h : i < a.length) :
    array_read a i = some (a.get ⟨i, h⟩) := by
  unfold array_read
  exact List.getElem?_eq_getElem h

theorem array_shift_right_spec {α : Type} (lo : Nat) :
    ∀ (n : Nat) (a : List α), lo + n < a.length →
      ∃ r, array_shift_right lo n a = some r ∧ r.length = a.length ∧
        ∀ j, r[j]? = if lo < j ∧ j ≤ lo + n then a[j - 1]? else a[j]? := by
  intro n
  induction n with
  | zero =>
    intro a _
    refine ⟨a, rfl, rfl, ?_⟩
    intro j
    have : ¬ (lo < j ∧ j ≤ lo + 0) := by omega
    rw [if_neg this]
  | succ n ih =>
    intro a hlen
    have h1 : lo + n < a.length := by omega
    have h2 : lo + n + 1 < a.length := by omega
    obtain ⟨r, hr, hrl, hrj⟩ := ih (a.set (lo + n + 1) (a.get ⟨lo + n, h1⟩))
      (by rw [List.length_set]; omega)
    refine ⟨r, ?_, ?_, ?_⟩
    · rw [array_shift_right, array_read_some a (lo + n) h1]
      simp only
      rw [array_write_some a (lo + n + 1) _ h2]
      exact hr
    · rw [hrl, List.length_set]
    · intro j
      rw [hrj j]
      by_cases hj : lo < j ∧ j ≤ lo + n
      · have hj2 : lo < j ∧ j ≤ lo + (n + 1) := by omega
        rw [if_pos hj, if_pos hj2, List.getElem?_set_ne (by omega)]
      · rw [if_neg hj]
        by_cases hj3 : j = lo + n + 1
        · have hj2 : lo < j ∧ j ≤ lo + (n + 1) := by omega
          rw [if_pos hj2, hj3, List.getElem?_set_self h2]
          simp only [Nat.add_sub_cancel]
          exact (List.getElem?_eq_getElem h1).symm
        · have hj2 : ¬ (lo < j ∧ j ≤ lo + (n + 1)) := by omega
          rw [if_neg hj2, List.getElem?_set_ne (by omega)]

theorem array_copy_spec {α : Type} (src : List α) (off : Nat) :
    ∀ (n j0 : Nat) (dst : List α), j0 + n ≤ dst.length → j0 + n + off ≤ src.length →
      ∃ r, array_copy src off n j0 dst = some r ∧ r.length = dst.length ∧
        ∀ j, r[j]? = if j0 ≤ j ∧ j < j0 + n then src[j + off]? else dst[j]? := by
  intro n
  induction n with
  | zero =>
    intro j0 dst _ _
    refine ⟨dst, rfl, rfl, ?_⟩
    intro j
    have : ¬ (j0 ≤ j ∧ j < j0 + 0) := by omega
    rw [if_neg this]
  | succ n ih =>
    intro j0 dst hd hs
    have h1 : j0 + off < src.length := by omega
    have h2 : j0 < dst.length := by omega
    obtain ⟨r, hr, hrl, hrj⟩ := ih (j0 + 1) (dst.set j0 (src.get ⟨j0 + off, h1⟩))
      (by rw [List.length_set]; omega) (by omega)
    refine ⟨r, ?_, ?_, ?_⟩
    · rw [array_copy, array_read_some src (j0 + off) h1]
      simp only
      rw [array_write_some dst j0 _ h2]
      exact hr
    · rw [hrl, List.length_set]
    · intro j
      rw [hrj j]
      by_cases hj : j0 + 1 ≤ j ∧ j < j0 + 1 + n
      · have hj2 : j0 ≤ j ∧ j < j0 + (n + 1) := by omega
        rw [if_pos hj, if_pos hj2]
      · rw [if_neg hj]
        by_cases hj3 : j = j0
        · have hj2 : j0 ≤ j ∧ j < j0 + (n + 1) := by omega
          rw [if_pos hj2, hj3, List.getElem?_set_self h2]
          exact (List.getElem?_eq_getElem h1).symm
        · have hj2 : ¬ (j0 ≤ j ∧ j < j0 + (n + 1)) := by omega
          rw [if_neg hj2, List.getElem?_set_ne (by omega)]

theorem key_at_of_getElem? (keys_data : List (Int × Option Nat)) (i : Nat)
    (e : Int × Option Nat) (h : keys_data[i]? = some e) : key_at keys_data i = e.1 := by
  unfold key_at
  rw [List.getD_eq_getElem?_getD, h]
  rfl

theorem btree_search_loop_spec (numkeys : Nat) (keys_data : List (Int × Option Nat))
    (key : Int) (hlen : numkeys ≤ keys_data.length) :
    ∀ (r i0 : Nat), i0 ≤ numkeys → numkeys ≤ i0 + r →
      (∀ j, j < i0 → key_at keys_data j < key) →
      ∃ i, btree_search_loop numkeys keys_data key r i0 = some i ∧ i ≤ numkeys ∧
        (∀ j, j < i → key_at keys_data j < key) ∧
        (i < numkeys → key ≤ key_at keys_data i) := by
  intro r
  induction r with
  | zero =>
    intro i0 h0 h1 hlt
    exact ⟨i0, rfl, h0, hlt, fun h => by omega⟩
  | succ r ih =>
    intro i0 h0 h1 hlt
    rw [btree_search_loop]
    by_cases hi : i0 < numkeys
    · rw [if_pos hi, array_read_some keys_data i0 (by omega)]
      simp only
      have hk : key_at keys_data i0 = (keys_data.get ⟨i0, by omega⟩).1 :=
        key_at_of_getElem? keys_data i0 _ (List.getElem?_eq_getElem (by omega))
      by_cases hgt : key > (keys_data.get ⟨i0, by omega⟩).1
      · rw [if_pos hgt]
        apply ih (i0 + 1) (by omega) (by omega)
        intro j hj
        by_cases hj0 : j = i0
        · rw [hj0, hk]; exact hgt
        · exact hlt j (by omega)
      · rw [if_neg hgt]
        refine ⟨i0, rfl, h0, hlt, fun _ => ?_⟩
        rw [hk]; omega
    · rw [if_neg hi]
      exact ⟨i0, rfl, h0, hlt, fun h => absurd h hi⟩

theorem btree_descend_index_spec (key : Int) (keys_data : List (Int × Option Nat)) :
    ∀ (n numkeys : Nat), n ≤ numkeys → numkeys ≤ keys_data.length →
      (∀ j, n ≤ j → j < numkeys → key < key_at keys_data j) →
      ∃ p, btree_descend_index key keys_data n = some p ∧ p ≤ numkeys ∧
        (∀ j, p ≤ j → j < numkeys → key < key_at keys_data j) ∧
        (0 < p → key_at keys_data (p - 1) ≤ key) := by
  intro n
  induction n with
  | zero =>
    intro numkeys _ _ hgt
    exact ⟨0, rfl, Nat.zero_le _, hgt, fun h => absurd h (Nat.lt_irrefl 0)⟩
  | succ n ih =>
    intro numkeys hn hlen hgt
    rw [btree_descend_index, array_read_some keys_data n (by omega)]
    simp only
    have hk : key_at keys_data n = (keys_data.get ⟨n, by omega⟩).1 :=
      key_at_of_getElem? keys_data n _ (List.getElem?_eq_getElem (by omega))
    by_cases hlt : key < (keys_data.get ⟨n, by omega⟩).1
    · rw [if_pos hlt]
      apply ih numkeys (by omega) hlen
      intro j hj hjn
      by_cases hj0 : j = n
      · rw [hj0, hk]; exact hlt
      · exact hgt j (by omega) hjn
    · rw [if_neg hlt]
      refine ⟨n + 1, rfl, hn, hgt, fun _ => ?_⟩
      simp only [Nat.add_sub_cancel]
      rw [hk]; omega

theorem btree_leaf_shift_spec (key : Int) :
    ∀ (n numkeys : Nat) (keys_data kd0 : List (Int × Option Nat)),
      n ≤ numkeys → numkeys < kd0.length → keys_data.length = kd0.length →
      (∀ j, keys_data[j]? = if n < j ∧ j ≤ numkeys then kd0[j - 1]? else kd0[j]?) →
      (∀ j, n ≤ j → j < numkeys → key < key_at kd0 j) →
      ∃ r p, btree_leaf_shift key n keys_data = some (r, p) ∧ p ≤ numkeys ∧
        r.length = kd0.length ∧
        (∀ j, r[j]? = if p < j ∧ j ≤ numkeys then kd0[j - 1]? else kd0[j]?) ∧
        (∀ j, p ≤ j → j < numkeys → key < key_at kd0 j) ∧
        (0 < p → key_at kd0 (p - 1) ≤ key) := by
  intro n
  induction n with
  | zero =>
    intro numkeys keys_data kd0 _ _ hl hsh hgt
    exact ⟨keys_data, 0, rfl, Nat.zero_le _, hl, hsh, hgt,
      fun h => absurd h (Nat.lt_irrefl 0)⟩
  | succ n ih =>
    intro numkeys keys_data kd0 hn hlen hl hsh hgt
    have hn1 : n < keys_data.length := by omega
    have hrd : keys_data[n]? = kd0[n]? := by
      rw [hsh n]
      have : ¬ (n + 1 < n ∧ n ≤ numkeys) := by omega
      rw [if_neg this]
    have hget : keys_data.get ⟨n, hn1⟩ = kd0.get ⟨n, by omega⟩ := by
      have h1 : keys_data[n]? = some (keys_data.get ⟨n, hn1⟩) := List.getElem?_eq_getElem hn1
      have h2 : kd0[n]? = some (kd0.get ⟨n, by omega⟩) := List.getElem?_eq_getElem (by omega)
      rw [hrd, h2] at h1
      exact (Option.some.inj h1).symm
    have hk : key_at kd0 n = (keys_data.get ⟨n, hn1⟩).1 := by
      rw [hget]
      exact key_at_of_getElem? kd0 n _ (List.getElem?_eq_getElem (by omega))
    rw [btree_leaf_shift, array_read_some keys_data n hn1]
    simp only
    by_cases hlt : key < (keys_data.get ⟨n, hn1⟩).1
    · rw [if_pos hlt, array_write_some keys_data (n + 1) _ (by omega)]
      simp only
      apply ih numkeys _ kd0 (by omega) hlen (by rw [List.length_set]; exact hl)
      · intro j
        by_cases hj : j = n + 1
        · rw [hj, List.getElem?_set_self (by omega)]
          have : n < n + 1 ∧ n + 1 ≤ numkeys := by omega
          rw [if_pos this, hget]
          simp only [Nat.add_sub_cancel]
          exact (List.getElem?_eq_getElem (by omega)).symm
        · rw [List.getElem?_set_ne (by omega), hsh j]
          by_cases hj2 : n + 1 < j ∧ j ≤ numkeys
          · have : n < j ∧ j ≤ numkeys := by omega
            rw [if_pos hj2, if_pos this]
          · have : ¬ (n < j ∧ j ≤ numkeys) := by omega
            rw [if_neg hj2, if_neg this]
      · intro j hj hjn
        by_cases hj0 : j = n
        · rw [hj0, hk]; exact hlt
        · exact hgt j (by omega) hjn
    · rw [if_neg hlt]
      refine ⟨keys_data, n + 1, rfl, hn, hl, hsh, hgt, fun _ => ?_⟩
      simp only [Nat.add_sub_cancel]
      rw [hk]; omega

theorem above_trans (lo : Option Int) (k x : Int) (h : above lo k) (hk : k ≤ x) : above lo x := by
  cases lo with
  | none => trivial
  | some l => exact lt_of_lt_of_le h hk

theorem below_trans (hi : Option Int) (k x : Int) (h : below k hi) (hk : x ≤ k) : below x hi := by
  cases hi with
  | none => trivial
  | some u => exact lt_of_le_of_lt hk h

theorem btree_search_children_eq (children : List btree_node) :
    ∀ (i : Nat) (key : Int),
      btree_search_children children i key =
        match children[i]? with
        | none => none
        | some child => btree_search child key := by
  induction children with
  | nil => intro i key; simp [btree_search_children]
  | cons c rest ih =>
    intro i key
    cases i with
    | zero => simp [btree_search_children]
    | succ i => simp [btree_search_children, ih]

theorem btree_search_children_getD (children : List btree_node) (i : Nat) (key : Int)
    (h : i < children.length) :
    btree_search_children children i key =
      btree_search (children.getD i btree_node.NULL) key := by
  rw [btree_search_children_eq, List.getD_eq_getElem?_getD, List.getElem?_eq_getElem h]
  rfl

theorem btree_contains_bounds :
    ∀ (h m : Nat) (lo hi : Option Int) (t : btree_node) (x : Int × Option Nat),
      btree_wf h m lo hi t → btree_contains h t x → above lo x.1 ∧ below x.1 hi := by
  intro h
  induction h with
  | zero =>
    intro m lo hi t x hwf hc
    cases t with
    | NULL => exact absurd hwf (by simp [btree_wf])
    | node nk kd cs leaf =>
      simp only [btree_wf] at hwf
      simp only [btree_contains] at hc
      obtain ⟨i, hi1, hi2⟩ := hc
      have := hwf.2.2.2.2.2.2 i hi1
      rw [key_at_of_getElem? kd i x hi2] at this
      exact this
  | succ h ih =>
    intro m lo hi t x hwf hc
    cases t with
    | NULL => exact absurd hwf (by simp [btree_wf])
    | node nk kd cs leaf =>
      simp only [btree_wf] at hwf
      simp only [btree_contains] at hc
      obtain ⟨_, hok, hch⟩ := hwf
      rcases hc with ⟨i, hi1, hi2⟩ | ⟨i, hi1, hi2⟩
      · have := hok.2.2.2.2.2 i hi1
        rw [key_at_of_getElem? kd i x hi2] at this
        exact this
      · have hb := ih _ _ _ _ x (hch i hi1) hi2
        constructor
        · by_cases h0 : i = 0
          · rw [if_pos h0] at hb; exact hb.1
          · rw [if_neg h0] at hb
            have h1 : key_at kd (i - 1) < x.1 := hb.1
            exact above_trans lo _ _ (hok.2.2.2.2.2 (i - 1) (by omega)).1 (le_of_lt h1)
        · by_cases h0 : i = nk
          · rw [if_pos h0] at hb; exact hb.2
          · rw [if_neg h0] at hb
            have h1 : x.1 < key_at kd i := hb.2
            exact below_trans hi _ _ (hok.2.2.2.2.2 i (by omega)).2 (le_of_lt h1)

theorem btree_search_node (m : Nat) (lo hi : Option Int) (nk : Nat)
    (kd : List (Int × Option Nat)) (cs : List btree_node) (leaf : Int) (key : Int)
    (hok : node_ok m lo hi nk kd cs) :
    ∃ i, i ≤ nk ∧ (∀ j, j < i → key_at kd j < key) ∧ (i < nk → key ≤ key_at kd i) ∧
      btree_search (btree_node.node nk kd cs leaf) key =
        if i < nk ∧ key = key_at kd i then some (kd.getD i (0, none)).2
        else if leaf ≠ 0 then some none
        else btree_search (cs.getD i btree_node.NULL) key := by
  obtain ⟨_, hnk, hkl, hcl, _, _⟩ := hok
  have hM : 2 * BTREE_PARAM_M - 1 = 5 := rfl
  have hM2 : 2 * BTREE_PARAM_M = 6 := rfl
  obtain ⟨i, hi, hile, hlt, hge⟩ := btree_search_loop_spec nk kd key (by omega) nk 0
    (Nat.zero_le _) (by omega) (fun j hj => absurd hj (Nat.not_lt_zero j))
  refine ⟨i, hile, hlt, hge, ?_⟩
  rw [btree_search, hi]
  simp only
  have hdesc : btree_search_children cs i key = btree_search (cs.getD i btree_node.NULL) key :=
    btree_search_children_getD cs i key (by omega)
  by_cases hin : i < nk
  · rw [if_pos hin, array_read_some kd i (by omega)]
    simp only
    have hk : key_at kd i = (kd.get ⟨i, by omega⟩).1 :=
      key_at_of_getElem? kd i _ (List.getElem?_eq_getElem (by omega))
    have hd : kd.getD i (0, none) = kd.get ⟨i, by omega⟩ := by
      rw [List.getD_eq_getElem?_getD, List.getElem?_eq_getElem (by omega)]
      rfl
    by_cases heq : key = (kd.get ⟨i, by omega⟩).1
    · rw [if_pos heq, if_pos ⟨hin, by rw [hk]; exact heq⟩, hd]
    · have : ¬ (i < nk ∧ key = key_at kd i) := fun h => heq (by rw [← hk]; exact h.2)
      rw [if_neg heq, if_neg this, hdesc]
  · have : ¬ (i < nk ∧ key = key_at kd i) := fun h => hin h.1
    rw [if_neg hin, if_neg this, hdesc]

theorem btree_search_correct :
    ∀ (h m : Nat) (lo hi : Option Int) (t : btree_node), btree_wf h m lo hi t → ∀ key : Int,
      (∀ d, btree_contains h t (key, d) → btree_search t key = some d) ∧
      ((∀ d, ¬ btree_contains h t (key, d)) → btree_search t key = some none) := by
  intro h
  induction h with
  | zero =>
    intro m lo hi t hwf key
    cases t with
    | NULL => exact absurd hwf (by simp [btree_wf])
    | node nk kd cs leaf =>
      simp only [btree_wf] at hwf
      obtain ⟨hleaf, hok⟩ := hwf
      obtain ⟨i, hile, hlt, hge, hs⟩ := btree_search_node m lo hi nk kd cs leaf key hok
      have hsorted := hok.2.2.2.2.1
      have hkl : kd.length = 5 := hok.2.2.1
      have hnk : nk ≤ 5 := hok.2.1
      have hl0 : leaf ≠ 0 := by omega
      rw [hs]
      constructor
      · intro d hc
        simp only [btree_contains] at hc
        obtain ⟨j, hj1, hj2⟩ := hc
        have hkj : key_at kd j = key := key_at_of_getElem? kd j _ hj2
        have hij : i = j := by
          by_contra hne
          rcases Nat.lt_or_gt_of_ne hne with h1 | h1
          · have h2 := hge (by omega)
            have h3 := hsorted i j h1 hj1
            omega
          · have := hlt j h1
            omega
        subst hij
        rw [if_pos ⟨hj1, hkj.symm⟩, List.getD_eq_getElem?_getD, hj2]
        rfl
      · intro habs
        have : ¬ (i < nk ∧ key = key_at kd i) := by
          rintro ⟨h1, h2⟩
          apply habs (kd.get ⟨i, by omega⟩).2
          simp only [btree_contains]
          refine ⟨i, h1, ?_⟩
          rw [List.getElem?_eq_getElem (by omega)]
          have hk : key_at kd i = (kd.get ⟨i, by omega⟩).1 :=
            key_at_of_getElem? kd i _ (List.getElem?_eq_getElem (by omega))
          rw [h2, hk]
          rfl
        rw [if_neg this, if_pos hl0]
  | succ h ih =>
    intro m lo hi t hwf key
    cases t with
    | NULL => exact absurd hwf (by simp [btree_wf])
    | node nk kd cs leaf =>
      simp only [btree_wf] at hwf
      obtain ⟨hleaf, hok, hch⟩ := hwf
      obtain ⟨i, hile, hlt, hge, hs⟩ := btree_search_node m lo hi nk kd cs leaf key hok
      have hsorted := hok.2.2.2.2.1
      have hkl : kd.length = 5 := hok.2.2.1
      have hnk : nk ≤ 5 := hok.2.1
      have hl0 : ¬ leaf ≠ 0 := by omega
      rw [hs]
      constructor
      · intro d hc
        simp only [btree_contains] at hc
        rcases hc with ⟨j, hj1, hj2⟩ | ⟨j, hj1, hj2⟩
        · have hkj : key_at kd j = key := key_at_of_getElem? kd j _ hj2
          have hij : i = j := by
            by_contra hne
            rcases Nat.lt_or_gt_of_ne hne with h1 | h1
            · have h2 := hge (by omega)
              have h3 := hsorted i j h1 hj1
              omega
            · have := hlt j h1
              omega
          subst hij
          rw [if_pos ⟨hj1, hkj.symm⟩, List.getD_eq_getElem?_getD, hj2]
          rfl
        · have hb := btree_contains_bounds h _ _ _ _ (key, d) (hch j hj1) hj2
          have hlo : 0 < j → key_at kd (j - 1) < key := by
            intro h0
            have := hb.1
            rw [if_neg (by omega)] at this
            exact this
          have hhi : j < nk → key < key_at kd j := by
            intro h0
            have := hb.2
            rw [if_neg (by omega)] at this
            exact this
          have hij : i = j := by
            by_contra hne
            rcases Nat.lt_or_gt_of_ne hne with h1 | h1
            · have h2 := hge (by omega)
              have h3 := hlo (by omega)
              by_cases h4 : i = j - 1
              · rw [h4] at h2; omega
              · have h5 := hsorted i (j - 1) (by omega) (by omega)
                omega
            · have h2 := hlt j h1
              have h3 := hhi (by omega)
              omega
          subst hij
          have : ¬ (i < nk ∧ key = key_at kd i) := by
            rintro ⟨h1, h2⟩
            have := hhi h1
            omega
          rw [if_neg this, if_neg hl0]
          exact (ih _ _ _ _ (hch i hj1) key).1 d hj2
      · intro habs
        have : ¬ (i < nk ∧ key = key_at kd i) := by
          rintro ⟨h1, h2⟩
          apply habs (kd.get ⟨i, by omega⟩).2
          simp only [btree_contains]
          left
          refine ⟨i, h1, ?_⟩
          rw [List.getElem?_eq_getElem (by omega)]
          have hk : key_at kd i = (kd.get ⟨i, by omega⟩).1 :=
            key_at_of_getElem? kd i _ (List.getElem?_eq_getElem (by omega))
          rw [h2, hk]
          rfl
        rw [if_neg this, if_neg hl0]
        apply (ih _ _ _ _ (hch i hile) key).2
        intro d hc
        apply habs d
        simp only [btree_contains]
        exact Or.inr ⟨i, hile, hc⟩

theorem key_at_eq (kd : List (Int × Option Nat)) (j : Nat) :
    key_at kd j = ((kd[j]?).getD (0, none)).1 := by
  unfold key_at
  rw [List.getD_eq_getElem?_getD]

theorem getD_eq_of_getElem? {α : Type} (a b : List α) (i j : Nat) (d : α)
    (h : a[i]? = b[j]?) : a.getD i d = b.getD j d := by
  rw [List.getD_eq_getElem?_getD, List.getD_eq_getElem?_getD, h]

theorem key_at_inserted (kd kd1 : List (Int × Option Nat)) (nk p : Nat) (v : Int × Option Nat)
    (hsh : ∀ j, kd1[j]? = if j = p then some v else
      if p < j ∧ j ≤ nk then kd[j - 1]? else kd[j]?) (j : Nat) :
    key_at kd1 j = if j = p then v.1 else
      if p < j ∧ j ≤ nk then key_at kd (j - 1) else key_at kd j := by
  rw [key_at_eq, hsh j]
  by_cases h1 : j = p
  · rw [if_pos h1, if_pos h1]; rfl
  · rw [if_neg h1, if_neg h1]
    by_cases h2 : p < j ∧ j ≤ nk
    · rw [if_pos h2, if_pos h2, key_at_eq]
    · rw [if_neg h2, if_neg h2, key_at_eq]

theorem node_ok_inserted (m : Nat) (lo hi : Option Int) (nk p : Nat)
    (kd kd1 : List (Int × Option Nat)) (cs cs1 : List btree_node) (v : Int × Option Nat)
    (hok : node_ok m lo hi nk kd cs) (hnk : nk < 2 * BTREE_PARAM_M - 1) (hp : p ≤ nk)
    (hl : kd1.length = kd.length) (hcl : cs1.length = cs.length)
    (hsh : ∀ j, kd1[j]? = if j = p then some v else
      if p < j ∧ j ≤ nk then kd[j - 1]? else kd[j]?)
    (hlow : 0 < p → key_at kd (p - 1) < v.1) (hupp : p < nk → v.1 < key_at kd p)
    (hlo : above lo v.1) (hhi : below v.1 hi) :
    node_ok m lo hi (nk + 1) kd1 cs1 := by
  obtain ⟨hm, _, hkl, hcsl, hs, hb⟩ := hok
  have hK := key_at_inserted kd kd1 nk p v hsh
  have F1 : ∀ a, a < p → key_at kd a < v.1 := by
    intro a ha
    have h1 := hlow (by omega)
    by_cases h2 : a = p - 1
    · rw [h2]; exact h1
    · have := hs a (p - 1) (by omega) (by omega)
      omega
  have F2 : ∀ a, p ≤ a → a < nk → v.1 < key_at kd a := by
    intro a ha han
    have h1 := hupp (by omega)
    by_cases h2 : a = p
    · rw [h2]; exact h1
    · have := hs p a (by omega) han
      omega
  refine ⟨by omega, by omega, by rw [hl]; exact hkl, by rw [hcl]; exact hcsl, ?_, ?_⟩
  · intro i j hij hj
    rw [hK i, hK j]
    by_cases hi1 : i = p
    · have hj1 : ¬ j = p := by omega
      have hj2 : p < j ∧ j ≤ nk := by omega
      rw [if_pos hi1, if_neg hj1, if_pos hj2]
      exact F2 (j - 1) (by omega) (by omega)
    · rw [if_neg hi1]
      by_cases hj1 : j = p
      · have hi2 : ¬ (p < i ∧ i ≤ nk) := by omega
        rw [if_pos hj1, if_neg hi2]
        exact F1 i (by omega)
      · rw [if_neg hj1]
        by_cases hi2 : p < i ∧ i ≤ nk
        · have hj2 : p < j ∧ j ≤ nk := by omega
          rw [if_pos hi2, if_pos hj2]
          exact hs (i - 1) (j - 1) (by omega) (by omega)
        · rw [if_neg hi2]
          by_cases hj2 : p < j ∧ j ≤ nk
          · rw [if_pos hj2]
            exact hs i (j - 1) (by omega) (by omega)
          · rw [if_neg hj2]
            exact hs i j hij (by omega)
  · intro i hi1
    rw [hK i]
    by_cases h1 : i = p
    · rw [if_pos h1]; exact ⟨hlo, hhi⟩
    · rw [if_neg h1]
      by_cases h2 : p < i ∧ i ≤ nk
      · rw [if_pos h2]; exact hb (i - 1) (by omega)
      · rw [if_neg h2]; exact hb i (by omega)

theorem contains_inserted (nk p : Nat) (kd kd1 : List (Int × Option Nat))
    (v : Int × Option Nat) (hp : p ≤ nk)
    (hsh : ∀ j, kd1[j]? = if j = p then some v else
      if p < j ∧ j ≤ nk then kd[j - 1]? else kd[j]?) (x : Int × Option Nat) :
    (∃ i, i < nk + 1 ∧ kd1[i]? = some x) ↔ x = v ∨ ∃ i, i < nk ∧ kd[i]? = some x := by
  constructor
  · rintro ⟨i, hi1, hi2⟩
    rw [hsh i] at hi2
    by_cases h1 : i = p
    · rw [if_pos h1] at hi2
      exact Or.inl (Option.some.inj hi2).symm
    · rw [if_neg h1] at hi2
      by_cases h2 : p < i ∧ i ≤ nk
      · rw [if_pos h2] at hi2
        exact Or.inr ⟨i - 1, by omega, hi2⟩
      · rw [if_neg h2] at hi2
        exact Or.inr ⟨i, by omega, hi2⟩
  · rintro (hx | ⟨i, hi1, hi2⟩)
    · refine ⟨p, by omega, ?_⟩
      rw [hsh p, if_pos rfl, hx]
    · by_cases h1 : i < p
      · refine ⟨i, by omega, ?_⟩
        rw [hsh i, if_neg (by omega), if_neg (by omega)]
        exact hi2
      · refine ⟨i + 1, by omega, ?_⟩
        rw [hsh (i + 1), if_neg (by omega), if_pos (by omega)]
        simpa using hi2

theorem own_key_ne (nk : Nat) (kd : List (Int × Option Nat)) (key : Int)
    (hlen : nk ≤ kd.length)
    (habs : ∀ d, ¬ ∃ i, i < nk ∧ kd[i]? = some (key, d)) (j : Nat) (hj : j < nk) :
    key_at kd j ≠ key := by
  intro heq
  apply habs (kd.get ⟨j, by omega⟩).2
  refine ⟨j, hj, ?_⟩
  rw [List.getElem?_eq_getElem (by omega)]
  have hk : key_at kd j = (kd.get ⟨j, by omega⟩).1 :=
    key_at_of_getElem? kd j _ (List.getElem?_eq_getElem (by omega))
  rw [← heq, hk]
  rfl

theorem btree_insert_nonfull_leaf (m : Nat) (lo hi : Option Int) (nk : Nat)
    (kd : List (Int × Option Nat)) (cs : List btree_node) (leaf : Int) (key : Int)
    (data : Option Nat) (depth : Nat)
    (hwf : btree_wf 0 m lo hi (btree_node.node nk kd cs leaf))
    (hnk : nk < 2 * BTREE_PARAM_M - 1) (hlo : above lo key) (hhi : below key hi)
    (habs : ∀ d, ¬ btree_contains 0 (btree_node.node nk kd cs leaf) (key, d)) :
    ∃ kd2, btree_insert_nonfull (depth + 1) (btree_node.node nk kd cs leaf) key data =
        some (btree_node.node (nk + 1) kd2 cs leaf) ∧
      btree_wf 0 m lo hi (btree_node.node (nk + 1) kd2 cs leaf) ∧
      ∀ x, btree_contains 0 (btree_node.node (nk + 1) kd2 cs leaf) x ↔
        x = (key, data) ∨ btree_contains 0 (btree_node.node nk kd cs leaf) x := by
  simp only [btree_wf] at hwf
  obtain ⟨hleaf, hok⟩ := hwf
  simp only [btree_contains] at habs
  have hM : 2 * BTREE_PARAM_M - 1 = 5 := rfl
  have hkl : kd.length = 5 := hok.2.2.1
  obtain ⟨r, p, hr, hp, hrl, hrj, hgt, hle⟩ := btree_leaf_shift_spec key nk nk kd kd
    (Nat.le_refl _) (by omega) rfl
    (by intro j; rw [if_neg (by omega)])
    (fun j h1 h2 => absurd h1 (by omega))
  have hsh : ∀ j, (r.set p (key, data))[j]? = if j = p then some (key, data) else
      if p < j ∧ j ≤ nk then kd[j - 1]? else kd[j]? := by
    intro j
    by_cases h1 : j = p
    · rw [if_pos h1, h1, List.getElem?_set_self (by omega)]
    · rw [if_neg h1, List.getElem?_set_ne (by omega), hrj j]
  refine ⟨r.set p (key, data), ?_, ?_, ?_⟩
  · rw [btree_insert_nonfull, if_pos hleaf, hr]
    simp only
    rw [array_write_some r p _ (by omega)]
  · simp only [btree_wf]
    refine ⟨hleaf, ?_⟩
    apply node_ok_inserted m lo hi nk p kd _ cs cs (key, data) hok hnk hp
      (by rw [List.length_set, hrl]) rfl hsh
    · intro h0
      have h1 := hle h0
      have h2 := own_key_ne nk kd key (by omega) habs (p - 1) (by omega)
      omega
    · intro h0
      exact hgt p (Nat.le_refl _) h0
    · exact hlo
    · exact hhi
  · intro x
    simp only [btree_contains]
    exact contains_inserted nk p kd _ (key, data) hp hsh x

theorem btree_split_child_spec (nk index : Nat) (kd : List (Int × Option Nat))
    (cs : List btree_node) (leaf : Int) (cnk : Nat) (ckd : List (Int × Option Nat))
    (ccs : List btree_node) (cleaf : Int)
    (hkl : kd.length = 2 * BTREE_PARAM_M - 1) (hcl : cs.length = 2 * BTREE_PARAM_M)
    (hnk : nk < 2 * BTREE_PARAM_M - 1) (hidx : index ≤ nk)
    (hckl : ckd.length = 2 * BTREE_PARAM_M - 1) (hccl : ccs.length = 2 * BTREE_PARAM_M) :
    ∃ kd2 cs2 nkd nch,
      btree_split_child (btree_node.node nk kd cs leaf) index
          (btree_node.node cnk ckd ccs cleaf) =
        some (btree_node.node (nk + 1) kd2 cs2 leaf) ∧
      kd2.length = 2 * BTREE_PARAM_M - 1 ∧ cs2.length = 2 * BTREE_PARAM_M ∧
      nkd.length = 2 * BTREE_PARAM_M - 1 ∧ nch.length = 2 * BTREE_PARAM_M ∧
      (∀ j, kd2[j]? = if j = index then ckd[BTREE_PARAM_M - 1]? else
        if index < j ∧ j ≤ nk then kd[j - 1]? else kd[j]?) ∧
      (∀ j, cs2[j]? =
        if j = index then some (btree_node.node (BTREE_PARAM_M - 1) ckd ccs cleaf)
        else if j = index + 1 then some (btree_node.node (BTREE_PARAM_M - 1) nkd nch cleaf)
        else if index + 1 < j ∧ j ≤ nk + 1 then cs[j - 1]? else cs[j]?) ∧
      (∀ j, j < BTREE_PARAM_M - 1 → nkd[j]? = ckd[j + BTREE_PARAM_M]?) ∧
      (cleaf = 0 → ∀ j, j < BTREE_PARAM_M → nch[j]? = ccs[j + BTREE_PARAM_M]?) := by
  have hM : BTREE_PARAM_M = 3 := rfl
  rw [hM] at hkl hcl hnk hckl hccl
  simp only [hM]
  -- the keys of the new node
  obtain ⟨nkd, hnkd, hnkdl, hnkdj⟩ := array_copy_spec ckd 3 (3 - 1) 0
    (List.replicate (2 * 3 - 1) ((0 : Int), (none : Option Nat)))
    (by simp) (by omega)
  -- its children
  have hnch : ∃ nch, (if cleaf = 0 then
        array_copy ccs 3 3 0 (List.replicate (2 * 3) btree_node.NULL)
      else some (List.replicate (2 * 3) btree_node.NULL)) = some nch ∧
      nch.length = 2 * 3 ∧ (cleaf = 0 → ∀ j, j < 3 → nch[j]? = ccs[j + 3]?) := by
    by_cases hc : cleaf = 0
    · obtain ⟨nch, h1, h2, h3⟩ := array_copy_spec ccs 3 3 0
        (List.replicate (2 * 3) btree_node.NULL) (by simp) (by omega)
      refine ⟨nch, by rw [if_pos hc]; exact h1, by rw [h2]; simp, ?_⟩
      intro _ j hj
      rw [h3 j, if_pos (by omega)]
    · exact ⟨_, by rw [if_neg hc], by simp, fun h => absurd h hc⟩
  obtain ⟨nch, hnch1, hnchl, hnchj⟩ := hnch
  -- the children of the node
  obtain ⟨cs1, hcs1, hcs1l, hcs1j⟩ := array_shift_right_spec index (nk + 1 - index)
    (cs.set index (btree_node.node (3 - 1) ckd ccs cleaf))
    (by rw [List.length_set]; omega)
  rw [List.length_set] at hcs1l
  -- the keys of the node
  obtain ⟨kd1, hkd1, hkd1l, hkd1j⟩ := array_shift_right_spec index (nk - index) kd (by omega)
  refine ⟨kd1.set index (ckd.get ⟨3 - 1, by omega⟩),
    cs1.set (index + 1) (btree_node.node (3 - 1) nkd nch cleaf), nkd, nch, ?_, ?_, ?_, ?_, ?_,
    ?_, ?_, ?_, ?_⟩
  · simp only [btree_split_child, btree_newnode, hM]
    rw [hnkd]
    simp only
    rw [hnch1]
    simp only
    rw [array_write_some cs index _ (by omega)]
    simp only
    rw [hcs1]
    simp only
    rw [array_write_some cs1 (index + 1) _ (by omega)]
    simp only
    rw [hkd1]
    simp only
    rw [array_read_some ckd (3 - 1) (by omega)]
    simp only
    rw [array_write_some kd1 index _ (by omega)]
  · rw [List.length_set, hkd1l, hkl]
  · rw [List.length_set, hcs1l, hcl]
  · rw [hnkdl]; simp
  · exact hnchl
  · intro j
    by_cases h1 : j = index
    · rw [if_pos h1, h1, List.getElem?_set_self (by omega)]
      exact (List.getElem?_eq_getElem (by omega)).symm
    · rw [if_neg h1, List.getElem?_set_ne (by omega), hkd1j j]
      by_cases h2 : index < j ∧ j ≤ nk
      · rw [if_pos h2, if_pos (by omega)]
      · rw [if_neg h2, if_neg (by omega)]
  · intro j
    by_cases h1 : j = index
    · rw [if_pos h1, h1, List.getElem?_set_ne (by omega), hcs1j index, if_neg (by omega),
        List.getElem?_set_self (by omega)]
    · rw [if_neg h1]
      by_cases h2 : j = index + 1
      · rw [if_pos h2, h2, List.getElem?_set_self (by omega)]
      · rw [if_neg h2, List.getElem?_set_ne (by omega), hcs1j j]
        by_cases h3 : index + 1 < j ∧ j ≤ nk + 1
        · rw [if_pos h3, if_pos (by omega), List.getElem?_set_ne (by omega)]
        · rw [if_neg h3, if_neg (by omega), List.getElem?_set_ne (by omega)]
  · intro j hj
    rw [hnkdj j, if_pos (by omega)]
  · intro hc j hj
    exact hnchj hc j hj

theorem btree_wf_node_ok (h m : Nat) (lo hi : Option Int) (nk : Nat)
    (kd : List (Int × Option Nat)) (cs : List btree_node) (leaf : Int)
    (hwf : btree_wf h m lo hi (btree_node.node nk kd cs leaf)) :
    node_ok m lo hi nk kd cs ∧ (h = 0 → leaf = 1) ∧ (0 < h → leaf = 0) := by
  cases h with
  | zero =>
    simp only [btree_wf] at hwf
    exact ⟨hwf.2, fun _ => hwf.1, fun h => absurd h (Nat.lt_irrefl 0)⟩
  | succ h =>
    simp only [btree_wf] at hwf
    exact ⟨hwf.2.1, fun h => absurd h (Nat.succ_ne_zero _), fun _ => hwf.1⟩

theorem split_halves_node_ok (lo hi : Option Int) (ckd nkd : List (Int × Option Nat))
    (ccs nch : List btree_node)
    (hok : node_ok (BTREE_PARAM_M - 1) lo hi (2 * BTREE_PARAM_M - 1) ckd ccs)
    (hnkdl : nkd.length = 2 * BTREE_PARAM_M - 1) (hnchl : nch.length = 2 * BTREE_PARAM_M)
    (hnkdj : ∀ j, j < BTREE_PARAM_M - 1 → nkd[j]? = ckd[j + BTREE_PARAM_M]?) :
    node_ok (BTREE_PARAM_M - 1) lo (some (key_at ckd (BTREE_PARAM_M - 1)))
      (BTREE_PARAM_M - 1) ckd ccs ∧
    node_ok (BTREE_PARAM_M - 1) (some (key_at ckd (BTREE_PARAM_M - 1))) hi
      (BTREE_PARAM_M - 1) nkd nch ∧
    (∀ j, j < BTREE_PARAM_M - 1 → key_at nkd j = key_at ckd (j + BTREE_PARAM_M)) := by
  have hM : BTREE_PARAM_M = 3 := rfl
  rw [hM] at hok hnkdl hnchl hnkdj ⊢
  obtain ⟨_, _, hkl, hcl, hs, hb⟩ := hok
  have hK : ∀ j, j < 3 - 1 → key_at nkd j = key_at ckd (j + 3) := by
    intro j hj
    rw [key_at_eq, key_at_eq, hnkdj j hj]
  refine ⟨⟨Nat.le_refl _, by omega, hkl, hcl, ?_, ?_⟩,
    ⟨Nat.le_refl _, by omega, hnkdl, hnchl, ?_, ?_⟩, hK⟩
  · intro i j hij hj
    exact hs i j hij (by omega)
  · intro i hi1
    exact ⟨(hb i (by omega)).1, hs i (3 - 1) (by omega) (by omega)⟩
  · intro i j hij hj
    rw [hK i (by omega), hK j hj]
    exact hs (i + 3) (j + 3) (by omega) (by omega)
  · intro i hi1
    rw [hK i hi1]
    exact ⟨hs (3 - 1) (i + 3) (by omega) (by omega), (hb (i + 3) (by omega)).2⟩

theorem split_halves_wf (h : Nat) (lo hi : Option Int) (ckd nkd : List (Int × Option Nat))
    (ccs nch : List btree_node) (cleaf : Int)
    (hwf : btree_wf h (BTREE_PARAM_M - 1) lo hi
      (btree_node.node (2 * BTREE_PARAM_M - 1) ckd ccs cleaf))
    (hnkdl : nkd.length = 2 * BTREE_PARAM_M - 1) (hnchl : nch.length = 2 * BTREE_PARAM_M)
    (hnkdj : ∀ j, j < BTREE_PARAM_M - 1 → nkd[j]? = ckd[j + BTREE_PARAM_M]?)
    (hnchj : cleaf = 0 → ∀ j, j < BTREE_PARAM_M → nch[j]? = ccs[j + BTREE_PARAM_M]?) :
    btree_wf h (BTREE_PARAM_M - 1) lo (some (key_at ckd (BTREE_PARAM_M - 1)))
      (btree_node.node (BTREE_PARAM_M - 1) ckd ccs cleaf) ∧
    btree_wf h (BTREE_PARAM_M - 1) (some (key_at ckd (BTREE_PARAM_M - 1))) hi
      (btree_node.node (BTREE_PARAM_M - 1) nkd nch cleaf) := by
  have hM : BTREE_PARAM_M = 3 := rfl
  cases h with
  | zero =>
    simp only [btree_wf] at hwf ⊢
    obtain ⟨h1, h2, _⟩ := split_halves_node_ok lo hi ckd nkd ccs nch hwf.2 hnkdl hnchl hnkdj
    exact ⟨⟨hwf.1, h1⟩, ⟨hwf.1, h2⟩⟩
  | succ h =>
    simp only [btree_wf] at hwf ⊢
    obtain ⟨hleaf, hok, hch⟩ := hwf
    obtain ⟨h1, h2, hK⟩ := split_halves_node_ok lo hi ckd nkd ccs nch hok hnkdl hnchl hnkdj
    rw [hM] at hch hK hnchj ⊢
    refine ⟨⟨hleaf, by rw [hM] at h1; exact h1, ?_⟩, ⟨hleaf, by rw [hM] at h2; exact h2, ?_⟩⟩
    · intro i hi1
      have := hch i (by omega)
      rw [if_neg (show ¬ i = 2 * 3 - 1 by omega)] at this
      by_cases h0 : i = 3 - 1
      · rw [if_pos h0]
        rw [h0] at this ⊢
        exact this
      · rw [if_neg h0]
        exact this
    · intro i hi1
      have := hch (i + 3) (by omega)
      rw [if_neg (show ¬ i + 3 = 0 by omega)] at this
      have hc : nch.getD i btree_node.NULL = ccs.getD (i + 3) btree_node.NULL :=
        getD_eq_of_getElem? nch ccs i (i + 3) _ (hnchj hleaf i (by omega))
      rw [hc]
      have hlow : (if i = 0 then some (key_at ckd (3 - 1)) else some (key_at nkd (i - 1))) =
          some (key_at ckd (i + 3 - 1)) := by
        by_cases h0 : i = 0
        · rw [if_pos h0, h0]
        · rw [if_neg h0, hK (i - 1) (by omega)]
          congr 2
          omega
      have hupp : (if i = 3 - 1 then hi else some (key_at nkd i)) =
          (if i + 3 = 2 * 3 - 1 then hi else some (key_at ckd (i + 3))) := by
        by_cases h0 : i = 3 - 1
        · rw [if_pos h0, if_pos (by omega)]
        · rw [if_neg h0, if_neg (by omega), hK i (by omega)]
      rw [hlow, hupp]
      exact this

theorem split_keys_iff (ckd nkd : List (Int × Option Nat)) (med x : Int × Option Nat)
    (hmed : ckd[BTREE_PARAM_M - 1]? = some med)
    (hnkdj : ∀ j, j < BTREE_PARAM_M - 1 → nkd[j]? = ckd[j + BTREE_PARAM_M]?) :
    (∃ i, i < 2 * BTREE_PARAM_M - 1 ∧ ckd[i]? = some x) ↔
      (∃ i, i < BTREE_PARAM_M - 1 ∧ ckd[i]? = some x) ∨ x = med ∨
      ∃ i, i < BTREE_PARAM_M - 1 ∧ nkd[i]? = some x := by
  have hM : BTREE_PARAM_M = 3 := rfl
  rw [hM] at hmed hnkdj ⊢
  constructor
  · rintro ⟨i, hi1, hi2⟩
    by_cases h1 : i < 3 - 1
    · exact Or.inl ⟨i, h1, hi2⟩
    · by_cases h2 : i = 3 - 1
      · rw [h2, hmed] at hi2
        exact Or.inr (Or.inl (Option.some.inj hi2).symm)
      · refine Or.inr (Or.inr ⟨i - 3, by omega, ?_⟩)
        rw [hnkdj (i - 3) (by omega)]
        have : i - 3 + 3 = i := by omega
        rw [this]
        exact hi2
  · rintro (⟨i, hi1, hi2⟩ | hx | ⟨i, hi1, hi2⟩)
    · exact ⟨i, by omega, hi2⟩
    · exact ⟨3 - 1, by omega, by rw [hmed, hx]⟩
    · refine ⟨i + 3, by omega, ?_⟩
      rw [← hnkdj i hi1]
      exact hi2

theorem split_halves_contains (h : Nat) (ckd nkd : List (Int × Option Nat))
    (ccs nch : List btree_node) (cleaf : Int) (med x : Int × Option Nat)
    (hmed : ckd[BTREE_PARAM_M - 1]? = some med)
    (hnkdj : ∀ j, j < BTREE_PARAM_M - 1 → nkd[j]? = ckd[j + BTREE_PARAM_M]?)
    (hnchj : 0 < h → ∀ j, j < BTREE_PARAM_M → nch[j]? = ccs[j + BTREE_PARAM_M]?) :
    btree_contains h (btree_node.node (2 * BTREE_PARAM_M - 1) ckd ccs cleaf) x ↔
      btree_contains h (btree_node.node (BTREE_PARAM_M - 1) ckd ccs cleaf) x ∨ x = med ∨
      btree_contains h (btree_node.node (BTREE_PARAM_M - 1) nkd nch cleaf) x := by
  have hkeys := split_keys_iff ckd nkd med x hmed hnkdj
  have hM : BTREE_PARAM_M = 3 := rfl
  cases h with
  | zero =>
    simp only [btree_contains]
    exact hkeys
  | succ h =>
    simp only [btree_contains]
    have hnch := hnchj (Nat.succ_pos h)
    rw [hM] at hnch
    have hc : ∀ i, i < 3 → nch.getD i btree_node.NULL = ccs.getD (i + 3) btree_node.NULL :=
      fun i hi => getD_eq_of_getElem? nch ccs i (i + 3) _ (hnch i hi)
    constructor
    · rintro (hk | ⟨i, hi1, hi2⟩)
      · rcases hkeys.1 hk with h1 | h1 | h1
        · exact Or.inl (Or.inl h1)
        · exact Or.inr (Or.inl h1)
        · exact Or.inr (Or.inr (Or.inl h1))
      · rw [hM] at hi1 ⊢
        by_cases h1 : i ≤ 3 - 1
        · exact Or.inl (Or.inr ⟨i, h1, hi2⟩)
        · refine Or.inr (Or.inr (Or.inr ⟨i - 3, by omega, ?_⟩))
          rw [hc (i - 3) (by omega)]
          have : i - 3 + 3 = i := by omega
          rw [this]
          exact hi2
    · rintro ((hk | ⟨i, hi1, hi2⟩) | hx | (hk | ⟨i, hi1, hi2⟩))
      · exact Or.inl (hkeys.2 (Or.inl hk))
      · rw [hM] at hi1 ⊢
        exact Or.inr ⟨i, by omega, hi2⟩
      · exact Or.inl (hkeys.2 (Or.inr (Or.inl hx)))
      · exact Or.inl (hkeys.2 (Or.inr (Or.inr hk)))
      · rw [hM] at hi1 ⊢
        refine Or.inr ⟨i + 3, by omega, ?_⟩
        rw [← hc i (by omega)]
        exact hi2

theorem split_node_wf (h m : Nat) (lo hi : Option Int) (nk index : Nat)
    (kd kd2 ckd nkd : List (Int × Option Nat)) (cs cs2 ccs nch : List btree_node)
    (leaf cleaf : Int)
    (hwf : btree_wf (h + 1) m lo hi (btree_node.node nk kd cs leaf))
    (hnk : nk < 2 * BTREE_PARAM_M - 1) (hidx : index ≤ nk)
    (hchild : cs.getD index btree_node.NULL =
      btree_node.node (2 * BTREE_PARAM_M - 1) ckd ccs cleaf)
    (hkd2l : kd2.length = 2 * BTREE_PARAM_M - 1) (hcs2l : cs2.length = 2 * BTREE_PARAM_M)
    (hnkdl : nkd.length = 2 * BTREE_PARAM_M - 1) (hnchl : nch.length = 2 * BTREE_PARAM_M)
    (hkd2j : ∀ j, kd2[j]? = if j = index then ckd[BTREE_PARAM_M - 1]? else
      if index < j ∧ j ≤ nk then kd[j - 1]? else kd[j]?)
    (hcs2j : ∀ j, cs2[j]? =
      if j = index then some (btree_node.node (BTREE_PARAM_M - 1) ckd ccs cleaf)
      else if j = index + 1 then some (btree_node.node (BTREE_PARAM_M - 1) nkd nch cleaf)
      else if index + 1 < j ∧ j ≤ nk + 1 then cs[j - 1]? else cs[j]?)
    (hnkdj : ∀ j, j < BTREE_PARAM_M - 1 → nkd[j]? = ckd[j + BTREE_PARAM_M]?)
    (hnchj : cleaf = 0 → ∀ j, j < BTREE_PARAM_M → nch[j]? = ccs[j + BTREE_PARAM_M]?) :
    btree_wf (h + 1) m lo hi (btree_node.node (nk + 1) kd2 cs2 leaf) ∧
    (∀ x, btree_contains (h + 1) (btree_node.node (nk + 1) kd2 cs2 leaf) x ↔
      btree_contains (h + 1) (btree_node.node nk kd cs leaf) x) ∧
    key_at kd2 index = key_at ckd (BTREE_PARAM_M - 1) ∧
    (∃ d, btree_contains (h + 1) (btree_node.node nk kd cs leaf)
      (key_at ckd (BTREE_PARAM_M - 1), d)) := by
  have hM : BTREE_PARAM_M = 3 := rfl
  simp only [btree_wf] at hwf
  obtain ⟨hleaf, hok, hch⟩ := hwf
  have hck := hch index hidx
  rw [hchild] at hck
  obtain ⟨hcok, _, hcleaf⟩ := btree_wf_node_ok h _ _ _ _ ckd ccs cleaf hck
  obtain ⟨hw1, hw2⟩ := split_halves_wf h _ _ ckd nkd ccs nch cleaf hck hnkdl hnchl hnkdj hnchj
  have hckl : ckd.length = 2 * BTREE_PARAM_M - 1 := hcok.2.2.1
  have hmed : ckd[BTREE_PARAM_M - 1]? = some (ckd.get ⟨BTREE_PARAM_M - 1, by rw [hckl, hM]; omega⟩) :=
    List.getElem?_eq_getElem _
  have hmedk : key_at ckd (BTREE_PARAM_M - 1) =
      (ckd.get ⟨BTREE_PARAM_M - 1, by rw [hckl, hM]; omega⟩).1 :=
    key_at_of_getElem? ckd _ _ hmed
  have hsh : ∀ j, kd2[j]? =
      if j = index then some (ckd.get ⟨BTREE_PARAM_M - 1, by rw [hckl, hM]; omega⟩) else
      if index < j ∧ j ≤ nk then kd[j - 1]? else kd[j]? := by
    intro j
    rw [hkd2j j, hmed]
  have hK := key_at_inserted kd kd2 nk index _ hsh
  have hmb := hcok.2.2.2.2.2 (BTREE_PARAM_M - 1) (by rw [hM]; omega)
  have hlow : 0 < index → key_at kd (index - 1) < key_at ckd (BTREE_PARAM_M - 1) := by
    intro h0
    have := hmb.1
    rw [if_neg (by omega)] at this
    exact this
  have hupp : index < nk → key_at ckd (BTREE_PARAM_M - 1) < key_at kd index := by
    intro h0
    have := hmb.2
    rw [if_neg (by omega)] at this
    exact this
  have hlo : above lo (key_at ckd (BTREE_PARAM_M - 1)) := by
    by_cases h0 : index = 0
    · have := hmb.1
      rw [if_pos h0] at this
      exact this
    · exact above_trans lo _ _ (hok.2.2.2.2.2 (index - 1) (by omega)).1
        (le_of_lt (hlow (by omega)))
  have hhi : below (key_at ckd (BTREE_PARAM_M - 1)) hi := by
    by_cases h0 : index = nk
    · have := hmb.2
      rw [if_pos h0] at this
      exact this
    · exact below_trans hi _ _ (hok.2.2.2.2.2 index (by omega)).2
        (le_of_lt (hupp (by omega)))
  have hok2 : node_ok m lo hi (nk + 1) kd2 cs2 := by
    apply node_ok_inserted m lo hi nk index kd kd2 cs cs2 _ hok hnk hidx
      (by rw [hkd2l, hok.2.2.1]) (by rw [hcs2l, hok.2.2.2.1]) hsh
    · rw [← hmedk]; exact hlow
    · rw [← hmedk]; exact hupp
    · rw [← hmedk]; exact hlo
    · rw [← hmedk]; exact hhi
  have hKidx : key_at kd2 index = key_at ckd (BTREE_PARAM_M - 1) := by
    rw [hK index, if_pos rfl, hmedk]
  have hcsD : ∀ j, cs2.getD j btree_node.NULL =
      if j = index then btree_node.node (BTREE_PARAM_M - 1) ckd ccs cleaf
      else if j = index + 1 then btree_node.node (BTREE_PARAM_M - 1) nkd nch cleaf
      else if index + 1 < j ∧ j ≤ nk + 1 then cs.getD (j - 1) btree_node.NULL
      else cs.getD j btree_node.NULL := by
    intro j
    rw [List.getD_eq_getElem?_getD, hcs2j j]
    by_cases h1 : j = index
    · rw [if_pos h1, if_pos h1]; rfl
    · rw [if_neg h1, if_neg h1]
      by_cases h2 : j = index + 1
      · rw [if_pos h2, if_pos h2]; rfl
      · rw [if_neg h2, if_neg h2]
        by_cases h3 : index + 1 < j ∧ j ≤ nk + 1
        · rw [if_pos h3, if_pos h3, List.getD_eq_getElem?_getD]
        · rw [if_neg h3, if_neg h3, List.getD_eq_getElem?_getD]
  refine ⟨?_, ?_, hKidx, ?_⟩
  · simp only [btree_wf]
    refine ⟨hleaf, hok2, ?_⟩
    intro j hj
    rw [hcsD j]
    by_cases h1 : j = index
    · rw [if_pos h1]
      have hL : (if j = 0 then lo else some (key_at kd2 (j - 1))) =
          (if index = 0 then lo else some (key_at kd (index - 1))) := by
        rw [h1]
        by_cases h0 : index = 0
        · rw [if_pos h0, if_pos h0]
        · rw [if_neg h0, if_neg h0, hK (index - 1), if_neg (by omega), if_neg (by omega)]
      have hU : (if j = nk + 1 then hi else some (key_at kd2 j)) =
          some (key_at ckd (BTREE_PARAM_M - 1)) := by
        rw [if_neg (by omega), h1, hKidx]
      rw [hL, hU]
      exact hw1
    · rw [if_neg h1]
      by_cases h2 : j = index + 1
      · rw [if_pos h2]
        have hL : (if j = 0 then lo else some (key_at kd2 (j - 1))) =
            some (key_at ckd (BTREE_PARAM_M - 1)) := by
          rw [if_neg (by omega), h2, Nat.add_sub_cancel, hKidx]
        have hU : (if j = nk + 1 then hi else some (key_at kd2 j)) =
            (if index = nk then hi else some (key_at kd index)) := by
          by_cases h0 : index = nk
          · rw [if_pos (by omega), if_pos h0]
          · rw [if_neg (by omega), if_neg h0, hK j, if_neg (by omega), if_pos (by omega), h2,
              Nat.add_sub_cancel]
        rw [hL, hU]
        exact hw2
      · rw [if_neg h2]
        by_cases h3 : index + 1 < j ∧ j ≤ nk + 1
        · rw [if_pos h3]
          have hL : (if j = 0 then lo else some (key_at kd2 (j - 1))) =
              (if j - 1 = 0 then lo else some (key_at kd (j - 1 - 1))) := by
            rw [if_neg (by omega), if_neg (by omega), hK (j - 1), if_neg (by omega),
              if_pos (by omega)]
          have hU : (if j = nk + 1 then hi else some (key_at kd2 j)) =
              (if j - 1 = nk then hi else some (key_at kd (j - 1))) := by
            by_cases h0 : j = nk + 1
            · rw [if_pos h0, if_pos (by omega)]
            · rw [if_neg h0, if_neg (by omega), hK j, if_neg (by omega), if_pos (by omega)]
          rw [hL, hU]
          exact hch (j - 1) (by omega)
        · rw [if_neg h3]
          have hjlt : j < index := by omega
          have hL : (if j = 0 then lo else some (key_at kd2 (j - 1))) =
              (if j = 0 then lo else some (key_at kd (j - 1))) := by
            by_cases h0 : j = 0
            · rw [if_pos h0, if_pos h0]
            · rw [if_neg h0, if_neg h0, hK (j - 1), if_neg (by omega), if_neg (by omega)]
          have hU : (if j = nk + 1 then hi else some (key_at kd2 j)) =
              (if j = nk then hi else some (key_at kd j)) := by
            rw [if_neg (by omega), if_neg (by omega), hK j, if_neg (by omega),
              if_neg (by omega)]
          rw [hL, hU]
          exact hch j (by omega)
  · intro x
    have hhalves := split_halves_contains h ckd nkd ccs nch cleaf _ x hmed hnkdj
      (fun h0 => hnchj (hcleaf h0))
    have hown := contains_inserted nk index kd kd2 _ hidx hsh x
    simp only [btree_contains]
    constructor
    · rintro (hk | ⟨j, hj1, hj2⟩)
      · rcases hown.1 hk with h1 | h1
        · refine Or.inr ⟨index, hidx, ?_⟩
          rw [hchild]
          exact hhalves.2 (Or.inr (Or.inl h1))
        · exact Or.inl h1
      · rw [hcsD j] at hj2
        by_cases h1 : j = index
        · rw [if_pos h1] at hj2
          refine Or.inr ⟨index, hidx, ?_⟩
          rw [hchild]
          exact hhalves.2 (Or.inl hj2)
        · rw [if_neg h1] at hj2
          by_cases h2 : j = index + 1
          · rw [if_pos h2] at hj2
            refine Or.inr ⟨index, hidx, ?_⟩
            rw [hchild]
            exact hhalves.2 (Or.inr (Or.inr hj2))
          · rw [if_neg h2] at hj2
            by_cases h3 : index + 1 < j ∧ j ≤ nk + 1
            · rw [if_pos h3] at hj2
              exact Or.inr ⟨j - 1, by omega, hj2⟩
            · rw [if_neg h3] at hj2
              exact Or.inr ⟨j, by omega, hj2⟩
    · rintro (hk | ⟨j, hj1, hj2⟩)
      · exact Or.inl (hown.2 (Or.inr hk))
      · by_cases h1 : j = index
        · rw [h1, hchild] at hj2
          rcases hhalves.1 hj2 with h2 | h2 | h2
          · refine Or.inr ⟨index, by omega, ?_⟩
            rw [hcsD index, if_pos rfl]
            exact h2
          · exact Or.inl (hown.2 (Or.inl h2))
          · refine Or.inr ⟨index + 1, by omega, ?_⟩
            rw [hcsD (index + 1), if_neg (by omega), if_pos rfl]
            exact h2
        · by_cases h2 : j < index
          · refine Or.inr ⟨j, by omega, ?_⟩
            rw [hcsD j, if_neg (by omega), if_neg (by omega), if_neg (by omega)]
            exact hj2
          · refine Or.inr ⟨j + 1, by omega, ?_⟩
            rw [hcsD (j + 1), if_neg (by omega), if_neg (by omega), if_pos (by omega),
              Nat.add_sub_cancel]
            exact hj2
  · refine ⟨(ckd.get ⟨BTREE_PARAM_M - 1, by rw [hckl, hM]; omega⟩).2, ?_⟩
    simp only [btree_contains]
    refine Or.inr ⟨index, hidx, ?_⟩
    rw [hchild]
    have := (split_halves_contains h ckd nkd ccs nch cleaf _
      (key_at ckd (BTREE_PARAM_M - 1), (ckd.get ⟨BTREE_PARAM_M - 1, by rw [hckl, hM]; omega⟩).2)
      hmed hnkdj (fun h0 => hnchj (hcleaf h0))).2
    apply this
    right; left
    rw [hmedk]

theorem child_bounds (lo hi : Option Int) (nk : Nat) (kd : List (Int × Option Nat))
    (i : Nat) (key : Int) (hi1 : i ≤ nk) (hlo : above lo key) (hhi : below key hi)
    (hlow : 0 < i → key_at kd (i - 1) < key) (hupp : i < nk → key < key_at kd i) :
    above (if i = 0 then lo else some (key_at kd (i - 1))) key ∧
    below key (if i = nk then hi else some (key_at kd i)) := by
  constructor
  · by_cases h0 : i = 0
    · rw [if_pos h0]; exact hlo
    · rw [if_neg h0]; exact hlow (by omega)
  · by_cases h0 : i = nk
    · rw [if_pos h0]; exact hhi
    · rw [if_neg h0]; exact hupp (by omega)

theorem replace_child_wf (h m : Nat) (lo hi : Option Int) (nk i : Nat)
    (kd : List (Int × Option Nat)) (cs : List btree_node) (leaf : Int) (c2 : btree_node)
    (v : Int × Option Nat)
    (hwf : btree_wf (h + 1) m lo hi (btree_node.node nk kd cs leaf)) (hi1 : i ≤ nk)
    (hc2 : btree_wf h (BTREE_PARAM_M - 1)
      (if i = 0 then lo else some (key_at kd (i - 1)))
      (if i = nk then hi else some (key_at kd i)) c2)
    (hcont : ∀ x, btree_contains h c2 x ↔
      x = v ∨ btree_contains h (cs.getD i btree_node.NULL) x) :
    btree_wf (h + 1) m lo hi (btree_node.node nk kd (cs.set i c2) leaf) ∧
    ∀ x, btree_contains (h + 1) (btree_node.node nk kd (cs.set i c2) leaf) x ↔
      x = v ∨ btree_contains (h + 1) (btree_node.node nk kd cs leaf) x := by
  have hM : BTREE_PARAM_M = 3 := rfl
  simp only [btree_wf] at hwf
  obtain ⟨hleaf, hok, hch⟩ := hwf
  have hcl : cs.length = 2 * BTREE_PARAM_M := hok.2.2.2.1
  have hnk : nk ≤ 2 * BTREE_PARAM_M - 1 := hok.2.1
  rw [hM] at hcl hnk
  have hset : ∀ j, (cs.set i c2).getD j btree_node.NULL =
      if j = i then c2 else cs.getD j btree_node.NULL := by
    intro j
    rw [List.getD_eq_getElem?_getD]
    by_cases h1 : j = i
    · rw [if_pos h1, h1, List.getElem?_set_self (by omega)]; rfl
    · rw [if_neg h1, List.getElem?_set_ne (by omega), List.getD_eq_getElem?_getD]
  constructor
  · simp only [btree_wf]
    refine ⟨hleaf, ⟨hok.1, hok.2.1, hok.2.2.1, by rw [List.length_set]; exact hok.2.2.2.1,
      hok.2.2.2.2⟩, ?_⟩
    intro j hj
    rw [hset j]
    by_cases h1 : j = i
    · rw [if_pos h1, h1]; exact hc2
    · rw [if_neg h1]; exact hch j hj
  · intro x
    simp only [btree_contains]
    constructor
    · rintro (hk | ⟨j, hj1, hj2⟩)
      · exact Or.inr (Or.inl hk)
      · rw [hset j] at hj2
        by_cases h1 : j = i
        · rw [if_pos h1] at hj2
          rcases (hcont x).1 hj2 with h2 | h2
          · exact Or.inl h2
          · exact Or.inr (Or.inr ⟨i, hi1, h2⟩)
        · rw [if_neg h1] at hj2
          exact Or.inr (Or.inr ⟨j, hj1, hj2⟩)
    · rintro (hx | hk | ⟨j, hj1, hj2⟩)
      · refine Or.inr ⟨i, hi1, ?_⟩
        rw [hset i, if_pos rfl]
        exact (hcont x).2 (Or.inl hx)
      · exact Or.inl hk
      · refine Or.inr ⟨j, hj1, ?_⟩
        rw [hset j]
        by_cases h1 : j = i
        · rw [if_pos h1]
          rw [h1] at hj2
          exact (hcont x).2 (Or.inr hj2)
        · rw [if_neg h1]; exact hj2

theorem insert_into_child (h depth m : Nat) (lo hi : Option Int) (nk i : Nat)
    (kd : List (Int × Option Nat)) (cs : List btree_node) (leaf : Int) (key : Int)
    (data : Option Nat) (cnk : Nat) (ckd : List (Int × Option Nat)) (ccs : List btree_node)
    (cleaf : Int) (ih : insert_nonfull_ok h depth)
    (hwf : btree_wf (h + 1) m lo hi (btree_node.node nk kd cs leaf)) (hi1 : i ≤ nk)
    (hchild : cs.getD i btree_node.NULL = btree_node.node cnk ckd ccs cleaf)
    (hcnk : cnk < 2 * BTREE_PARAM_M - 1) (hlo : above lo key) (hhi : below key hi)
    (hlow : 0 < i → key_at kd (i - 1) < key) (hupp : i < nk → key < key_at kd i)
    (habs : ∀ d, ¬ btree_contains (h + 1) (btree_node.node nk kd cs leaf) (key, d)) :
    ∃ c2, btree_insert_nonfull depth (btree_node.node cnk ckd ccs cleaf) key data = some c2 ∧
      btree_wf (h + 1) m lo hi (btree_node.node nk kd (cs.set i c2) leaf) ∧
      ∀ x, btree_contains (h + 1) (btree_node.node nk kd (cs.set i c2) leaf) x ↔
        x = (key, data) ∨ btree_contains (h + 1) (btree_node.node nk kd cs leaf) x := by
  have hwf0 := hwf
  simp only [btree_wf] at hwf
  obtain ⟨_, _, hch⟩ := hwf
  have hcw := hch i hi1
  rw [hchild] at hcw
  obtain ⟨hb1, hb2⟩ := child_bounds lo hi nk kd i key hi1 hlo hhi hlow hupp
  obtain ⟨c2, hc2, hc2wf, hc2c⟩ := ih _ _ _ cnk ckd ccs cleaf key data hcw hcnk hb1 hb2
    (by
      intro d hd
      apply habs d
      simp only [btree_contains]
      refine Or.inr ⟨i, hi1, ?_⟩
      rw [hchild]
      exact hd)
  refine ⟨c2, hc2, ?_⟩
  apply replace_child_wf h m lo hi nk i kd cs leaf c2 (key, data) hwf0 hi1 hc2wf
  intro x
  rw [hchild]
  exact hc2c x

theorem btree_insert_nonfull_ok : ∀ (h depth : Nat), h < depth → insert_nonfull_ok h depth := by
  intro h
  induction h with
  | zero =>
    intro depth hd m lo hi nk kd cs leaf key data hwf hnk hlo hhi habs
    obtain ⟨d, rfl⟩ : ∃ d, depth = d + 1 := ⟨depth - 1, by omega⟩
    obtain ⟨kd2, h1, h2, h3⟩ := btree_insert_nonfull_leaf m lo hi nk kd cs leaf key data d
      hwf hnk hlo hhi habs
    exact ⟨_, h1, h2, h3⟩
  | succ h ih =>
    intro depth hd m lo hi nk kd cs leaf key data hwf hnk hlo hhi habs
    obtain ⟨d, rfl⟩ : ∃ d, depth = d + 1 := ⟨depth - 1, by omega⟩
    have ihd : insert_nonfull_ok h d := ih d (by omega)
    have hM : BTREE_PARAM_M = 3 := rfl
    have hwf0 := hwf
    simp only [btree_wf] at hwf
    obtain ⟨hleaf, hok, hch⟩ := hwf
    have hkl : kd.length = 2 * BTREE_PARAM_M - 1 := hok.2.2.1
    have hcl : cs.length = 2 * BTREE_PARAM_M := hok.2.2.2.1
    have hown : ∀ dd, ¬ ∃ i, i < nk ∧ kd[i]? = some (key, dd) := by
      intro dd hex
      apply habs dd
      simp only [btree_contains]
      exact Or.inl hex
    obtain ⟨p, hp, hpn, hgt, hle⟩ := btree_descend_index_spec key kd nk nk (Nat.le_refl _)
      (by rw [hkl, hM]; rw [hM] at hnk; omega) (fun j h1 h2 => absurd h1 (by omega))
    have hlow : 0 < p → key_at kd (p - 1) < key := by
      intro h0
      have h1 := hle h0
      have h2 := own_key_ne nk kd key (by rw [hkl, hM]; rw [hM] at hnk; omega) hown (p - 1)
        (by omega)
      omega
    have hupp : p < nk → key < key_at kd p := fun h0 => hgt p (Nat.le_refl _) h0
    have hplt : p < cs.length := by rw [hcl, hM]; rw [hM] at hnk; omega
    have hcw := hch p hpn
    cases hchild : cs.getD p btree_node.NULL with
    | NULL =>
      rw [hchild] at hcw
      exact absurd hcw (by simp [btree_wf])
    | node cnk ckd ccs cleaf =>
      rw [hchild] at hcw
      obtain ⟨hcok, _, _⟩ := btree_wf_node_ok h _ _ _ cnk ckd ccs cleaf hcw
      have hrd : array_read cs p = some (btree_node.node cnk ckd ccs cleaf) := by
        unfold array_read
        rw [← hchild, List.getD_eq_getElem?_getD, List.getElem?_eq_getElem hplt]
        rfl
      rw [btree_insert_nonfull, if_neg (by omega), hp]
      simp only
      rw [hrd]
      simp only
      by_cases hfull : cnk = 2 * BTREE_PARAM_M - 1
      · rw [if_pos hfull]
        subst hfull
        obtain ⟨kd2, cs2, nkd, nch, hsplit, hkd2l, hcs2l, hnkdl, hnchl, hkd2j, hcs2j, hnkdj,
          hnchj⟩ := btree_split_child_spec nk p kd cs leaf (2 * BTREE_PARAM_M - 1) ckd ccs cleaf
            hkl hcl hnk hpn hcok.2.2.1 hcok.2.2.2.1
        obtain ⟨hwf1, hcont1, hKp, hmedc⟩ := split_node_wf h m lo hi nk p kd kd2 ckd nkd cs cs2
          ccs nch leaf cleaf hwf0 hnk hpn hchild hkd2l hcs2l hnkdl hnchl hkd2j hcs2j hnkdj hnchj
        have hckl : ckd.length = 2 * BTREE_PARAM_M - 1 := hcok.2.2.1
        have hmed : ckd[BTREE_PARAM_M - 1]? =
            some (ckd.get ⟨BTREE_PARAM_M - 1, by rw [hckl, hM]; omega⟩) :=
          List.getElem?_eq_getElem _
        have hmedk : key_at ckd (BTREE_PARAM_M - 1) =
            (ckd.get ⟨BTREE_PARAM_M - 1, by rw [hckl, hM]; omega⟩).1 :=
          key_at_of_getElem? ckd _ _ hmed
        have hrd2 : array_read kd2 p =
            some (ckd.get ⟨BTREE_PARAM_M - 1, by rw [hckl, hM]; omega⟩) := by
          unfold array_read
          rw [hkd2j p, if_pos rfl, hmed]
        have hsh : ∀ j, kd2[j]? =
            if j = p then some (ckd.get ⟨BTREE_PARAM_M - 1, by rw [hckl, hM]; omega⟩) else
            if p < j ∧ j ≤ nk then kd[j - 1]? else kd[j]? := by
          intro j
          rw [hkd2j j, hmed]
        have hK := key_at_inserted kd kd2 nk p _ hsh
        have hne : key ≠ key_at ckd (BTREE_PARAM_M - 1) := by
          intro heq
          obtain ⟨dd, hdd⟩ := hmedc
          rw [← heq] at hdd
          exact habs dd hdd
        have habs1 : ∀ dd, ¬ btree_contains (h + 1)
            (btree_node.node (nk + 1) kd2 cs2 leaf) (key, dd) :=
          fun dd hdd => habs dd ((hcont1 _).1 hdd)
        rw [hsplit]
        simp only
        rw [hrd2]
        simp only
        by_cases hkgt : key > (ckd.get ⟨BTREE_PARAM_M - 1, by rw [hckl, hM]; omega⟩).1
        · rw [if_pos hkgt]
          have hchild1 : cs2.getD (p + 1) btree_node.NULL =
              btree_node.node (BTREE_PARAM_M - 1) nkd nch cleaf := by
            rw [List.getD_eq_getElem?_getD, hcs2j (p + 1), if_neg (by omega), if_pos rfl]
            rfl
          have hrd3 : array_read cs2 (p + 1) =
              some (btree_node.node (BTREE_PARAM_M - 1) nkd nch cleaf) := by
            unfold array_read
            rw [hcs2j (p + 1), if_neg (by omega), if_pos rfl]
          obtain ⟨c2, hc2, hc2wf, hc2c⟩ := insert_into_child h d m lo hi (nk + 1) (p + 1) kd2
            cs2 leaf key data _ nkd nch cleaf ihd hwf1 (by omega) hchild1 (by rw [hM]; omega)
            hlo hhi
            (by
              intro _
              rw [Nat.add_sub_cancel, hKp, hmedk]
              exact hkgt)
            (by
              intro h0
              rw [hK (p + 1), if_neg (by omega), if_pos (by omega), Nat.add_sub_cancel]
              exact hupp (by omega))
            habs1
          rw [hrd3]
          simp only
          rw [hc2]
          simp only
          rw [array_write_some cs2 (p + 1) c2 (by rw [hcs2l, hM]; rw [hM] at hnk; omega)]
          refine ⟨_, rfl, hc2wf, ?_⟩
          intro x
          rw [hc2c x, hcont1 x]
        · rw [if_neg hkgt]
          have hchild1 : cs2.getD p btree_node.NULL =
              btree_node.node (BTREE_PARAM_M - 1) ckd ccs cleaf := by
            rw [List.getD_eq_getElem?_getD, hcs2j p, if_pos rfl]
            rfl
          have hrd3 : array_read cs2 p =
              some (btree_node.node (BTREE_PARAM_M - 1) ckd ccs cleaf) := by
            unfold array_read
            rw [hcs2j p, if_pos rfl]
          obtain ⟨c2, hc2, hc2wf, hc2c⟩ := insert_into_child h d m lo hi (nk + 1) p kd2
            cs2 leaf key data _ ckd ccs cleaf ihd hwf1 (by omega) hchild1 (by rw [hM]; omega)
            hlo hhi
            (by
              intro h0
              rw [hK (p - 1), if_neg (by omega), if_neg (by omega)]
              exact hlow h0)
            (by
              intro _
              rw [hKp]
              rw [hmedk] at hne ⊢
              omega)
            habs1
          rw [hrd3]
          simp only
          rw [hc2]
          simp only
          rw [array_write_some cs2 p c2 (by rw [hcs2l, hM]; rw [hM] at hnk; omega)]
          refine ⟨_, rfl, hc2wf, ?_⟩
          intro x
          rw [hc2c x, hcont1 x]
      · rw [if_neg hfull]
        have hcnk : cnk < 2 * BTREE_PARAM_M - 1 := by
          have := hcok.2.1
          omega
        obtain ⟨c2, hc2, hc2wf, hc2c⟩ := insert_into_child h d m lo hi nk p kd cs leaf key data
          cnk ckd ccs cleaf ihd hwf0 hpn hchild hcnk hlo hhi hlow hupp habs
        rw [hc2]
        simp only
        rw [array_write_some cs p c2 hplt]
        exact ⟨_, rfl, hc2wf, hc2c⟩

theorem btree_depth_children_getD (cs : List btree_node) :
    ∀ i, btree_depth (cs.getD i btree_node.NULL) ≤ btree_depth_children cs := by
  induction cs with
  | nil => intro i; simp [btree_depth, btree_depth_children]
  | cons c rest ih =>
    intro i
    cases i with
    | zero =>
      simp only [List.getD_cons_zero, btree_depth_children]
      exact Nat.le_max_left _ _
    | succ i =>
      simp only [List.getD_cons_succ, btree_depth_children]
      exact Nat.le_trans (ih i) (Nat.le_max_right _ _)

theorem btree_wf_depth :
    ∀ (h m : Nat) (lo hi : Option Int) (t : btree_node),
      btree_wf h m lo hi t → h < btree_depth t := by
  intro h
  induction h with
  | zero =>
    intro m lo hi t hwf
    cases t with
    | NULL => exact absurd hwf (by simp [btree_wf])
    | node nk kd cs leaf => simp [btree_depth]
  | succ h ih =>
    intro m lo hi t hwf
    cases t with
    | NULL => exact absurd hwf (by simp [btree_wf])
    | node nk kd cs leaf =>
      simp only [btree_wf] at hwf
      have h1 := ih _ _ _ _ (hwf.2.2 0 (Nat.zero_le _))
      have h2 := btree_depth_children_getD cs 0
      simp only [btree_depth]
      omega

theorem btree_wf_min_keys (h m m1 : Nat) (lo hi : Option Int) (nk : Nat)
    (kd : List (Int × Option Nat)) (cs : List btree_node) (leaf : Int)
    (hwf : btree_wf h m lo hi (btree_node.node nk kd cs leaf)) (hm : m1 ≤ nk) :
    btree_wf h m1 lo hi (btree_node.node nk kd cs leaf) := by
  cases h with
  | zero =>
    simp only [btree_wf] at hwf ⊢
    exact ⟨hwf.1, hm, hwf.2.2⟩
  | succ h =>
    simp only [btree_wf] at hwf ⊢
    exact ⟨hwf.1, ⟨hm, hwf.2.1.2⟩, hwf.2.2⟩

theorem btree_newnode_wf :
    btree_wf 0 0 none none btree_newnode ∧ ∀ x, ¬ btree_contains 0 btree_newnode x := by
  constructor
  · rw [btree_newnode, btree_wf]
    refine ⟨rfl, Nat.le_refl _, Nat.zero_le _, by simp, by simp, ?_, ?_⟩
    · intro i j _ hj; exact absurd hj (Nat.not_lt_zero j)
    · intro i hi; exact absurd hi (Nat.not_lt_zero i)
  · intro x hx
    simp only [btree_newnode, btree_contains] at hx
    obtain ⟨i, hi, _⟩ := hx
    exact absurd hi (Nat.not_lt_zero i)

theorem btree_insert_ok (h : Nat) (t : btree_node) (key : Int) (data : Option Nat)
    (hwf : btree_wf h 0 none none t) (habs : ∀ d, ¬ btree_contains h t (key, d)) :
    ∃ h1 t1, btree_insert t key data = some t1 ∧ btree_wf h1 0 none none t1 ∧
      (h1 = h ∨ h1 = h + 1) ∧
      ∀ x, btree_contains h1 t1 x ↔ x = (key, data) ∨ btree_contains h t x := by
  have hM : BTREE_PARAM_M = 3 := rfl
  have hdepth := btree_wf_depth h 0 none none t hwf
  cases t with
  | NULL => exact absurd hwf (by simp [btree_wf])
  | node nk kd cs leaf =>
    obtain ⟨hok, _, _⟩ := btree_wf_node_ok h 0 none none nk kd cs leaf hwf
    rw [btree_insert]
    by_cases hfull : nk = 2 * BTREE_PARAM_M - 1
    · rw [if_pos hfull]
      subst hfull
      simp only [btree_newnode]
      rw [array_write_some _ 0 _ (by simp [hM])]
      simp only
      have hroot : btree_wf (h + 1) 0 none none
          (btree_node.node 0 (List.replicate (2 * BTREE_PARAM_M - 1) ((0 : Int), (none : Option Nat)))
            ((List.replicate (2 * BTREE_PARAM_M) btree_node.NULL).set 0
              (btree_node.node (2 * BTREE_PARAM_M - 1) kd cs leaf)) 0) := by
        rw [btree_wf]
        refine ⟨rfl, ⟨Nat.le_refl _, Nat.zero_le _, by simp, by simp, ?_, ?_⟩, ?_⟩
        · intro i j _ hj; exact absurd hj (Nat.not_lt_zero j)
        · intro i hi; exact absurd hi (Nat.not_lt_zero i)
        · intro i hi
          have hi0 : i = 0 := by omega
          subst hi0
          simp only [if_true]
          have : ((List.replicate (2 * BTREE_PARAM_M) btree_node.NULL).set 0
              (btree_node.node (2 * BTREE_PARAM_M - 1) kd cs leaf)).getD 0 btree_node.NULL =
              btree_node.node (2 * BTREE_PARAM_M - 1) kd cs leaf := by
            simp [hM, List.replicate]
          rw [this]
          exact btree_wf_min_keys h 0 _ none none _ kd cs leaf hwf (by rw [hM]; omega)
      have hrootc : ∀ x, btree_contains (h + 1)
          (btree_node.node 0 (List.replicate (2 * BTREE_PARAM_M - 1) ((0 : Int), (none : Option Nat)))
            ((List.replicate (2 * BTREE_PARAM_M) btree_node.NULL).set 0
              (btree_node.node (2 * BTREE_PARAM_M - 1) kd cs leaf)) 0) x ↔
          btree_contains h (btree_node.node (2 * BTREE_PARAM_M - 1) kd cs leaf) x := by
        intro x
        have hget : ((List.replicate (2 * BTREE_PARAM_M) btree_node.NULL).set 0
              (btree_node.node (2 * BTREE_PARAM_M - 1) kd cs leaf)).getD 0 btree_node.NULL =
              btree_node.node (2 * BTREE_PARAM_M - 1) kd cs leaf := by
          simp [hM, List.replicate]
        simp only [btree_contains]
        constructor
        · rintro (⟨i, hi, _⟩ | ⟨i, hi, hc⟩)
          · exact absurd hi (Nat.not_lt_zero i)
          · have hi0 : i = 0 := by omega
            subst hi0
            rw [hget] at hc
            exact hc
        · intro hc
          refine Or.inr ⟨0, Nat.le_refl _, ?_⟩
          rw [hget]
          exact hc
      obtain ⟨kd2, cs2, nkd, nch, hsplit, hkd2l, hcs2l, hnkdl, hnchl, hkd2j, hcs2j, hnkdj,
        hnchj⟩ := btree_split_child_spec 0 0
          (List.replicate (2 * BTREE_PARAM_M - 1) ((0 : Int), (none : Option Nat)))
          ((List.replicate (2 * BTREE_PARAM_M) btree_node.NULL).set 0
            (btree_node.node (2 * BTREE_PARAM_M - 1) kd cs leaf)) 0
          (2 * BTREE_PARAM_M - 1) kd cs leaf (by simp) (by simp) (by rw [hM]; omega)
          (Nat.le_refl _) hok.2.2.1 hok.2.2.2.1
      have hget : ((List.replicate (2 * BTREE_PARAM_M) btree_node.NULL).set 0
            (btree_node.node (2 * BTREE_PARAM_M - 1) kd cs leaf)).getD 0 btree_node.NULL =
            btree_node.node (2 * BTREE_PARAM_M - 1) kd cs leaf := by
        simp [hM, List.replicate]
      obtain ⟨hwf1, hcont1, _, _⟩ := split_node_wf h 0 none none 0 0 _ kd2 kd nkd _ cs2 cs nch
        0 leaf hroot (by rw [hM]; omega) (Nat.le_refl _) hget hkd2l hcs2l hnkdl hnchl hkd2j
        hcs2j hnkdj hnchj
      rw [hsplit]
      simp only
      obtain ⟨t1, ht1, ht1wf, ht1c⟩ := btree_insert_nonfull_ok (h + 1)
        (btree_depth (btree_node.node (2 * BTREE_PARAM_M - 1) kd cs leaf) + 1) (by omega)
        0 none none (0 + 1) kd2 cs2 0 key data hwf1 (by rw [hM]; omega) trivial trivial
        (by
          intro d hd
          exact habs d ((hrootc _).1 ((hcont1 _).1 hd)))
      refine ⟨h + 1, t1, ht1, ht1wf, Or.inr rfl, ?_⟩
      intro x
      rw [ht1c x, hcont1 x, hrootc x]
    · rw [if_neg hfull]
      obtain ⟨t1, ht1, ht1wf, ht1c⟩ := btree_insert_nonfull_ok h
        (btree_depth (btree_node.node nk kd cs leaf)) hdepth
        0 none none nk kd cs leaf key data hwf (by have := hok.2.1; omega) trivial trivial habs
      exact ⟨h, t1, ht1, ht1wf, Or.inl rfl, ht1c⟩

theorem btree_insert_seq_ok :
    ∀ (kvs : List (Int × Option Nat)) (h : Nat) (t : btree_node),
      btree_wf h 0 none none t → (kvs.map Prod.fst).Nodup →
      (∀ kv, kv ∈ kvs → ∀ d, ¬ btree_contains h t (kv.1, d)) →
      ∃ h1 t1, btree_insert_seq t kvs = some t1 ∧ btree_wf h1 0 none none t1 ∧
        ∀ x, btree_contains h1 t1 x ↔ x ∈ kvs ∨ btree_contains h t x := by
  intro kvs
  induction kvs with
  | nil =>
    intro h t hwf _ _
    exact ⟨h, t, rfl, hwf, fun x => by simp⟩
  | cons kv rest ih =>
    intro h t hwf hnd habs
    obtain ⟨k, d⟩ := kv
    simp only [List.map_cons, List.nodup_cons] at hnd
    obtain ⟨h1, t1, hi1, hwf1, _, hc1⟩ := btree_insert_ok h t k d hwf
      (habs (k, d) (List.mem_cons_self _ _))
    obtain ⟨h2, t2, hi2, hwf2, hc2⟩ := ih h1 t1 hwf1 hnd.2 (by
      intro kv hkv dd hdd
      rcases (hc1 _).1 hdd with heq | hold
      · apply hnd.1
        have : kv.1 = k := congrArg Prod.fst heq
        rw [← this]
        exact List.mem_map_of_mem Prod.fst hkv
      · exact habs kv (List.mem_cons_of_mem _ hkv) dd hold)
    refine ⟨h2, t2, ?_, hwf2, ?_⟩
    · rw [btree_insert_seq, hi1]
      exact hi2
    · intro x
      rw [hc2 x, hc1 x, List.mem_cons]
      constructor
      · rintro (h0 | h0 | h0)
        · exact Or.inl (Or.inr h0)
        · exact Or.inl (Or.inl h0)
        · exact Or.inr h0
      · rintro ((h0 | h0) | h0)
        · exact Or.inr (Or.inl h0)
        · exact Or.inl h0
        · exact Or.inr (Or.inr h0)

theorem btree_wf_invariant :
    ∀ (h m : Nat) (lo hi : Option Int) (t : btree_node) (root : Bool),
      btree_wf h m lo hi t → (root = false → BTREE_PARAM_M - 1 ≤ m) →
      btree_invariant h root t := by
  intro h
  induction h with
  | zero =>
    intro m lo hi t root hwf hm
    cases t with
    | NULL => exact absurd hwf (by simp [btree_wf])
    | node nk kd cs leaf =>
      rw [btree_wf] at hwf
      rw [btree_invariant]
      obtain ⟨hleaf, hmk, hnk, _, _, hs, _⟩ := hwf
      exact ⟨by omega, hs, hnk, fun hr => Nat.le_trans (hm hr) hmk⟩
  | succ h ih =>
    intro m lo hi t root hwf hm
    cases t with
    | NULL => exact absurd hwf (by simp [btree_wf])
    | node nk kd cs leaf =>
      rw [btree_wf] at hwf
      rw [btree_invariant]
      obtain ⟨hleaf, ⟨hmk, hnk, _, _, hs, _⟩, hch⟩ := hwf
      refine ⟨hleaf, hs, hnk, fun hr => Nat.le_trans (hm hr) hmk, ?_⟩
      intro i hi1
      refine ⟨ih _ _ _ _ false (hch i hi1) (fun _ => Nat.le_refl _), ?_⟩
      intro x hx
      have hb := btree_contains_bounds h _ _ _ _ x (hch i hi1) hx
      constructor
      · intro h0
        have := hb.1
        rw [if_neg (by omega)] at this
        exact this
      · intro h0
        have := hb.2
        rw [if_neg (by omega)] at this
        exact this

theorem selitems_read_in_range (selitems : Nat → Option Nat) (i : Int)
    (h : ¬ (i < 0 ∨ i ≥ (MAX_FDS : Int))) :
    selitems_read selitems i = some (selitems i.toNat) := by
  unfold selitems_read
  rw [if_pos (by omega)]

theorem selitems_write_in_range (selitems : Nat → Option Nat) (i : Int) (v : Option Nat)
    (h : ¬ (i < 0 ∨ i ≥ (MAX_FDS : Int))) :
    selitems_write selitems i v = some (Function.update selitems i.toNat v) := by
  unfold selitems_write
  rw [if_pos (by omega)]

theorem devpoll_loop_array_eq (c : SysConsts) (retevents : Nat → PollFd) :
    ∀ (k i : Nat) (count : Int) (w : DevPollWorld) (tr : List DevPollEvent),
      devpoll_loop_array c retevents k i count w tr =
        some (devpoll_loop c retevents k i count w tr) := by
  intro k
  induction k with
  | zero => intro i count w tr; rfl
  | succ k ih =>
    intro i count w tr
    simp only [devpoll_loop_array, devpoll_loop]
    by_cases h1 : (retevents i).fd < 0 ∨ (retevents i).fd ≥ (MAX_FDS : Int)
    · rw [if_pos h1, if_pos h1]
    · rw [if_neg h1, if_neg h1, selitems_read_in_range _ _ h1]
      cases hs : w.state.selitems (retevents i).fd.toNat with
      | none => exact ih _ _ _ _
      | some obj =>
        simp only
        by_cases h2 : 0 ≤ count ∧ count < (w.retitemarr.length : Int)
        · rw [if_pos h2, if_pos h2]; exact ih _ _ _ _
        · rw [if_neg h2, if_neg h2]; exact ih _ _ _ _

theorem dp_nfds_within_slots (c : SysConsts) (p : Platform) (rt : InitRuntime) (max_retevents : Int)
    (hinit : (SelectSetDevPollImpl_init p rt max_retevents).exn = none)
    (hsize : 0 < p.sizeof_pollfd)
    (hfit : max_retevents * (p.sizeof_pollfd : Int) < 2 ^ p.size_bits) :
    ∃ (st : devpoll_impl_state) (slots : Nat),
      (SelectSetDevPollImpl_init p rt max_retevents).state = some st ∧
      (SelectSetDevPollImpl_init p rt max_retevents).retevents_slots = some slots ∧
      st.max_retevents = max_retevents ∧
      ∀ (w : DevPollWorld), w.state = st →
        ∀ (itemarr : Option (List (Option Nat))) (timeout num_fds : Int) (reply : DpReply)
          (dp_timeout dp_nfds : Int),
          DevPollEvent.ioctl_DP_POLL dp_timeout dp_nfds ∈
            (SelectSetDevPollImpl_doSelect c w itemarr timeout num_fds reply).trace →
          dp_nfds = min num_fds max_retevents ∧ dp_nfds ≤ (slots : Int) := by
  unfold SelectSetDevPollImpl_init at hinit ⊢
  by_cases h1 : rt.fids_ok = false
  · simp [h1] at hinit
  · by_cases h2 : rt.malloc_state = false
    · simp [h1, h2] at hinit
    · by_cases h3 : rt.open_ret < 0
      · simp [h1, h2, h3] at hinit
      · by_cases h4 : rt.malloc_retevents = false
        · simp [h1, h2, h3, h4] at hinit
        · simp only [h1, h2, h3, h4, if_false]
          refine ⟨_, _, rfl, rfl, rfl, ?_⟩
          intro w hw itemarr timeout num_fds reply dp_timeout dp_nfds hev
          have hio := (devpoll_doSelect_ioctl c w itemarr timeout num_fds reply _ _ hev).2
          rw [hw] at hio
          simp only at hio
          have hmin : dp_nfds = min num_fds max_retevents := by
            rw [hio, min_def]
            split_ifs <;> omega
          refine ⟨hmin, ?_⟩
          have hle : dp_nfds ≤ max_retevents := by rw [hmin]; exact min_le_right _ _
          by_cases hneg : max_retevents < 0
          · have : (0 : Int) ≤ ((((max_retevents * (p.sizeof_pollfd : Int)) %
                (2 ^ p.size_bits : Int)).toNat / p.sizeof_pollfd : Nat) : Int) :=
              Int.ofNat_nonneg _
            omega
          · have hm0 : 0 ≤ max_retevents := by omega
            have hprod : 0 ≤ max_retevents * (p.sizeof_pollfd : Int) :=
              mul_nonneg hm0 (Int.ofNat_nonneg _)
            have hmod : (max_retevents * (p.sizeof_pollfd : Int)) % (2 ^ p.size_bits : Int) =
                max_retevents * (p.sizeof_pollfd : Int) := Int.emod_eq_of_lt hprod hfit
            rw [hmod]
            obtain ⟨m, rfl⟩ := Int.eq_ofNat_of_zero_le hm0
            have hnat : ((m : Int) * (p.sizeof_pollfd : Int)).toNat = m * p.sizeof_pollfd := by
              rw [← Nat.cast_mul, Int.toNat_ofNat]
            rw [hnat, Nat.mul_div_cancel _ hsize]
            exact hle

/-- C2: for every requested portable mask `e` the OS interest bits built by the
translation code are `POLLIN|POLLPRI` if `e & 0x01`, OR-ed with `POLLOUT` if
`e & 0x02`; only the two low bits of `e` matter (SELECT_ERROR and every other
bit contribute nothing); the record the cached-interest register writes to
the kernel cache carries these bits for the item's mask, and so does every
`pollfd` of the request the stateless doSelect passes to `poll`. -/
theorem interest_bits_are_table_interest (c : SysConsts) :
    (∀ e : Nat, realevents_of_events c e = table_interest c e ∧
      table_interest c e = table_interest c (e &&& 0x03)) ∧
    (∀ (w : DevPollWorld) (selitemobj : Nat) (write_ok : Bool),
      (SelectSetDevPollImpl_register c w selitemobj write_ok).trace =
        [DevPollEvent.write_devpoll (w.heap selitemobj).fd
          (table_interest c (w.heap selitemobj).events)]) ∧
    (∀ (rt : Runtime) (its : List SelectItem) (timeout : Int) (reply : PollReply),
      ∀ call ∈ (SelectSetPollImpl_doSelect c rt (some (its.map some)) timeout reply).polls,
        ∀ u ∈ call.ufds, ∃ it ∈ its, it.events ≠ 0 ∧ u.fd = it.fd ∧
          u.events = table_interest c it.events) := by
  refine ⟨fun e => ⟨realevents_of_events_eq c e, (table_interest_low_bits c e).symm⟩, ?_, ?_⟩
  · intro w obj write_ok
    have hev : (if (w.heap obj).events ≠ 0 then realevents_of_events c (w.heap obj).events
        else 0) = table_interest c (w.heap obj).events := by
      by_cases h0 : (w.heap obj).events = 0
      · simp [h0, table_interest]
      · simp [h0, realevents_of_events_eq]
    unfold SelectSetDevPollImpl_register
    simp only [hev]
    split_ifs
    · rfl
    · rfl
    · split <;> rfl
  · intro rt its timeout reply call hcall u hu
    have hne : (SelectSetPollImpl_doSelect c rt (some (its.map some)) timeout reply).polls ≠ [] :=
      List.ne_nil_of_mem hcall
    obtain ⟨h1, h2, h3, its2, hits, hact⟩ := doSelect_polls_ne_nil c rt _ timeout reply hne
    have hinj : its = its2 := by
      have := Option.some.inj hits
      exact List.map_injective_iff.2 (Option.some_injective _) this
    subst hinj
    rw [doSelect_run c rt its timeout reply h1 h2 h3 hact] at hcall
    have hc : call = { ufds := (active_items its 0).map (request_of c),
                       num_ufds := (active_items its 0).length, timeout := timeout } := by
      split_ifs at hcall <;> simpa using hcall
    subst hc
    obtain ⟨p, hp, rfl⟩ := List.mem_map.1 hu
    have := active_items_mem its 0 p hp
    exact ⟨p.2, this.1, this.2, rfl, rfl⟩

/-- A stateless poll of a write-only item: its request slot carries `POLLOUT`,
for C2. -/
theorem interest_bits_are_table_interest_witness :
    ({ ufds := [{ fd := 3, events := 0x004, revents := 0 }], num_ufds := 1, timeout := 0 } :
        PollCall) ∈
      (SelectSetPollImpl_doSelect linuxConsts rt_ok (some (write_only_set.map some)) 0
        reply_out).polls ∧
    ∃ it ∈ write_only_set, it.events ≠ 0 ∧ (3 : Int) = it.fd ∧
      (0x004 : Nat) = table_interest linuxConsts it.events :=
  ⟨by decide, (interest_bits_are_table_interest linuxConsts).2.2 rt_ok write_only_set 0
    reply_out { ufds := [{ fd := 3, events := 0x004, revents := 0 }], num_ufds := 1, timeout := 0 }
    (by decide) { fd := 3, events := 0x004, revents := 0 } (by decide)⟩

/-! ## C3 -/

/-- C3 fails as stated: an entry that requests only WRITE_READY (`events = 0x02`)
for which the OS reports both `POLLIN` and `POLLOUT` is reported with the mask
`0x03` (READ_READY and WRITE_READY) by the stateless doSelect and by the
cached-interest doSelect. -/
theorem write_only_entry_reported_readable :
    (SelectSetPollImpl_doSelect linuxConsts rt_ok (some (write_only_set.map some)) 0
        reply_in_out).itemarr = some [some { fd := 3, events := 0x02, revents := 0x03 }] ∧
    (world_one.heap 0).events = 0x02 ∧
    ((SelectSetDevPollImpl_doSelect linuxConsts world_one (some [some 0]) 0 1
        dp_reply_in_out).world.heap 0).revents = 0x03 ∧
    (SelectSetDevPollImpl_doSelect linuxConsts world_one (some [some 0]) 0 1
        dp_reply_in_out).world.retitemarr = [some 0] := by
  decide

/-- C3 as amended: doSelect reports for an entry that requests only WRITE_READY
the table mask of the raw OS `revents` of that entry, without masking it by
the requested interest.  Stateless backend: the item at index `j` gets the
table mask of the `revents` of its slot.  Cached-interest backend: the
registered object of the one raw event returned gets the table mask of the
event's `revents`.  That mask is exactly WRITE_READY when the OS reports
`POLLOUT` and none of `POLLIN`, `POLLPRI`, `POLLERR`, `POLLHUP`, `POLLNVAL`,
and it contains READ_READY whenever the OS reports `POLLIN` or `POLLPRI`. -/
theorem write_only_entry_mask (c : SysConsts) :
    (∀ (rt : Runtime) (its : List SelectItem) (timeout : Int) (reply : PollReply) (j : Nat)
        (it : SelectItem),
      rt.fids_ok = true → rt.malloc_ufds = true → rt.malloc_ufds_map = true →
      its[j]? = some it → it.events = 0x02 → 0 < reply.ret →
      reply.revents (slot_of its j) ≠ 0 →
      ∃ items1 : List SelectItem,
        (SelectSetPollImpl_doSelect c rt (some (its.map some)) timeout reply).itemarr =
          some (items1.map some) ∧
        items1[j]? =
          some { it with revents := table_mask c (reply.revents (slot_of its j)) }) ∧
    (∀ (w : DevPollWorld) (items : List (Option Nat)) (timeout num_fds : Int) (reply : DpReply)
        (obj : Nat),
      items ≠ [] → w.retitemarr ≠ [] → reply.ret = 1 →
      0 ≤ (reply.retevents 0).fd → (reply.retevents 0).fd < (MAX_FDS : Int) →
      w.state.selitems (reply.retevents 0).fd.toNat = some obj →
      (w.heap obj).events = 0x02 →
      (SelectSetDevPollImpl_doSelect c w (some items) timeout num_fds reply).world.heap obj =
        { (w.heap obj) with revents := table_mask c (reply.retevents 0).revents }) ∧
    (∀ r : Nat, r &&& c.POLLOUT ≠ 0 → r &&& (c.POLLIN ||| c.POLLPRI) = 0 →
      r &&& (c.POLLERR ||| c.POLLHUP ||| c.POLLNVAL) = 0 → table_mask c r = 0x02) ∧
    (∀ r : Nat, r &&& (c.POLLIN ||| c.POLLPRI) ≠ 0 → table_mask c r &&& 0x01 = 0x01) := by
  refine ⟨?_, ?_, ?_, ?_⟩
  · intro rt its timeout reply j it h1 h2 h3 hj he hret hr
    have hne : it.events ≠ 0 := by rw [he]; decide
    have hact := active_items_ne_nil its j it hj hne
    rw [doSelect_positive c rt its timeout reply h1 h2 h3 hact hret]
    refine ⟨written_items c reply.revents its 0, rfl, ?_⟩
    rw [written_items_get c reply.revents its 0 j it hj]
    simp only [Nat.zero_add, hne, hr, ne_eq, not_false_eq_true, and_self, if_true,
      realevents_of_revents_eq]
  · intro w items timeout num_fds reply obj hitems hcap hret hlo hhi hreg _
    rw [devpoll_single_event c w items timeout num_fds reply obj hitems hcap hret hlo hhi hreg]
    simp [realevents_of_revents_eq]
  · intro r ho hi he
    unfold table_mask
    simp [ho, hi, he]
  · intro r hi
    unfold table_mask
    by_cases ho : r &&& c.POLLOUT = 0 <;>
      by_cases he : r &&& (c.POLLERR ||| c.POLLHUP ||| c.POLLNVAL) = 0 <;>
      simp [hi, ho, he]

/-- A write-only entry for which the OS reports only `POLLOUT`, in both
backends, for C3. -/
theorem write_only_entry_mask_witness :
    (∃ items1 : List SelectItem,
      (SelectSetPollImpl_doSelect linuxConsts rt_ok (some (write_only_set.map some)) 0
          reply_out).itemarr = some (items1.map some) ∧
      items1[0]? = some { fd := 3, events := 0x02,
                          revents := table_mask linuxConsts
                            (reply_out.revents (slot_of write_only_set 0)) }) ∧
    (SelectSetDevPollImpl_doSelect linuxConsts world_one (some [some 0]) 0 1
        dp_reply_out).world.heap 0 =
      { (world_one.heap 0) with
        revents := table_mask linuxConsts (dp_reply_out.retevents 0).revents } ∧
    table_mask linuxConsts 0x004 = 0x02 ∧
    table_mask linuxConsts 0x005 &&& 0x01 = 0x01 :=
  ⟨(write_only_entry_mask linuxConsts).1 rt_ok write_only_set 0 reply_out 0
      { fd := 3, events := 0x02, revents := 0 } rfl rfl rfl (by decide) (by decide) (by decide)
      (by decide),
   (write_only_entry_mask linuxConsts).2.1 world_one [some 0] 0 1 dp_reply_out 0
      (by decide) (by decide) (by decide) (by decide) (by decide) (by decide) (by decide),
   (write_only_entry_mask linuxConsts).2.2.1 0x004 (by decide) (by decide) (by decide),
   (write_only_entry_mask linuxConsts).2.2.2 0x005 (by decide)⟩

/-! ## C4 -/

/-- C4: for every interest set without null elements the request built by the
stateless doSelect holds exactly one `pollfd` per item with a nonzero
requested mask, in item order: the second loop yields, for the items with
nonzero mask in array order, the `pollfd` with the item's handle, the table
interest bits of its mask and `revents = 0`, and `ufds_map` lists the indices
of these items; the length is the number of nonzero-mask items (which is what
the first loop counts), and the `poll` call, when one is issued, carries
exactly this request and this length. -/
theorem request_has_only_nonzero_mask_items (c : SysConsts) (rt : Runtime)
    (its : List SelectItem) (timeout : Int) (reply : PollReply) :
    fill_ufds c (its.map some) 0 [] [] =
      some (((its.enum.filter (fun p => p.2.events ≠ 0)).map
              (fun p => ({ fd := p.2.fd, events := table_interest c p.2.events,
                           revents := 0 } : PollFd))),
            (its.enum.filter (fun p => p.2.events ≠ 0)).map Prod.fst) ∧
    (its.enum.filter (fun p => p.2.events ≠ 0)).length = its.countP (fun x => x.events ≠ 0) ∧
    count_ufds (its.map some) 0 = some (its.countP (fun x => x.events ≠ 0)) ∧
    (∀ call ∈ (SelectSetPollImpl_doSelect c rt (some (its.map some)) timeout reply).polls,
      call.ufds = ((its.enum.filter (fun p => p.2.events ≠ 0)).map
              (fun p => ({ fd := p.2.fd, events := table_interest c p.2.events,
                           revents := 0 } : PollFd))) ∧
      call.num_ufds = its.countP (fun x => x.events ≠ 0)) := by
  have hfill := fill_ufds_some c its 0 [] []
  have hlen := active_items_length its 0
  have hcnt := count_ufds_some its 0 0
  simp only [List.nil_append, Nat.zero_add] at hfill hcnt
  refine ⟨hfill, hlen, by rw [hcnt, hlen], ?_⟩
  intro call hcall
  have hne : (SelectSetPollImpl_doSelect c rt (some (its.map some)) timeout reply).polls ≠ [] :=
    List.ne_nil_of_mem hcall
  obtain ⟨h1, h2, h3, its2, hits, hact⟩ := doSelect_polls_ne_nil c rt _ timeout reply hne
  have hinj : its = its2 :=
    List.map_injective_iff.2 (Option.some_injective _) (Option.some.inj hits)
  subst hinj
  rw [doSelect_run c rt its timeout reply h1 h2 h3 hact] at hcall
  have hc : call = { ufds := (active_items its 0).map (request_of c),
                     num_ufds := (active_items its 0).length, timeout := timeout } := by
    split_ifs at hcall <;> simpa using hcall
  subst hc
  exact ⟨rfl, hlen⟩

/-- A three-item interest set whose middle item has an empty mask, for C4. -/
theorem request_has_only_nonzero_mask_items_witness :
    ({ ufds := [{ fd := 4, events := 0x003, revents := 0 },
                { fd := 6, events := 0x004, revents := 0 }],
       num_ufds := 2, timeout := 25 } : PollCall) ∈
      (SelectSetPollImpl_doSelect linuxConsts rt_ok
        (some ([⟨4, 0x01, 0⟩, ⟨5, 0, 0⟩, ⟨6, 0x02, 0⟩].map some)) 25 reply_zero).polls ∧
    fill_ufds linuxConsts ([⟨4, 0x01, 0⟩, ⟨5, 0, 0⟩, ⟨6, 0x02, 0⟩].map some) 0 [] [] =
      some ([{ fd := 4, events := 0x003, revents := 0 }, { fd := 6, events := 0x004, revents := 0 }],
            [0, 2]) := by
  have h := request_has_only_nonzero_mask_items linuxConsts rt_ok
    [⟨4, 0x01, 0⟩, ⟨5, 0, 0⟩, ⟨6, 0x02, 0⟩] 25 reply_zero
  exact ⟨by decide, h.1.trans (by decide)⟩

/-! ## C5 -/

/-- C5: in every stateless doSelect call whose `poll` call returns a positive
count, the item array afterwards has the same length, and for the item at
each index `j`: if its requested mask is nonzero then `ufds_map` maps its
request slot `slot_of its j` back to `j`; if moreover that slot came back with
nonzero `revents`, the item's `revents` field is the table mask of those bits
and its other fields are unchanged; every other item (zero requested mask, or
zero OS `revents`) is unchanged, `revents` field included. -/
theorem write_back_frame (c : SysConsts) (rt : Runtime) (its : List SelectItem)
    (timeout : Int) (reply : PollReply)
    (hcall : (SelectSetPollImpl_doSelect c rt (some (its.map some)) timeout reply).polls ≠ [])
    (hret : 0 < reply.ret) :
    ∃ items1 : List SelectItem,
      (SelectSetPollImpl_doSelect c rt (some (its.map some)) timeout reply).itemarr =
        some (items1.map some) ∧
      items1.length = its.length ∧
      ∀ (j : Nat) (it : SelectItem), its[j]? = some it →
        (it.events ≠ 0 →
          ∃ ufds ufds_map, fill_ufds c (its.map some) 0 [] [] = some (ufds, ufds_map) ∧
            ufds_map[slot_of its j]? = some j) ∧
        (it.events ≠ 0 → reply.revents (slot_of its j) ≠ 0 →
          items1[j]? =
            some { it with revents := table_mask c (reply.revents (slot_of its j)) }) ∧
        (it.events = 0 ∨ reply.revents (slot_of its j) = 0 → items1[j]? = some it) := by
  obtain ⟨h1, h2, h3, its2, hits, hact⟩ := doSelect_polls_ne_nil c rt _ timeout reply hcall
  have hinj : its = its2 :=
    List.map_injective_iff.2 (Option.some_injective _) (Option.some.inj hits)
  subst hinj
  rw [doSelect_positive c rt its timeout reply h1 h2 h3 hact hret]
  refine ⟨written_items c reply.revents its 0, rfl, written_items_length c _ its 0, ?_⟩
  intro j it hj
  have hget := written_items_get c reply.revents its 0 j it hj
  rw [Nat.zero_add] at hget
  refine ⟨?_, ?_, ?_⟩
  · intro hne
    have hfill := fill_ufds_some c its 0 [] []
    simp only [List.nil_append] at hfill
    refine ⟨_, _, hfill, ?_⟩
    have := active_items_slot its 0 j it hj hne
    rw [List.getElem?_map, this]
    simp
  · intro hne hr
    rw [hget]
    simp only [hne, hr, ne_eq, not_false_eq_true, and_self, if_true, realevents_of_revents_eq]
  · intro h
    rw [hget]
    rcases h with h | h
    · simp [h]
    · simp [h]

/-- Three items, the second with an empty mask and a stale `revents`, the OS
reporting the third readable-and-hung-up, for C5. -/
theorem write_back_frame_witness :
    (SelectSetPollImpl_doSelect linuxConsts rt_ok
        (some ([⟨4, 0x01, 0x02⟩, ⟨5, 0, 0x01⟩, ⟨6, 0x03, 0⟩].map some)) 0
        ⟨1, 0, fun n => if n = 1 then 0x011 else 0⟩).polls ≠ [] ∧
    (0 : Int) < 1 ∧
    ∃ items1 : List SelectItem,
      (SelectSetPollImpl_doSelect linuxConsts rt_ok
        (some ([⟨4, 0x01, 0x02⟩, ⟨5, 0, 0x01⟩, ⟨6, 0x03, 0⟩].map some)) 0
        ⟨1, 0, fun n => if n = 1 then 0x011 else 0⟩).itemarr = some (items1.map some) ∧
      items1.length = 3 ∧
      items1[2]? = some ⟨6, 0x03, 0x81⟩ ∧ items1[1]? = some ⟨5, 0, 0x01⟩ ∧
      items1[0]? = some ⟨4, 0x01, 0x02⟩ := by
  have hc : (SelectSetPollImpl_doSelect linuxConsts rt_ok
        (some ([⟨4, 0x01, 0x02⟩, ⟨5, 0, 0x01⟩, ⟨6, 0x03, 0⟩].map some)) 0
        ⟨1, 0, fun n => if n = 1 then 0x011 else 0⟩).polls ≠ [] := by decide
  obtain ⟨items1, ha, hb, hall⟩ := write_back_frame linuxConsts rt_ok
    [⟨4, 0x01, 0x02⟩, ⟨5, 0, 0x01⟩, ⟨6, 0x03, 0⟩] 0
    ⟨1, 0, fun n => if n = 1 then 0x011 else 0⟩ hc (by decide)
  refine ⟨hc, by decide, items1, ha, hb, ?_, ?_, ?_⟩
  · exact ((hall 2 ⟨6, 0x03, 0⟩ rfl).2.1 (by decide) (by decide)).trans (by decide)
  · exact (hall 1 ⟨5, 0, 0x01⟩ rfl).2.2 (Or.inl rfl)
  · exact (hall 0 ⟨4, 0x01, 0x02⟩ rfl).2.2 (Or.inr (by decide))

/-! ## C6 -/

/-- C6: when the OS keeps the contract of poll(2) for the call that is issued
(`PollContract`), every stateless doSelect call that completes without a
pending exception returns the number of entries whose written-back portable
mask is nonzero: the returned integer is the number of `SetShortField` writes
of the call with a nonzero value, and these writes go to pairwise different
entries. -/
theorem returned_count_is_nonzero_results (c : SysConsts) (rt : Runtime)
    (itemarr : Option (List (Option SelectItem))) (timeout : Int) (reply : PollReply)
    (hos : ∀ call ∈ (SelectSetPollImpl_doSelect c rt itemarr timeout reply).polls,
      PollContract c call reply)
    (hexn : (SelectSetPollImpl_doSelect c rt itemarr timeout reply).exn = none) :
    (SelectSetPollImpl_doSelect c rt itemarr timeout reply).ret =
      ((((SelectSetPollImpl_doSelect c rt itemarr timeout reply).writes.filter
          (fun x => x.2 ≠ 0)).length : Nat) : Int) ∧
    ((SelectSetPollImpl_doSelect c rt itemarr timeout reply).writes.map Prod.fst).Nodup := by
  rcases doSelect_cases c rt itemarr timeout reply with hA | hB
  · obtain ⟨_, hw, _, _, hr, _⟩ := hA
    rw [hw, hr hexn]
    simp
  · obtain ⟨h1, h2, h3, its, rfl, hact⟩ := hB
    rw [doSelect_run c rt its timeout reply h1 h2 h3 hact] at hos hexn ⊢
    by_cases hr0 : reply.ret = 0
    · simp [hr0]
    · by_cases hneg : reply.ret < 0
      · simp [hr0, hneg]
      · simp only [hr0, hneg, if_false] at hos hexn ⊢
        have hpos : 0 < reply.ret := by omega
        obtain ⟨hret, hsub⟩ := hos _ (List.mem_singleton.2 rfl)
        refine ⟨?_, written_log_nodup c reply.revents its 0 0⟩
        rw [hret hpos, written_log_count c reply.revents its 0 0 hsub, List.range_eq_range']

/-- Two active items of which the OS reports one (ret = 1), for C6. -/
theorem returned_count_is_nonzero_results_witness :
    (∀ call ∈ (SelectSetPollImpl_doSelect linuxConsts rt_ok
        (some ([⟨4, 0x01, 0⟩, ⟨6, 0x02, 0⟩].map some)) 0
        ⟨1, 0, fun n => if n = 1 then 0x004 else 0⟩).polls,
      PollContract linuxConsts call ⟨1, 0, fun n => if n = 1 then 0x004 else 0⟩) ∧
    (SelectSetPollImpl_doSelect linuxConsts rt_ok
        (some ([⟨4, 0x01, 0⟩, ⟨6, 0x02, 0⟩].map some)) 0
        ⟨1, 0, fun n => if n = 1 then 0x004 else 0⟩).exn = none ∧
    (SelectSetPollImpl_doSelect linuxConsts rt_ok
        (some ([⟨4, 0x01, 0⟩, ⟨6, 0x02, 0⟩].map some)) 0
        ⟨1, 0, fun n => if n = 1 then 0x004 else 0⟩).writes = [(1, 0x02)] ∧
    (SelectSetPollImpl_doSelect linuxConsts rt_ok
        (some ([⟨4, 0x01, 0⟩, ⟨6, 0x02, 0⟩].map some)) 0
        ⟨1, 0, fun n => if n = 1 then 0x004 else 0⟩).ret = ((1 : Nat) : Int) := by
  have hos : ∀ call ∈ (SelectSetPollImpl_doSelect linuxConsts rt_ok
        (some ([⟨4, 0x01, 0⟩, ⟨6, 0x02, 0⟩].map some)) 0
        ⟨1, 0, fun n => if n = 1 then 0x004 else 0⟩).polls,
      PollContract linuxConsts call ⟨1, 0, fun n => if n = 1 then 0x004 else 0⟩ := by
    intro call hcall
    have hc : call = { ufds := [{ fd := 4, events := 0x003, revents := 0 },
                                { fd := 6, events := 0x004, revents := 0 }],
                       num_ufds := 2, timeout := 0 } := by
      have : (SelectSetPollImpl_doSelect linuxConsts rt_ok
        (some ([⟨4, 0x01, 0⟩, ⟨6, 0x02, 0⟩].map some)) 0
        ⟨1, 0, fun n => if n = 1 then 0x004 else 0⟩).polls =
          [{ ufds := [{ fd := 4, events := 0x003, revents := 0 },
                      { fd := 6, events := 0x004, revents := 0 }],
             num_ufds := 2, timeout := 0 }] := by decide
      rw [this] at hcall
      exact List.mem_singleton.1 hcall
    subst hc
    unfold PollContract
    decide
  have hexn : (SelectSetPollImpl_doSelect linuxConsts rt_ok
        (some ([⟨4, 0x01, 0⟩, ⟨6, 0x02, 0⟩].map some)) 0
        ⟨1, 0, fun n => if n = 1 then 0x004 else 0⟩).exn = none := by decide
  have h := returned_count_is_nonzero_results linuxConsts rt_ok
    (some ([⟨4, 0x01, 0⟩, ⟨6, 0x02, 0⟩].map some)) 0
    ⟨1, 0, fun n => if n = 1 then 0x004 else 0⟩ hos hexn
  exact ⟨hos, hexn, by decide, h.1.trans (by decide)⟩

/-! ## C7 -/

/-- C7 fails as stated: for the non-empty interest set holding one item with an
empty requested mask (and no null element) the stateless doSelect issues no
OS `poll` call at all. -/
theorem no_poll_call_for_empty_masks :
    ([⟨3, 0, 0⟩] : List SelectItem) ≠ [] ∧
    (SelectSetPollImpl_doSelect linuxConsts rt_ok (some ([⟨3, 0, 0⟩].map some)) 5
      reply_zero).polls.length ≠ 1 ∧
    (SelectSetPollImpl_doSelect linuxConsts rt_ok (some ([⟨3, 0, 0⟩].map some)) 5
      reply_zero).polls = [] := by
  decide

/-- C7 as amended: when the field IDs are initialised and both scratch
allocations succeed, a stateless doSelect on an interest set without null
elements issues exactly one OS `poll` call if at least one item has a nonzero
requested mask, and none if every requested mask is zero (it then returns 0
without an exception); the call carries the request of the nonzero-mask items
and the caller's timeout unchanged, whatever its sign. -/
theorem one_poll_call_with_timeout (c : SysConsts) (rt : Runtime) (its : List SelectItem)
    (timeout : Int) (reply : PollReply) (h1 : rt.fids_ok = true) (h2 : rt.malloc_ufds = true)
    (h3 : rt.malloc_ufds_map = true) :
    (SelectSetPollImpl_doSelect c rt (some (its.map some)) timeout reply).polls =
      (if its.countP (fun x => x.events ≠ 0) = 0 then []
       else [{ ufds := (its.enum.filter (fun p => p.2.events ≠ 0)).map (request_of c),
               num_ufds := its.countP (fun x => x.events ≠ 0),
               timeout := timeout }]) ∧
    (its ≠ [] → its.countP (fun x => x.events ≠ 0) = 0 →
      (SelectSetPollImpl_doSelect c rt (some (its.map some)) timeout reply).ret = 0 ∧
      (SelectSetPollImpl_doSelect c rt (some (its.map some)) timeout reply).exn = none) := by
  have hlen := active_items_length its 0
  by_cases hz : its.countP (fun x => x.events ≠ 0) = 0
  · have hact : active_items its 0 = [] := by
      apply List.length_eq_zero.1; rw [hlen, hz]
    rw [if_pos hz]
    by_cases hne : its = []
    · subst hne
      exact ⟨by simp [SelectSetPollImpl_doSelect, h1], fun h => absurd rfl h⟩
    · rw [doSelect_idle c rt its timeout reply h1 hne hact]
      exact ⟨rfl, fun _ _ => ⟨rfl, rfl⟩⟩
  · have hact : active_items its 0 ≠ [] := by
      intro h0; apply hz; rw [← hlen, h0]; rfl
    refine ⟨?_, fun _ h => absurd h hz⟩
    rw [if_neg hz, doSelect_run c rt its timeout reply h1 h2 h3 hact, ← hlen]
    split_ifs <;> rfl

/-- A blocking call (timeout -1) on a set with one nonzero mask, for C7. -/
theorem one_poll_call_with_timeout_witness :
    rt_ok.fids_ok = true ∧ rt_ok.malloc_ufds = true ∧ rt_ok.malloc_ufds_map = true ∧
    (SelectSetPollImpl_doSelect linuxConsts rt_ok (some (write_only_set.map some)) (-1)
      reply_out).polls =
        [{ ufds := [{ fd := 3, events := 0x004, revents := 0 }], num_ufds := 1,
           timeout := -1 }] :=
  ⟨rfl, rfl, rfl,
    ((one_poll_call_with_timeout linuxConsts rt_ok write_only_set (-1) reply_out
      rfl rfl rfl).1).trans (by decide)⟩

/-! ## C8 -/

/-- C8: in both backends a doSelect whose OS call is interrupted by a signal
(negative return, `errno = EINTR`) has the same outcome as the same call in
which the OS reports zero ready channels; when the OS call is issued at all
this outcome is: return value 0, no pending exception, no item's `revents`
written (stateless: item array unchanged and no `SetShortField`; cached
interest: world unchanged, result array included, and no effect other than
the `ioctl` itself). -/
theorem interrupted_call_is_like_no_ready (c : SysConsts) :
    (∀ (rt : Runtime) (itemarr : Option (List (Option SelectItem))) (timeout : Int)
        (reply reply0 : PollReply),
      reply.ret < 0 → reply.errno = c.EINTR → reply0.ret = 0 →
      SelectSetPollImpl_doSelect c rt itemarr timeout reply =
        SelectSetPollImpl_doSelect c rt itemarr timeout reply0 ∧
      ((SelectSetPollImpl_doSelect c rt itemarr timeout reply).polls ≠ [] →
        (SelectSetPollImpl_doSelect c rt itemarr timeout reply).ret = 0 ∧
        (SelectSetPollImpl_doSelect c rt itemarr timeout reply).exn = none ∧
        (SelectSetPollImpl_doSelect c rt itemarr timeout reply).itemarr = itemarr ∧
        (SelectSetPollImpl_doSelect c rt itemarr timeout reply).writes = [])) ∧
    (∀ (w : DevPollWorld) (itemarr : Option (List (Option Nat))) (timeout num_fds : Int)
        (reply reply0 : DpReply),
      reply.ret < 0 → reply.errno = c.EINTR → reply0.ret = 0 →
      SelectSetDevPollImpl_doSelect c w itemarr timeout num_fds reply =
        SelectSetDevPollImpl_doSelect c w itemarr timeout num_fds reply0 ∧
      ((SelectSetDevPollImpl_doSelect c w itemarr timeout num_fds reply).trace ≠ [] →
        (SelectSetDevPollImpl_doSelect c w itemarr timeout num_fds reply).ret = 0 ∧
        (SelectSetDevPollImpl_doSelect c w itemarr timeout num_fds reply).exn = none ∧
        (SelectSetDevPollImpl_doSelect c w itemarr timeout num_fds reply).world = w ∧
        (SelectSetDevPollImpl_doSelect c w itemarr timeout num_fds reply).trace =
          [DevPollEvent.ioctl_DP_POLL timeout
            (if num_fds > w.state.max_retevents then w.state.max_retevents else num_fds)])) := by
  constructor
  · intro rt itemarr timeout reply reply0 hneg herr h0
    rcases doSelect_cases c rt itemarr timeout reply with hA | hB
    · exact ⟨hA.2.2.2.2.2 reply0, fun h => absurd hA.1 h⟩
    · obtain ⟨h1, h2, h3, its, rfl, hact⟩ := hB
      have hne : ¬ reply.ret = 0 := by omega
      rw [doSelect_run c rt its timeout reply h1 h2 h3 hact,
        doSelect_run c rt its timeout reply0 h1 h2 h3 hact]
      simp [hne, hneg, herr, h0]
  · intro w itemarr timeout num_fds reply reply0 hneg herr h0
    rw [devpoll_doSelect_nonpositive c w itemarr timeout num_fds reply (by omega),
      devpoll_doSelect_nonpositive c w itemarr timeout num_fds reply0 (by omega)]
    cases itemarr with
    | none => simp
    | some items =>
      simp only
      by_cases hl : (items.length : Int) ≤ 0 ∨ (w.retitemarr.length : Int) ≤ 0
      · simp only [if_pos hl]
        simp
      · have e1 : ¬ (reply.ret < 0 ∧ reply.errno ≠ c.EINTR) := fun h => h.2 herr
        have e2 : ¬ (reply0.ret < 0 ∧ reply0.errno ≠ c.EINTR) := fun h => by omega
        simp only [if_neg hl, if_neg e1, if_neg e2]
        simp

/-- An interrupted call of each backend on a set it would otherwise poll, for
C8. -/
theorem interrupted_call_is_like_no_ready_witness :
    (reply_eintr.ret < 0 ∧ reply_eintr.errno = linuxConsts.EINTR ∧ reply_zero.ret = 0 ∧
      (SelectSetPollImpl_doSelect linuxConsts rt_ok (some (write_only_set.map some)) 0
        reply_eintr).polls ≠ [] ∧
      SelectSetPollImpl_doSelect linuxConsts rt_ok (some (write_only_set.map some)) 0
          reply_eintr =
        SelectSetPollImpl_doSelect linuxConsts rt_ok (some (write_only_set.map some)) 0
          reply_zero) ∧
    (dp_reply_eintr.ret < 0 ∧ dp_reply_eintr.errno = linuxConsts.EINTR ∧
      dp_reply_zero.ret = 0 ∧
      (SelectSetDevPollImpl_doSelect linuxConsts world_one (some [some 0]) 0 1
        dp_reply_eintr).trace ≠ [] ∧
      (SelectSetDevPollImpl_doSelect linuxConsts world_one (some [some 0]) 0 1
        dp_reply_eintr).ret = 0) :=
  ⟨⟨by decide, by decide, by decide, by decide,
      ((interrupted_call_is_like_no_ready linuxConsts).1 rt_ok
        (some (write_only_set.map some)) 0 reply_eintr reply_zero
        (by decide) (by decide) (by decide)).1⟩,
   ⟨by decide, by decide, by decide, by decide,
      (((interrupted_call_is_like_no_ready linuxConsts).2 world_one (some [some 0]) 0 1
        dp_reply_eintr dp_reply_zero (by decide) (by decide) (by decide)).2 (by decide)).1⟩⟩

/-! ## C9 -/

/-- C9: in both backends doSelect leaves `java/io/IOException` pending if and
only if its OS call was issued and returned a negative value with `errno`
different from `EINTR`; it then returns 0 and has changed nothing (stateless:
item array unchanged, no `revents` written; cached interest: registry,
objects and result array unchanged, the `ioctl` being the only effect), so that a following doSelect has the outcome it would have had
without the failed call. -/
theorem io_failure_iff_os_error (c : SysConsts) :
    (∀ (rt : Runtime) (itemarr : Option (List (Option SelectItem))) (timeout : Int)
        (reply : PollReply),
      ((SelectSetPollImpl_doSelect c rt itemarr timeout reply).exn
          = some JavaException.IOException ↔
        (SelectSetPollImpl_doSelect c rt itemarr timeout reply).polls ≠ [] ∧
          reply.ret < 0 ∧ reply.errno ≠ c.EINTR) ∧
      ((SelectSetPollImpl_doSelect c rt itemarr timeout reply).exn
          = some JavaException.IOException →
        (SelectSetPollImpl_doSelect c rt itemarr timeout reply).ret = 0 ∧
        (SelectSetPollImpl_doSelect c rt itemarr timeout reply).itemarr = itemarr ∧
        (SelectSetPollImpl_doSelect c rt itemarr timeout reply).writes = [] ∧
        ∀ (rt2 : Runtime) (timeout2 : Int) (reply2 : PollReply),
          SelectSetPollImpl_doSelect c rt2
              (SelectSetPollImpl_doSelect c rt itemarr timeout reply).itemarr timeout2 reply2 =
            SelectSetPollImpl_doSelect c rt2 itemarr timeout2 reply2)) ∧
    (∀ (w : DevPollWorld) (itemarr : Option (List (Option Nat))) (timeout num_fds : Int)
        (reply : DpReply),
      ((SelectSetDevPollImpl_doSelect c w itemarr timeout num_fds reply).exn
          = some JavaException.IOException ↔
        (SelectSetDevPollImpl_doSelect c w itemarr timeout num_fds reply).trace ≠ [] ∧
          reply.ret < 0 ∧ reply.errno ≠ c.EINTR) ∧
      ((SelectSetDevPollImpl_doSelect c w itemarr timeout num_fds reply).exn
          = some JavaException.IOException →
        (SelectSetDevPollImpl_doSelect c w itemarr timeout num_fds reply).ret = 0 ∧
        (SelectSetDevPollImpl_doSelect c w itemarr timeout num_fds reply).world = w ∧
        (SelectSetDevPollImpl_doSelect c w itemarr timeout num_fds reply).trace =
          [DevPollEvent.ioctl_DP_POLL timeout
            (if num_fds > w.state.max_retevents then w.state.max_retevents else num_fds)] ∧
        ∀ (itemarr2 : Option (List (Option Nat))) (timeout2 num_fds2 : Int) (reply2 : DpReply),
          SelectSetDevPollImpl_doSelect c
              (SelectSetDevPollImpl_doSelect c w itemarr timeout num_fds reply).world
              itemarr2 timeout2 num_fds2 reply2 =
            SelectSetDevPollImpl_doSelect c w itemarr2 timeout2 num_fds2 reply2)) := by
  constructor
  · intro rt itemarr timeout reply
    rcases doSelect_cases c rt itemarr timeout reply with hA | hB
    · obtain ⟨hp, _, _, hio, _, _⟩ := hA
      exact ⟨⟨fun h => absurd h hio, fun h => absurd hp h.1⟩, fun h => absurd h hio⟩
    · obtain ⟨h1, h2, h3, its, rfl, hact⟩ := hB
      rw [doSelect_run c rt its timeout reply h1 h2 h3 hact]
      by_cases hr0 : reply.ret = 0
      · have : ¬ reply.ret < 0 := by omega
        simp [hr0]
      · by_cases hneg : reply.ret < 0
        · by_cases he : reply.errno = c.EINTR <;> simp [hr0, hneg, he]
        · simp [hr0, hneg]
  · intro w itemarr timeout num_fds reply
    by_cases hpos : 0 < reply.ret
    · have hneg : ¬ reply.ret < 0 := by omega
      rw [devpoll_doSelect_positive c w itemarr timeout num_fds reply hpos]
      cases itemarr with
      | none => simp
      | some items =>
        simp only
        by_cases hl : (items.length : Int) ≤ 0 ∨ (w.retitemarr.length : Int) ≤ 0
        · simp only [if_pos hl]
          simp
        · simp only [if_neg hl]
          have hio := devpoll_loop_exn c reply.retevents reply.ret.toNat 0 0 w
            [DevPollEvent.ioctl_DP_POLL timeout
              (if num_fds > w.state.max_retevents then w.state.max_retevents else num_fds),
             DevPollEvent.MonitorEnter]
          exact ⟨⟨fun h => absurd h hio, fun h => absurd h.2.1 hneg⟩, fun h => absurd h hio⟩
    · rw [devpoll_doSelect_nonpositive c w itemarr timeout num_fds reply (by omega)]
      cases itemarr with
      | none => simp
      | some items =>
        simp only
        by_cases hl : (items.length : Int) ≤ 0 ∨ (w.retitemarr.length : Int) ≤ 0
        · simp only [if_pos hl]
          simp
        · simp only [if_neg hl]
          by_cases he : reply.ret < 0 ∧ reply.errno ≠ c.EINTR
          · simp only [if_pos he]
            simp [he.1, he.2]
          · simp only [if_neg he]
            simp only [ne_eq, not_and, not_not] at he
            simp
            exact he

/-- A failing OS call (`EBADF`) of each backend, for C9. -/
theorem io_failure_iff_os_error_witness :
    ((SelectSetPollImpl_doSelect linuxConsts rt_ok (some (write_only_set.map some)) 0
        reply_ebadf).exn = some JavaException.IOException ∧
      (SelectSetPollImpl_doSelect linuxConsts rt_ok (some (write_only_set.map some)) 0
        reply_ebadf).ret = 0) ∧
    ((SelectSetDevPollImpl_doSelect linuxConsts world_one (some [some 0]) 0 1
        dp_reply_ebadf).exn = some JavaException.IOException ∧
      (SelectSetDevPollImpl_doSelect linuxConsts world_one (some [some 0]) 0 1
        dp_reply_ebadf).ret = 0) := by
  have hp := ((io_failure_iff_os_error linuxConsts).1 rt_ok (some (write_only_set.map some)) 0
    reply_ebadf).1.2 ⟨by decide, by decide, by decide⟩
  have hd := ((io_failure_iff_os_error linuxConsts).2 world_one (some [some 0]) 0 1
    dp_reply_ebadf).1.2 ⟨by decide, by decide, by decide⟩
  exact ⟨⟨hp, (((io_failure_iff_os_error linuxConsts).1 rt_ok
      (some (write_only_set.map some)) 0 reply_ebadf).2 hp).1⟩,
    ⟨hd, (((io_failure_iff_os_error linuxConsts).2 world_one (some [some 0]) 0 1
      dp_reply_ebadf).2 hd).1⟩⟩

/-! ## C10 -/

/-- C10 fails as stated: called with an absent (null) item array, the stateless
doSelect (field IDs initialised) and the cached-interest doSelect return 0
with no exception pending. -/
theorem null_item_array_returns_normally :
    (SelectSetPollImpl_doSelect linuxConsts rt_ok none 0 reply_zero).exn = none ∧
    (SelectSetPollImpl_doSelect linuxConsts rt_ok none 0 reply_zero).ret = 0 ∧
    (SelectSetDevPollImpl_doSelect linuxConsts world_one none 0 1 dp_reply_zero).exn = none ∧
    (SelectSetDevPollImpl_doSelect linuxConsts world_one none 0 1 dp_reply_zero).ret = 0 := by
  decide

/-- C10 as amended: in both backends doSelect makes no OS call and changes
nothing when the item array is absent or has length zero.  With a zero-length
array it leaves `ArrayIndexOutOfBoundsException` pending and returns 0; with
an absent (null) array it returns 0 with no exception.  (Stateless backend:
once the field IDs are initialised; when their initialisation fails it
returns -1 with `UnsatisfiedLinkError` pending in both cases.) -/
theorem empty_interest_set_outcome (c : SysConsts) :
    (∀ (rt : Runtime) (timeout : Int) (reply : PollReply),
      SelectSetPollImpl_doSelect c rt (some []) timeout reply =
        { ret := if rt.fids_ok = true then 0 else -1,
          exn := some (if rt.fids_ok = true then JavaException.ArrayIndexOutOfBoundsException
                       else JavaException.UnsatisfiedLinkError),
          itemarr := some [], polls := [], writes := [] } ∧
      SelectSetPollImpl_doSelect c rt none timeout reply =
        { ret := if rt.fids_ok = true then 0 else -1,
          exn := if rt.fids_ok = true then none else some JavaException.UnsatisfiedLinkError,
          itemarr := none, polls := [], writes := [] }) ∧
    (∀ (w : DevPollWorld) (timeout num_fds : Int) (reply : DpReply),
      SelectSetDevPollImpl_doSelect c w (some []) timeout num_fds reply =
        { ret := 0, exn := some JavaException.ArrayIndexOutOfBoundsException, world := w,
          trace := [] } ∧
      SelectSetDevPollImpl_doSelect c w none timeout num_fds reply =
        { ret := 0, exn := none, world := w, trace := [] }) := by
  constructor
  · intro rt timeout reply
    cases hf : rt.fids_ok <;> simp [SelectSetPollImpl_doSelect, hf]
  · intro w timeout num_fds reply
    simp [SelectSetDevPollImpl_doSelect]

/-! ## C11 -/

/-- C11 fails as stated: registering an item whose handle is -1 (the write to
the kernel cache succeeding) raises nothing and passes the record for handle
-1 to the OS, and a stateless doSelect on an interest set whose only item has
handle -1 and a nonzero mask raises nothing and puts a `pollfd` for handle -1
into the `poll` request. -/
theorem closed_handle_is_passed_to_os :
    (world_closed.heap 0).fd = -1 ∧
    (SelectSetDevPollImpl_register linuxConsts world_closed 0 true).exn = none ∧
    (SelectSetDevPollImpl_register linuxConsts world_closed 0 true).trace =
      [DevPollEvent.write_devpoll (-1) 0x003] ∧
    (SelectSetPollImpl_doSelect linuxConsts rt_ok (some (closed_set.map some)) 0
      reply_zero).exn = none ∧
    (SelectSetPollImpl_doSelect linuxConsts rt_ok (some (closed_set.map some)) 0
      reply_zero).polls =
      [{ ufds := [{ fd := -1, events := 0x003, revents := 0 }], num_ufds := 1, timeout := 0 }] := by
  decide

/-- C11 as amended: registering an item whose handle is -1 leaves the backend
(registry included) unchanged, but it raises no "channel closed" condition and
does pass the interest record for handle -1 to the kernel cache; the only
exception is `IOException`, when that write fails.  The stateless doSelect
(field IDs initialised, allocations succeeding) puts the `pollfd` of a
nonzero-mask item with handle -1 into the request of its one `poll` call and
raises no exception unless the OS call fails. -/
theorem closed_handle_outcome (c : SysConsts) :
    (∀ (w : DevPollWorld) (selitemobj : Nat) (write_ok : Bool),
      (w.heap selitemobj).fd = -1 →
      (SelectSetDevPollImpl_register c w selitemobj write_ok).world = w ∧
      (SelectSetDevPollImpl_register c w selitemobj write_ok).trace =
        [DevPollEvent.write_devpoll (-1) (table_interest c (w.heap selitemobj).events)] ∧
      (SelectSetDevPollImpl_register c w selitemobj write_ok).exn =
        if write_ok = true then none else some JavaException.IOException) ∧
    (∀ (rt : Runtime) (its : List SelectItem) (timeout : Int) (reply : PollReply) (j : Nat)
        (it : SelectItem),
      rt.fids_ok = true → rt.malloc_ufds = true → rt.malloc_ufds_map = true →
      its[j]? = some it → it.fd = -1 → it.events ≠ 0 →
      (∃ call, (SelectSetPollImpl_doSelect c rt (some (its.map some)) timeout reply).polls =
          [call] ∧
        call.ufds[slot_of its j]? =
          some { fd := -1, events := table_interest c it.events, revents := 0 }) ∧
      (0 ≤ reply.ret →
        (SelectSetPollImpl_doSelect c rt (some (its.map some)) timeout reply).exn = none)) := by
  constructor
  · intro w obj write_ok hfd
    have hev : (if (w.heap obj).events ≠ 0 then realevents_of_events c (w.heap obj).events
        else 0) = table_interest c (w.heap obj).events := by
      by_cases h0 : (w.heap obj).events = 0
      · simp [h0, table_interest]
      · simp [h0, realevents_of_events_eq]
    unfold SelectSetDevPollImpl_register
    simp only [hev, hfd]
    cases write_ok <;> simp
  · intro rt its timeout reply j it h1 h2 h3 hj hfd hne
    have hact := active_items_ne_nil its j it hj hne
    have hslot := active_items_slot its 0 j it hj hne
    rw [doSelect_run c rt its timeout reply h1 h2 h3 hact]
    constructor
    · refine ⟨{ ufds := (active_items its 0).map (request_of c),
                num_ufds := (active_items its 0).length, timeout := timeout }, ?_, ?_⟩
      · split_ifs <;> rfl
      · simp only [List.getElem?_map, hslot, Option.map_some', request_of, hfd]
    · intro hret
      by_cases hr0 : reply.ret = 0
      · simp [hr0]
      · have : ¬ reply.ret < 0 := by omega
        simp [hr0, this]

/-- A registration of an item with handle -1 and a stateless poll of it, for
C11. -/
theorem closed_handle_outcome_witness :
    (SelectSetDevPollImpl_register linuxConsts world_closed 0 true).world = world_closed ∧
    (SelectSetDevPollImpl_register linuxConsts world_closed 0 false).exn =
      (if false = true then none else some JavaException.IOException) ∧
    (∃ call, (SelectSetPollImpl_doSelect linuxConsts rt_ok (some (closed_set.map some)) 0
        reply_zero).polls = [call] ∧
      call.ufds[slot_of closed_set 0]? =
        some { fd := -1, events := table_interest linuxConsts 0x01, revents := 0 }) :=
  ⟨((closed_handle_outcome linuxConsts).1 world_closed 0 true rfl).1,
   ((closed_handle_outcome linuxConsts).1 world_closed 0 false rfl).2.2,
   ((closed_handle_outcome linuxConsts).2 rt_ok closed_set 0 reply_zero 0
      { fd := -1, events := 0x01, revents := 0 } rfl rfl rfl rfl rfl (by decide)).1⟩

/-! ## C12 -/

/-- C12: for every backend state and every handle that already has a registry
entry, registering another item on that handle leaves the whole backend,
registry included, unchanged (whether or not the write to the kernel cache
succeeds): the handle still maps to its first owner.  Over any sequence of
register calls an existing entry is never replaced, and a free slot `n` ends
up holding the first item of the sequence that is successfully registered on
handle `n`, or stays free: no handle ever has two entries. -/
theorem register_keeps_first_owner (c : SysConsts) :
    (∀ (w : DevPollWorld) (selitemobj : Nat) (write_ok : Bool) (owner : Nat),
      0 ≤ (w.heap selitemobj).fd → (w.heap selitemobj).fd < (MAX_FDS : Int) →
      w.state.selitems (w.heap selitemobj).fd.toNat = some owner →
      (SelectSetDevPollImpl_register c w selitemobj write_ok).world = w) ∧
    (∀ (calls : List (Nat × Bool)) (w : DevPollWorld) (n owner : Nat),
      w.state.selitems n = some owner →
      (register_all c calls w).state.selitems n = some owner) ∧
    (∀ (calls : List (Nat × Bool)) (w : DevPollWorld) (n : Nat),
      w.state.selitems n = none →
      (register_all c calls w).state.selitems n =
        (calls.find? (registers_at w n)).map Prod.fst) := by
  refine ⟨?_, ?_, ?_⟩
  · intro w obj write_ok owner hlo hhi hs
    have hr : ¬ ((w.heap obj).fd < 0 ∨ (w.heap obj).fd ≥ (MAX_FDS : Int)) := by omega
    unfold SelectSetDevPollImpl_register
    simp only [hs, if_neg hr]
    cases write_ok <;> simp
  · intro calls w n owner hs
    rw [register_all_selitems, hs]
  · intro calls w n hs
    rw [register_all_selitems, hs]

/-- Object 0 is registered on handle 3 and registered again; in a fresh backend
A, B and A again are registered, for C12. -/
theorem register_keeps_first_owner_witness :
    (SelectSetDevPollImpl_register linuxConsts world_one 1 true).world = world_one ∧
    (register_all linuxConsts [(1, true), (2, false), (5, true)] world_one).state.selitems 3 =
      some 0 ∧
    (register_all linuxConsts [(2, false), (1, true), (0, true), (1, true)]
        world_fresh).state.selitems 9 = some 1 :=
  ⟨(register_keeps_first_owner linuxConsts).1 world_one 1 true 0 (by decide) (by decide) rfl,
   (register_keeps_first_owner linuxConsts).2.1 [(1, true), (2, false), (5, true)] world_one 3 0
     rfl,
   ((register_keeps_first_owner linuxConsts).2.2 [(2, false), (1, true), (0, true), (1, true)]
     world_fresh 9 rfl).trans (by decide)⟩

/-! ## C13 -/

/-- C13: a deregister call whose removal record is written (the `write`
succeeds) raises nothing; afterwards the registry slot of the item's handle
`h` is empty when `h` lies in `[0, MAX_FDS)`, and the entry of every other
handle is unchanged; if `h` had no entry (its slot is empty, or `h` is outside
the table) the whole backend is unchanged; and deregistering twice gives the
same backend as deregistering once. -/
theorem deregister_removes_entry (POLLREMOVE : Nat) (w : DevPollWorld) (selitemobj : Nat) :
    (SelectSetDevPollImpl_deregister POLLREMOVE w selitemobj true).trace =
      [DevPollEvent.write_devpoll (w.heap selitemobj).fd POLLREMOVE] ∧
    (SelectSetDevPollImpl_deregister POLLREMOVE w selitemobj true).exn = none ∧
    (0 ≤ (w.heap selitemobj).fd → (w.heap selitemobj).fd < (MAX_FDS : Int) →
      (SelectSetDevPollImpl_deregister POLLREMOVE w selitemobj true).world.state.selitems
        (w.heap selitemobj).fd.toNat = none) ∧
    (∀ n : Nat, (n : Int) ≠ (w.heap selitemobj).fd →
      (SelectSetDevPollImpl_deregister POLLREMOVE w selitemobj true).world.state.selitems n =
        w.state.selitems n) ∧
    ((w.heap selitemobj).fd < 0 ∨ (w.heap selitemobj).fd ≥ (MAX_FDS : Int) ∨
        w.state.selitems (w.heap selitemobj).fd.toNat = none →
      (SelectSetDevPollImpl_deregister POLLREMOVE w selitemobj true).world = w) ∧
    (SelectSetDevPollImpl_deregister POLLREMOVE
        (SelectSetDevPollImpl_deregister POLLREMOVE w selitemobj true).world selitemobj
        true).world =
      (SelectSetDevPollImpl_deregister POLLREMOVE w selitemobj true).world := by
  have hw := deregister_world POLLREMOVE w selitemobj
  have hfix : ∀ w1 : DevPollWorld,
      ((w1.heap selitemobj).fd < 0 ∨ (w1.heap selitemobj).fd ≥ (MAX_FDS : Int) ∨
        w1.state.selitems (w1.heap selitemobj).fd.toNat = none) →
      (SelectSetDevPollImpl_deregister POLLREMOVE w1 selitemobj true).world = w1 := by
    intro w1 h
    unfold SelectSetDevPollImpl_deregister
    simp only [Bool.true_eq_false, if_false]
    by_cases hr : (w1.heap selitemobj).fd < 0 ∨ (w1.heap selitemobj).fd ≥ (MAX_FDS : Int)
    · rw [if_pos hr]
    · rw [if_neg hr]
      have hs : w1.state.selitems (w1.heap selitemobj).fd.toNat = none := by
        rcases h with h | h | h
        · exact absurd (Or.inl h) hr
        · exact absurd (Or.inr h) hr
        · exact h
      simp only [hs]
  refine ⟨?_, ?_, ?_, ?_, hfix w, ?_⟩
  · unfold SelectSetDevPollImpl_deregister
    simp only [Bool.true_eq_false, if_false]
    split_ifs
    · rfl
    · split <;> rfl
  · unfold SelectSetDevPollImpl_deregister
    simp only [Bool.true_eq_false, if_false]
    split_ifs
    · rfl
    · split <;> rfl
  · intro hlo hhi
    rw [hw.2.2]
    simp [hlo, hhi]
  · intro n hn
    rw [hw.2.2]
    have : ¬ (0 ≤ (w.heap selitemobj).fd ∧ (w.heap selitemobj).fd < (MAX_FDS : Int) ∧
        (w.heap selitemobj).fd.toNat = n) := by
      intro h; apply hn; omega
    simp [this]
  · apply hfix
    rw [hw.1]
    by_cases hr : (w.heap selitemobj).fd < 0 ∨ (w.heap selitemobj).fd ≥ (MAX_FDS : Int)
    · rcases hr with h | h
      · exact Or.inl h
      · exact Or.inr (Or.inl h)
    · right; right
      rw [hw.2.2]
      have : 0 ≤ (w.heap selitemobj).fd ∧ (w.heap selitemobj).fd < (MAX_FDS : Int) := by omega
      simp [this]

/-- Deregistering B from the backend in which A and B are registered, for
C13. -/
theorem deregister_removes_entry_witness :
    (0 : Int) ≤ (world_ab.heap 1).fd ∧ (world_ab.heap 1).fd < (MAX_FDS : Int) ∧
    world_ab.state.selitems 9 = some 1 ∧
    (SelectSetDevPollImpl_deregister 0x1000 world_ab 1 true).world.state.selitems
      (world_ab.heap 1).fd.toNat = none ∧
    (SelectSetDevPollImpl_deregister 0x1000 world_ab 1 true).world.state.selitems 5 =
      world_ab.state.selitems 5 ∧
    (SelectSetDevPollImpl_deregister 0x1000 world_fresh 1 true).world = world_fresh :=
  ⟨by decide, by decide, rfl,
   (deregister_removes_entry 0x1000 world_ab 1).2.2.1 (by decide) (by decide),
   (deregister_removes_entry 0x1000 world_ab 1).2.2.2.1 5 (by decide),
   (deregister_removes_entry 0x1000 world_fresh 1).2.2.2.2.1 (Or.inr (Or.inr rfl))⟩

/-! ## C14 -/

/-- C14 fails as stated: in the backend `world_other_slot` the item A has the
handle 5 and sits in the slot of the handle 3.  After A is registered and
immediately deregistered, the slot of its handle 5 is empty, yet a doSelect to
which the OS returns raw events for the handles 5 and 3 writes the `revents`
of A, places A in the result array and returns the count 1. -/
theorem deregistered_item_reported_from_other_slot :
    (world_other_slot.heap 0).fd = 5 ∧
    (registered_then_deregistered linuxConsts 0x1000 world_other_slot 0 true).state.selitems 5 =
      none ∧
    (SelectSetDevPollImpl_doSelect linuxConsts
      (registered_then_deregistered linuxConsts 0x1000 world_other_slot 0 true)
      (some [some 0]) 0 2 (dp_reply_of events_five_three)).trace =
      [DevPollEvent.ioctl_DP_POLL 0 2, DevPollEvent.MonitorEnter,
       DevPollEvent.SetShortField_revents 0 0x01, DevPollEvent.SetObjectArrayElement 0 0,
       DevPollEvent.MonitorExit] ∧
    (SelectSetDevPollImpl_doSelect linuxConsts
      (registered_then_deregistered linuxConsts 0x1000 world_other_slot 0 true)
      (some [some 0]) 0 2 (dp_reply_of events_five_three)).world.retitemarr =
      [some 0, none] ∧
    ((SelectSetDevPollImpl_doSelect linuxConsts
      (registered_then_deregistered linuxConsts 0x1000 world_other_slot 0 true)
      (some [some 0]) 0 2 (dp_reply_of events_five_three)).world.heap 0).revents = 0x01 ∧
    (SelectSetDevPollImpl_doSelect linuxConsts
      (registered_then_deregistered linuxConsts 0x1000 world_other_slot 0 true)
      (some [some 0]) 0 2 (dp_reply_of events_five_three)).ret = 1 := by
  decide

/-- C14 as amended: take any backend state and any item `selitemobj` with handle `h` that
is not registered under another handle, register it and immediately deregister
it (the removal record being written).  In a following cached-interest
doSelect, whatever raw events the OS returns (events for `h` included), the
item's `revents` is never written (no `SetShortField` on it, its fields are
unchanged), it is never placed in the result array (no `SetObjectArrayElement`
with it; a result slot holds it afterwards only if it did before), and the
returned count is at most the number of raw events for other handles. -/
theorem deregistered_item_is_invisible (c : SysConsts) (POLLREMOVE : Nat) (w : DevPollWorld)
    (selitemobj : Nat) (write_ok : Bool)
    (hother : ∀ n : Nat, w.state.selitems n = some selitemobj →
      (n : Int) = (w.heap selitemobj).fd)
    (itemarr : Option (List (Option Nat))) (timeout num_fds : Int) (reply : DpReply) :
    (∀ v, DevPollEvent.SetShortField_revents selitemobj v ∉
      (SelectSetDevPollImpl_doSelect c
        (registered_then_deregistered c POLLREMOVE w selitemobj write_ok)
        itemarr timeout num_fds reply).trace) ∧
    (∀ idx, DevPollEvent.SetObjectArrayElement idx selitemobj ∉
      (SelectSetDevPollImpl_doSelect c
        (registered_then_deregistered c POLLREMOVE w selitemobj write_ok)
        itemarr timeout num_fds reply).trace) ∧
    (SelectSetDevPollImpl_doSelect c
        (registered_then_deregistered c POLLREMOVE w selitemobj write_ok)
        itemarr timeout num_fds reply).world.heap selitemobj = w.heap selitemobj ∧
    (∀ idx : Nat,
      (SelectSetDevPollImpl_doSelect c
        (registered_then_deregistered c POLLREMOVE w selitemobj write_ok)
        itemarr timeout num_fds reply).world.retitemarr[idx]? = some (some selitemobj) →
      w.retitemarr[idx]? = some (some selitemobj)) ∧
    (SelectSetDevPollImpl_doSelect c
        (registered_then_deregistered c POLLREMOVE w selitemobj write_ok)
        itemarr timeout num_fds reply).ret ≤
      ((((List.range reply.ret.toNat).map reply.retevents).filter
        (fun e => decide (e.fd ≠ (w.heap selitemobj).fd))).length : Int) := by
  have hw2 := registered_then_deregistered_selitems c POLLREMOVE w selitemobj write_ok
  -- the item is in no slot of the registry that doSelect can look up
  have hfree : ∀ e : PollFd, 0 ≤ e.fd → e.fd < (MAX_FDS : Int) →
      (registered_then_deregistered c POLLREMOVE w selitemobj write_ok).state.selitems
        e.fd.toNat ≠ some selitemobj := by
    intro e hlo hhi hsel
    rw [hw2.2.2] at hsel
    by_cases hn : 0 ≤ (w.heap selitemobj).fd ∧ (w.heap selitemobj).fd < (MAX_FDS : Int) ∧
        (w.heap selitemobj).fd.toNat = e.fd.toNat
    · simp [hn] at hsel
    · simp only [hn, if_false] at hsel
      have := hother _ hsel
      apply hn
      omega
  have hgone : ∀ e : PollFd, 0 ≤ e.fd → e.fd < (MAX_FDS : Int) →
      e.fd = (w.heap selitemobj).fd →
      (registered_then_deregistered c POLLREMOVE w selitemobj write_ok).state.selitems
        e.fd.toNat = none := by
    intro e hlo hhi heq
    rw [hw2.2.2]
    have : 0 ≤ (w.heap selitemobj).fd ∧ (w.heap selitemobj).fd < (MAX_FDS : Int) ∧
        (w.heap selitemobj).fd.toNat = e.fd.toNat := by
      rw [← heq]; exact ⟨hlo, hhi, rfl⟩
    simp [this]
  rcases devpoll_doSelect_cases c
      (registered_then_deregistered c POLLREMOVE w selitemobj write_ok)
      itemarr timeout num_fds reply with hA | hB
  · obtain ⟨hworld, hret, htrace, _⟩ := hA
    refine ⟨?_, ?_, ?_, ?_, ?_⟩
    · intro v hv
      have := htrace _ hv
      cases this
    · intro idx hv
      have := htrace _ hv
      cases this
    · rw [hworld, hw2.1]
    · intro idx h
      rw [hworld, hw2.2.1] at h
      exact h
    · rw [hret]
      exact Int.ofNat_nonneg _
  · obtain ⟨_, _, hscan⟩ := hB
    rw [hscan]
    refine ⟨?_, ?_, ?_, ?_, ?_⟩
    · intro v hv
      rcases devpoll_scan_trace c _ _ _ _ _ hv with h | h | ⟨e, _, hlo, hhi, o, hsel, h | ⟨idx, h⟩⟩
      · simp at h
      · cases h
      · injection h with h1 _
        subst h1
        exact hfree e hlo hhi hsel
      · cases h
    · intro idx hv
      rcases devpoll_scan_trace c _ _ _ _ _ hv with h | h | ⟨e, _, hlo, hhi, o, hsel, h | ⟨idx2, h⟩⟩
      · simp at h
      · cases h
      · cases h
      · injection h with _ h2
        subst h2
        exact hfree e hlo hhi hsel
    · rw [devpoll_scan_heap_frame c _ selitemobj _ _ _ (fun e _ hlo hhi => hfree e hlo hhi),
        hw2.1]
    · intro idx h
      have := devpoll_scan_array_frame c _ selitemobj _ _ _
        (fun e _ hlo hhi => hfree e hlo hhi) idx h
      rwa [hw2.2.1] at this
    · have := devpoll_scan_count_le c (w.heap selitemobj).fd
        ((List.range' 0 reply.ret.toNat).map reply.retevents) 0
        (registered_then_deregistered c POLLREMOVE w selitemobj write_ok)
        [DevPollEvent.ioctl_DP_POLL timeout
          (if num_fds > (registered_then_deregistered c POLLREMOVE w selitemobj
              write_ok).state.max_retevents
            then (registered_then_deregistered c POLLREMOVE w selitemobj
              write_ok).state.max_retevents else num_fds),
         DevPollEvent.MonitorEnter]
        (fun e _ hlo hhi heq => hgone e hlo hhi heq) (le_refl _)
      rw [List.range_eq_range']
      simpa using this

/-- Channel B is registered in a fresh backend next to A and deregistered at
once; the OS still returns raw events for A and B, for C14. -/
theorem deregistered_item_is_invisible_witness :
    (∀ n : Nat, (SelectSetDevPollImpl_register linuxConsts world_fresh 0 true).world.state.selitems
        n = some 1 →
      (n : Int) = ((SelectSetDevPollImpl_register linuxConsts world_fresh 0 true).world.heap 1).fd) ∧
    (SelectSetDevPollImpl_doSelect linuxConsts
        (registered_then_deregistered linuxConsts 0x1000
          (SelectSetDevPollImpl_register linuxConsts world_fresh 0 true).world 1 true)
        (some [some 0]) 0 2 (dp_reply_of events_ab)).ret = 1 ∧
    ((SelectSetDevPollImpl_doSelect linuxConsts
        (registered_then_deregistered linuxConsts 0x1000
          (SelectSetDevPollImpl_register linuxConsts world_fresh 0 true).world 1 true)
        (some [some 0]) 0 2 (dp_reply_of events_ab)).world.heap 1 =
      (SelectSetDevPollImpl_register linuxConsts world_fresh 0 true).world.heap 1) := by
  have hother : ∀ n : Nat,
      (SelectSetDevPollImpl_register linuxConsts world_fresh 0 true).world.state.selitems
        n = some 1 →
      (n : Int) =
        ((SelectSetDevPollImpl_register linuxConsts world_fresh 0 true).world.heap 1).fd := by
    intro n hn
    have h := (register_world linuxConsts world_fresh 0 true).2.2.2.2 n
    rw [h] at hn
    split_ifs at hn
    · simp at hn
    · simp [world_fresh] at hn
  have h := deregistered_item_is_invisible linuxConsts 0x1000
    (SelectSetDevPollImpl_register linuxConsts world_fresh 0 true).world 1 true hother
    (some [some 0]) 0 2 (dp_reply_of events_ab)
  exact ⟨hother, by decide, h.2.2.1⟩

/-! ## C15 -/

/-- C15 fails as stated.  With A registered on handle 5 and B on handle 9 and
the OS reporting both, a result array of one slot yields count 1 and the
result `[A]` although B's handle has a registry entry (B's `revents` is written
all the same); and when a raw event for a handle not below `MAX_FDS` follows
the events of A and B, doSelect returns 0 with
`ArrayIndexOutOfBoundsException` pending although A and B fill the first two
result slots. -/
theorem result_list_not_always_all_owners :
    (registered_events world_ab_one_slot.state events_ab).map Prod.fst = [0, 1] ∧
    (SelectSetDevPollImpl_doSelect linuxConsts world_ab_one_slot (some [some 0, some 1]) 0 2
      (dp_reply_of events_ab)).ret = 1 ∧
    (SelectSetDevPollImpl_doSelect linuxConsts world_ab_one_slot (some [some 0, some 1]) 0 2
      (dp_reply_of events_ab)).world.retitemarr = [some 0] ∧
    ((SelectSetDevPollImpl_doSelect linuxConsts world_ab_one_slot (some [some 0, some 1]) 0 2
      (dp_reply_of events_ab)).world.heap 1).revents = 0x02 ∧
    (SelectSetDevPollImpl_doSelect linuxConsts world_ab (some [some 0, some 1]) 0 3
      (dp_reply_of (events_ab ++ [event_high]))).ret = 0 ∧
    (SelectSetDevPollImpl_doSelect linuxConsts world_ab (some [some 0, some 1]) 0 3
      (dp_reply_of (events_ab ++ [event_high]))).exn =
        some JavaException.ArrayIndexOutOfBoundsException ∧
    (SelectSetDevPollImpl_doSelect linuxConsts world_ab (some [some 0, some 1]) 0 3
      (dp_reply_of (events_ab ++ [event_high]))).world.retitemarr = [some 0, some 1] := by
  decide

/-- C15 as amended: for every list of raw events returned by the OS whose
handles all lie in `[0, MAX_FDS)` and of which at most as many as the result
array has slots have a registry entry, the cached-interest doSelect returns
the number `count` of raw events whose handle has a registry entry, with no
exception; the first `count` slots of the result array are the registered
owners of exactly these raw events, in the order of the raw events, and the
other slots are unchanged; the `revents` of each of these owners is written
with the table mask of its raw event, and is that mask afterwards when the
owners are pairwise different. -/
theorem results_follow_raw_events (c : SysConsts) (w : DevPollWorld)
    (items : List (Option Nat)) (timeout num_fds : Int) (evs : List PollFd)
    (hitems : items ≠ []) (hslots : w.retitemarr ≠ []) (hrange : handles_in_range evs)
    (hcap : (registered_events w.state evs).length ≤ w.retitemarr.length) :
    (SelectSetDevPollImpl_doSelect c w (some items) timeout num_fds (dp_reply_of evs)).ret =
      ((registered_events w.state evs).length : Int) ∧
    (SelectSetDevPollImpl_doSelect c w (some items) timeout num_fds (dp_reply_of evs)).exn =
      none ∧
    (SelectSetDevPollImpl_doSelect c w (some items) timeout num_fds
        (dp_reply_of evs)).world.retitemarr.take (registered_events w.state evs).length =
      (registered_events w.state evs).map (fun h => some h.1) ∧
    (SelectSetDevPollImpl_doSelect c w (some items) timeout num_fds
        (dp_reply_of evs)).world.retitemarr.drop (registered_events w.state evs).length =
      w.retitemarr.drop (registered_events w.state evs).length ∧
    (∀ h ∈ registered_events w.state evs,
      DevPollEvent.SetShortField_revents h.1 (table_mask c h.2.revents) ∈
        (SelectSetDevPollImpl_doSelect c w (some items) timeout num_fds
          (dp_reply_of evs)).trace) ∧
    (((registered_events w.state evs).map Prod.fst).Nodup →
      ∀ h ∈ registered_events w.state evs,
        (SelectSetDevPollImpl_doSelect c w (some items) timeout num_fds
          (dp_reply_of evs)).world.heap h.1 =
          { (w.heap h.1) with revents := table_mask c h.2.revents }) := by
  rw [devpoll_doSelect_events c w items timeout num_fds evs hitems hslots]
  by_cases he : evs = []
  · subst he
    simp [registered_events]
  · rw [if_neg he]
    have hres := devpoll_scan_results c evs 0 w
      [DevPollEvent.ioctl_DP_POLL timeout
        (if num_fds > w.state.max_retevents then w.state.max_retevents else num_fds),
       DevPollEvent.MonitorEnter] hrange (by simpa using hcap)
    simp only [Nat.zero_add, List.take_zero, List.nil_append, Nat.cast_zero] at hres
    refine ⟨hres.1, devpoll_scan_exn c evs _ _ _ hrange, ?_, ?_, ?_, ?_⟩
    · rw [hres.2]
      exact List.take_left' (by simp)
    · rw [hres.2]
      exact List.drop_left' (by simp)
    · intro h hh
      unfold registered_events at hh
      simp only [List.mem_filterMap, Option.map_eq_some'] at hh
      obtain ⟨e, he2, o, ho, rfl⟩ := hh
      rw [← realevents_of_revents_eq]
      exact devpoll_scan_writes_owner c evs _ _ _ hrange e he2 o ho
    · intro hnd h hh
      rw [← realevents_of_revents_eq]
      exact devpoll_scan_heap_owner c evs _ _ _ hrange hnd h hh

/-- The example scenario: A registered on handle 5 for READ_READY, B on handle 9
for WRITE_READY, the OS reporting handle 5 readable and handle 9 writable;
the result is exactly (A, 0x01), (B, 0x02) with count 2, for C15. -/
theorem results_follow_raw_events_witness :
    handles_in_range events_ab ∧
    registered_events world_ab.state events_ab =
      [(0, { fd := 5, events := 0x003, revents := 0x001 }),
       (1, { fd := 9, events := 0x004, revents := 0x004 })] ∧
    (SelectSetDevPollImpl_doSelect linuxConsts world_ab (some [some 0, some 1]) 0 2
      (dp_reply_of events_ab)).ret = 2 ∧
    (SelectSetDevPollImpl_doSelect linuxConsts world_ab (some [some 0, some 1]) 0 2
      (dp_reply_of events_ab)).world.retitemarr.take 2 = [some 0, some 1] ∧
    (SelectSetDevPollImpl_doSelect linuxConsts world_ab (some [some 0, some 1]) 0 2
      (dp_reply_of events_ab)).world.heap 0 = { fd := 5, events := 0x01, revents := 0x01 } ∧
    (SelectSetDevPollImpl_doSelect linuxConsts world_ab (some [some 0, some 1]) 0 2
      (dp_reply_of events_ab)).world.heap 1 = { fd := 9, events := 0x02, revents := 0x02 } := by
  have hr : handles_in_range events_ab := by
    unfold handles_in_range; decide
  have hreg : registered_events world_ab.state events_ab =
      [(0, { fd := 5, events := 0x003, revents := 0x001 }),
       (1, { fd := 9, events := 0x004, revents := 0x004 })] := by decide
  have h := results_follow_raw_events linuxConsts world_ab [some 0, some 1] 0 2 events_ab
    (by decide) (by decide) hr (by decide)
  rw [hreg] at h
  refine ⟨hr, hreg, h.1, h.2.2.1, ?_, ?_⟩
  · exact (h.2.2.2.2.2 (by decide) _ (List.mem_cons_self _ _)).trans (by decide)
  · exact (h.2.2.2.2.2 (by decide) _ (List.mem_cons_of_mem _ (List.mem_cons_self _ _))).trans
      (by decide)

/-! ## C16 -/

/-- C16 fails as stated: a raw event for the handle 40000, which has no registry
entry, makes doSelect return 0 with `ArrayIndexOutOfBoundsException` pending and
the event of the registered channel A behind it is not reported, whereas
without that raw event A is reported with count 1. -/
theorem unregistered_high_handle_aborts_batch :
    world_ab.state.selitems event_high.fd.toNat = none ∧
    (SelectSetDevPollImpl_doSelect linuxConsts world_ab (some [some 0, some 1]) 0 2
      (dp_reply_of (event_high :: events_ab))).ret = 0 ∧
    (SelectSetDevPollImpl_doSelect linuxConsts world_ab (some [some 0, some 1]) 0 2
      (dp_reply_of (event_high :: events_ab))).exn =
        some JavaException.ArrayIndexOutOfBoundsException ∧
    (SelectSetDevPollImpl_doSelect linuxConsts world_ab (some [some 0, some 1]) 0 2
      (dp_reply_of (event_high :: events_ab))).world.retitemarr = [none, none] ∧
    (SelectSetDevPollImpl_doSelect linuxConsts world_ab (some [some 0, some 1]) 0 2
      (dp_reply_of events_ab)).ret = 2 ∧
    (SelectSetDevPollImpl_doSelect linuxConsts world_ab (some [some 0, some 1]) 0 2
      (dp_reply_of events_ab)).exn = none := by
  decide

/-- C16 as amended: for every raw event whose handle lies in `[0, MAX_FDS)` and
has no registry entry, the cached-interest doSelect raises no error for it and
drops only that event: its return value, its pending exception and its results
(objects and result array) are those of the same call without that raw event,
so the events of the other handles of the batch are still reported.  A raw
event whose handle lies outside `[0, MAX_FDS)` makes doSelect return 0 with
`ArrayIndexOutOfBoundsException` pending. -/
theorem stale_event_is_dropped (c : SysConsts) (w : DevPollWorld) (items : List (Option Nat))
    (timeout num_fds : Int) (pre post : List PollFd) (e : PollFd)
    (hitems : items ≠ []) (hslots : w.retitemarr ≠ []) :
    (0 ≤ e.fd → e.fd < (MAX_FDS : Int) → w.state.selitems e.fd.toNat = none →
      (SelectSetDevPollImpl_doSelect c w (some items) timeout num_fds
          (dp_reply_of (pre ++ e :: post))).ret =
        (SelectSetDevPollImpl_doSelect c w (some items) timeout num_fds
          (dp_reply_of (pre ++ post))).ret ∧
      (SelectSetDevPollImpl_doSelect c w (some items) timeout num_fds
          (dp_reply_of (pre ++ e :: post))).exn =
        (SelectSetDevPollImpl_doSelect c w (some items) timeout num_fds
          (dp_reply_of (pre ++ post))).exn ∧
      (SelectSetDevPollImpl_doSelect c w (some items) timeout num_fds
          (dp_reply_of (pre ++ e :: post))).world =
        (SelectSetDevPollImpl_doSelect c w (some items) timeout num_fds
          (dp_reply_of (pre ++ post))).world) ∧
    (e.fd < 0 ∨ e.fd ≥ (MAX_FDS : Int) →
      (SelectSetDevPollImpl_doSelect c w (some items) timeout num_fds
          (dp_reply_of (pre ++ e :: post))).ret = 0 ∧
      (SelectSetDevPollImpl_doSelect c w (some items) timeout num_fds
          (dp_reply_of (pre ++ e :: post))).exn =
        some JavaException.ArrayIndexOutOfBoundsException) := by
  have hne : pre ++ e :: post ≠ [] := by simp
  rw [devpoll_doSelect_events c w items timeout num_fds (pre ++ e :: post) hitems hslots,
    if_neg hne]
  constructor
  · intro hlo hhi hnone
    rw [devpoll_scan_skip c e post hlo hhi pre 0 w _ hnone,
      devpoll_doSelect_events c w items timeout num_fds (pre ++ post) hitems hslots]
    by_cases h0 : pre ++ post = []
    · rw [if_pos h0, h0]
      exact ⟨rfl, rfl, rfl⟩
    · rw [if_neg h0]
      exact ⟨rfl, rfl, rfl⟩
  · intro hout
    exact devpoll_scan_out_of_range c _ _ _ _ ⟨e, by simp, hout⟩

/-- A stale raw event for handle 12 between the events of A and B, and a raw
event for handle 40000, for C16. -/
theorem stale_event_is_dropped_witness :
    (0 : Int) ≤ event_stale.fd ∧ event_stale.fd < (MAX_FDS : Int) ∧
    world_ab.state.selitems event_stale.fd.toNat = none ∧
    (SelectSetDevPollImpl_doSelect linuxConsts world_ab (some [some 0, some 1]) 0 3
      (dp_reply_of ([{ fd := 5, events := 0x003, revents := 0x001 }] ++ event_stale ::
        [{ fd := 9, events := 0x004, revents := 0x004 }]))).ret = 2 ∧
    (SelectSetDevPollImpl_doSelect linuxConsts world_ab (some [some 0, some 1]) 0 3
      (dp_reply_of ([] ++ event_high :: events_ab))).ret = 0 := by
  have h := stale_event_is_dropped linuxConsts world_ab [some 0, some 1] 0 3
    [{ fd := 5, events := 0x003, revents := 0x001 }]
    [{ fd := 9, events := 0x004, revents := 0x004 }] event_stale (by decide) (by decide)
  have h2 := stale_event_is_dropped linuxConsts world_ab [some 0, some 1] 0 3
    [] events_ab event_high (by decide) (by decide)
  exact ⟨by decide, by decide, by decide,
    ((h.1 (by decide) (by decide) (by decide)).1).trans (by decide),
    (h2.2 (Or.inr (by decide))).1⟩

/-! ## C17 -/

/-- C17: for every handle value, negative values and values `>= MAX_FDS`
included, register, deregister and the cached-interest doSelect, run with the
table as the array `selitems[MAX_FDS]` whose accesses outside `[0, MAX_FDS)`
have no result, always have a result, namely the outcome of the native method:
every read and every store of the table is at an index in `[0, MAX_FDS)`,
because it comes after the range test on the handle.  Register and deregister
leave the whole backend unchanged when the handle is out of range, and
doSelect never changes the table. -/
theorem table_accesses_in_range (c : SysConsts) (POLLREMOVE : Nat) :
    (∀ (w : DevPollWorld) (selitemobj : Nat) (write_ok : Bool),
      SelectSetDevPollImpl_register_array c w selitemobj write_ok =
        some (SelectSetDevPollImpl_register c w selitemobj write_ok) ∧
      ((w.heap selitemobj).fd < 0 ∨ (w.heap selitemobj).fd ≥ (MAX_FDS : Int) →
        (SelectSetDevPollImpl_register c w selitemobj write_ok).world = w)) ∧
    (∀ (w : DevPollWorld) (selitemobj : Nat) (write_ok : Bool),
      SelectSetDevPollImpl_deregister_array POLLREMOVE w selitemobj write_ok =
        some (SelectSetDevPollImpl_deregister POLLREMOVE w selitemobj write_ok) ∧
      ((w.heap selitemobj).fd < 0 ∨ (w.heap selitemobj).fd ≥ (MAX_FDS : Int) →
        (SelectSetDevPollImpl_deregister POLLREMOVE w selitemobj write_ok).world = w)) ∧
    (∀ (w : DevPollWorld) (itemarr : Option (List (Option Nat))) (timeout num_fds : Int)
        (reply : DpReply),
      SelectSetDevPollImpl_doSelect_array c w itemarr timeout num_fds reply =
        some (SelectSetDevPollImpl_doSelect c w itemarr timeout num_fds reply) ∧
      (SelectSetDevPollImpl_doSelect c w itemarr timeout num_fds reply).world.state =
        w.state) := by
  refine ⟨?_, ?_, ?_⟩
  · intro w obj write_ok
    unfold SelectSetDevPollImpl_register_array SelectSetDevPollImpl_register
    simp only
    by_cases hw : write_ok = false
    · simp [hw]
    · by_cases hr : (w.heap obj).fd < 0 ∨ (w.heap obj).fd ≥ (MAX_FDS : Int)
      · simp only [if_neg hw, if_pos hr]
        simp
      · simp only [if_neg hw, if_neg hr]
        rw [selitems_read_in_range _ _ hr]
        refine ⟨?_, fun h => absurd h hr⟩
        cases hs : w.state.selitems (w.heap obj).fd.toNat with
        | none => simp only; rw [selitems_write_in_range _ _ _ hr]
        | some o => rfl
  · intro w obj write_ok
    unfold SelectSetDevPollImpl_deregister_array SelectSetDevPollImpl_deregister
    simp only
    by_cases hw : write_ok = false
    · simp [hw]
    · by_cases hr : (w.heap obj).fd < 0 ∨ (w.heap obj).fd ≥ (MAX_FDS : Int)
      · simp only [if_neg hw, if_pos hr]
        simp
      · simp only [if_neg hw, if_neg hr]
        rw [selitems_read_in_range _ _ hr]
        refine ⟨?_, fun h => absurd h hr⟩
        cases hs : w.state.selitems (w.heap obj).fd.toNat with
        | some o => simp only; rw [selitems_write_in_range _ _ _ hr]
        | none => rfl
  · intro w itemarr timeout num_fds reply
    constructor
    · unfold SelectSetDevPollImpl_doSelect_array SelectSetDevPollImpl_doSelect
      cases itemarr with
      | none => rfl
      | some items =>
        simp only
        by_cases h1 : (items.length : Int) ≤ 0
        · rw [if_pos h1, if_pos h1]
        · rw [if_neg h1, if_neg h1]
          by_cases h2 : (w.retitemarr.length : Int) ≤ 0
          · rw [if_pos h2, if_pos h2]
          · rw [if_neg h2, if_neg h2]
            by_cases h3 : reply.ret = 0
            · rw [if_pos h3, if_pos h3]
            · rw [if_neg h3, if_neg h3]
              by_cases h4 : reply.ret < 0
              · rw [if_pos h4, if_pos h4]
                by_cases h5 : reply.errno ≠ c.EINTR
                · rw [if_pos h5, if_pos h5]
                · rw [if_neg h5, if_neg h5]
              · rw [if_neg h4, if_neg h4]
                exact devpoll_loop_array_eq _ _ _ _ _ _ _
    · rcases devpoll_doSelect_cases c w itemarr timeout num_fds reply with hA | hB
      · rw [hA.1]
      · rw [hB.2.2, devpoll_scan_state]

/-- Registering on the handle -1, which touches neither table nor backend, and
a batch whose second raw event has the handle 40000, whose read of the table
is never made, for C17. -/
theorem table_accesses_in_range_witness :
    ((world_closed.heap 0).fd < 0 ∨ (world_closed.heap 0).fd ≥ (MAX_FDS : Int)) ∧
    (SelectSetDevPollImpl_register linuxConsts world_closed 0 true).world = world_closed ∧
    SelectSetDevPollImpl_register_array linuxConsts world_closed 0 true =
      some (SelectSetDevPollImpl_register linuxConsts world_closed 0 true) ∧
    SelectSetDevPollImpl_doSelect_array linuxConsts world_ab (some [some 0]) 0 3
      (dp_reply_of [{ fd := 5, events := 0x003, revents := 0x001 }, event_high,
        { fd := 9, events := 0x004, revents := 0x004 }]) =
      some (SelectSetDevPollImpl_doSelect linuxConsts world_ab (some [some 0]) 0 3
        (dp_reply_of [{ fd := 5, events := 0x003, revents := 0x001 }, event_high,
          { fd := 9, events := 0x004, revents := 0x004 }])) ∧
    selitems_read world_ab.state.selitems event_high.fd = none :=
  ⟨by decide,
    ((table_accesses_in_range linuxConsts 0x1000).1 world_closed 0 true).2 (by decide),
    ((table_accesses_in_range linuxConsts 0x1000).1 world_closed 0 true).1,
    ((table_accesses_in_range linuxConsts 0x1000).2.2 world_ab (some [some 0]) 0 3
      (dp_reply_of [{ fd := 5, events := 0x003, revents := 0x001 }, event_high,
        { fd := 9, events := 0x004, revents := 0x004 }])).1,
    by decide⟩

/-! ## C18 -/

/-- C18 fails as stated: for a result array of capacity 1 and the batch holding
one raw event for the handle 40000, doSelect returns with
`ArrayIndexOutOfBoundsException` pending. -/
theorem high_handle_leaves_exception_pending :
    world_one.retitemarr.length = 1 ∧
    (SelectSetDevPollImpl_doSelect linuxConsts world_one (some [some 0]) 0 1
      (dp_reply_of [event_high])).exn = some JavaException.ArrayIndexOutOfBoundsException := by
  decide

/-- C18 as amended: for every batch of raw events and every result array of
capacity `c > 0`, the cached-interest doSelect leaves the result array at its
length (it stores no owner at an index `>= c`) and returns a count between 0
and `c`; when every raw handle lies in `[0, MAX_FDS)` it returns without a
pending exception, also when more than `c` raw events have a registry entry. -/
theorem result_array_capacity_respected (c : SysConsts) (w : DevPollWorld)
    (items : List (Option Nat)) (timeout num_fds : Int) (evs : List PollFd)
    (hitems : items ≠ []) (hslots : w.retitemarr ≠ []) :
    (SelectSetDevPollImpl_doSelect c w (some items) timeout num_fds
        (dp_reply_of evs)).world.retitemarr.length = w.retitemarr.length ∧
    0 ≤ (SelectSetDevPollImpl_doSelect c w (some items) timeout num_fds (dp_reply_of evs)).ret ∧
    (SelectSetDevPollImpl_doSelect c w (some items) timeout num_fds (dp_reply_of evs)).ret ≤
      (w.retitemarr.length : Int) ∧
    (handles_in_range evs →
      (SelectSetDevPollImpl_doSelect c w (some items) timeout num_fds (dp_reply_of evs)).exn =
        none) := by
  rw [devpoll_doSelect_events c w items timeout num_fds evs hitems hslots]
  by_cases he : evs = []
  · rw [if_pos he]
    exact ⟨rfl, le_refl _, Int.ofNat_nonneg _, fun _ => rfl⟩
  · rw [if_neg he]
    have hb := devpoll_scan_bounds c evs 0 w
      [DevPollEvent.ioctl_DP_POLL timeout
        (if num_fds > w.state.max_retevents then w.state.max_retevents else num_fds),
       DevPollEvent.MonitorEnter] (le_refl _) (Int.ofNat_nonneg _)
    exact ⟨hb.2.2, hb.1, hb.2.1, fun hr => devpoll_scan_exn c evs _ _ _ hr⟩

/-- Two registered raw events against a result array of one slot, for C18. -/
theorem result_array_capacity_respected_witness :
    world_ab_one_slot.retitemarr.length = 1 ∧
    (registered_events world_ab_one_slot.state events_ab).length = 2 ∧
    handles_in_range events_ab ∧
    (SelectSetDevPollImpl_doSelect linuxConsts world_ab_one_slot (some [some 0, some 1]) 0 2
      (dp_reply_of events_ab)).exn = none ∧
    (SelectSetDevPollImpl_doSelect linuxConsts world_ab_one_slot (some [some 0, some 1]) 0 2
      (dp_reply_of events_ab)).ret ≤ ((1 : Nat) : Int) := by
  have hr : handles_in_range events_ab := by
    unfold handles_in_range; decide
  have h := result_array_capacity_respected linuxConsts world_ab_one_slot [some 0, some 1] 0 2
    events_ab (by decide) (by decide)
  exact ⟨rfl, by decide, hr, h.2.2.2 hr, h.2.2.1⟩

/-! ## C19 -/

/-- C19 fails where `size_t` has 32 bits and `struct pollfd` 8 bytes: with
`max_retevents = 2 ^ 29 + 1` the byte size `max_retevents * sizeof(struct
pollfd)` that `init` passes to `malloc` wraps to 8, so `init` succeeds with a
scratch buffer of one slot, and the cached-interest doSelect called with
`num_fds = 100` asks the kernel for `dp_nfds = min(100, 2 ^ 29 + 1) = 100`
events. -/
theorem dp_nfds_exceeds_wrapped_buffer :
    (SelectSetDevPollImpl_init ⟨32, 8⟩ init_ok 536870913).exn = none ∧
    (SelectSetDevPollImpl_init ⟨32, 8⟩ init_ok 536870913).state = some world_wrapped.state ∧
    (SelectSetDevPollImpl_init ⟨32, 8⟩ init_ok 536870913).retevents_slots = some 1 ∧
    (SelectSetDevPollImpl_doSelect linuxConsts world_wrapped (some [some 0]) 0 100
      dp_reply_zero).trace = [DevPollEvent.ioctl_DP_POLL 0 100] ∧
    min (100 : Int) world_wrapped.state.max_retevents = 100 :=
  ⟨by decide, rfl, by decide, by decide, by decide⟩

/-! ## C20 -/


/-- C21 does not hold of the code: `init` stores the state block in the
`native_state` field before it opens `/dev/poll`, and on both failures it
raises the exception (`IOException` when the open fails, `OutOfMemoryError`
when the scratch buffer cannot be allocated), releases the block with `free`
and returns with the field still set, so the field refers to a released
state afterwards. -/
theorem init_failure_leaves_released_state_in_field :
    (SelectSetDevPollImpl_init ⟨64, 8⟩ init_open_fails 16).exn =
      some JavaException.IOException ∧
    (SelectSetDevPollImpl_init ⟨64, 8⟩ init_open_fails 16).native_state_set = true ∧
    (SelectSetDevPollImpl_init ⟨64, 8⟩ init_open_fails 16).state_freed = true ∧
    (SelectSetDevPollImpl_init ⟨64, 8⟩ init_scratch_fails 16).exn =
      some JavaException.OutOfMemoryError ∧
    (SelectSetDevPollImpl_init ⟨64, 8⟩ init_scratch_fails 16).native_state_set = true ∧
    (SelectSetDevPollImpl_init ⟨64, 8⟩ init_scratch_fails 16).state_freed = true := by
  refine ⟨?_, ?_, ?_, ?_, ?_, ?_⟩ <;> decide

/-! ## C22 -/

/-- C22: the native `register` and `deregister` enter no monitor themselves, on
any input; they run in a thread that owns the monitor of the select-set object,
the lock `doSelect` holds while it translates raw events, this being what the
spec requires of their Java callers (`caller_owns_monitor`).  So in every
interleaving of the threads, from every state, a step taken while the thread
of doSelect owns the monitor (between its `MonitorEnter` and its
`MonitorExit`) leaves the registry as it is. -/
theorem registry_stable_while_selecting (c : SysConsts) (POLLREMOVE : Nat) (selector : Nat) :
    (∀ (w : DevPollWorld) (selitemobj : Nat) (write_ok : Bool),
      DevPollEvent.MonitorEnter ∉
        (SelectSetDevPollImpl_register c w selitemobj write_ok).trace ∧
      DevPollEvent.MonitorEnter ∉
        (SelectSetDevPollImpl_deregister POLLREMOVE w selitemobj write_ok).trace) ∧
    (∀ (s s1 : SelectSetSystem) (t : Nat) (selitemobj : Nat) (write_ok : Bool),
      (system_step c POLLREMOVE selector s t (ThreadAction.register selitemobj write_ok) =
          some s1 ∨
        system_step c POLLREMOVE selector s t (ThreadAction.deregister selitemobj write_ok) =
          some s1) →
      s.monitor = some t ∧ s1.monitor = some t) ∧
    ∀ (run : List (Nat × ThreadAction)) (s0 : SelectSetSystem) (states : List SelectSetSystem),
      system_run c POLLREMOVE selector s0 run = some states →
      ∀ (i : Nat) (s s1 : SelectSetSystem),
        states[i]? = some s → states[i + 1]? = some s1 → s.monitor = some selector →
        s1.world.state.selitems = s.world.state.selitems := by
  refine ⟨?_, ?_, ?_⟩
  · intro w obj ok
    have h := register_deregister_trace c POLLREMOVE w obj ok
    rw [h.1, h.2]
    simp
  · intro s s1 t obj ok hstep
    simp only [system_step] at hstep
    by_cases h : t ≠ selector ∧ caller_owns_monitor s t = true
    · rw [if_pos h, if_pos h] at hstep
      have h2 : s.monitor = some t := by simpa [caller_owns_monitor] using h.2
      rcases hstep with hstep | hstep
      · rw [← Option.some.inj hstep]; exact ⟨h2, h2⟩
      · rw [← Option.some.inj hstep]; exact ⟨h2, h2⟩
    · rw [if_neg h, if_neg h] at hstep
      rcases hstep with hstep | hstep <;> cases hstep
  · intro run
    induction run with
    | nil =>
      intro s0 states hrun i s s1 hi hi1 _
      simp only [system_run] at hrun
      rw [← Option.some.inj hrun] at hi1
      simp at hi1
    | cons x rest ih =>
      intro s0 states hrun i s s1 hi hi1 hmon
      obtain ⟨t, a⟩ := x
      obtain ⟨s2, tail, hstep, htail, hst, hhead⟩ :=
        system_run_cons c POLLREMOVE selector s0 t a rest states hrun
      subst hst
      cases i with
      | zero =>
        simp only [List.getElem?_cons_zero] at hi
        have hs0 : s0 = s := Option.some.inj hi
        subst hs0
        simp only [List.getElem?_cons_succ] at hi1
        have : s2 = s1 := by
          cases tail with
          | nil => simp at hhead
          | cons y ys =>
            simp only [List.head?_cons] at hhead
            simp only [List.getElem?_cons_zero] at hi1
            rw [← Option.some.inj hhead, ← Option.some.inj hi1]
        subst this
        exact system_step_registry c POLLREMOVE selector s0 s2 t a hstep hmon
      | succ j =>
        simp only [List.getElem?_cons_succ] at hi hi1
        exact ih s2 tail htail j s s1 hi hi1 hmon

/-- The theorem `registry_stable_while_selecting` on an interleaving in which
thread 1 registers A and B, thread 0 translates two raw events and thread 1
deregisters A, each owning the monitor meanwhile: the steps taken while
thread 0 owns the monitor (states 5 and 6) leave the registry as it is; a
register by thread 1 while thread 0 owns the monitor is not a step, for C22. -/
theorem registry_stable_while_selecting_witness :
    (system_run linuxConsts 0x1000 0 system_fresh run_synchronized).map
        (fun states => states.map (fun s => (s.monitor, s.world.state.selitems 5))) =
      some [(none, none), (some 1, none), (some 1, some 0), (some 1, some 0), (none, some 0),
        (some 0, some 0), (some 0, some 0), (some 0, some 0), (none, some 0),
        (some 1, some 0), (some 1, none), (none, none)] ∧
    (system_step linuxConsts 0x1000 0 { system_fresh with monitor := some 0 } 1
      (ThreadAction.register 0 true)).isNone = true ∧
    ∀ (i : Nat) (s s1 : SelectSetSystem),
      ((system_run linuxConsts 0x1000 0 system_fresh run_synchronized).getD [])[i]? =
        some s →
      ((system_run linuxConsts 0x1000 0 system_fresh run_synchronized).getD [])[i + 1]? =
        some s1 →
      s.monitor = some 0 → s1.world.state.selitems = s.world.state.selitems :=
  ⟨by decide, by decide,
   (registry_stable_while_selecting linuxConsts 0x1000 0).2.2 run_synchronized system_fresh
     ((system_run linuxConsts 0x1000 0 system_fresh run_synchronized).getD []) rfl⟩

/-! ## C23 -/


/-- C23: the step sequence of every cached-interest doSelect, which leaves the
effects recorded in the outcome when the registry reads are dropped, has one of
three forms. It is empty (return before the OS call), or it is the `ioctl`
alone (the OS returned nothing, an error or an interruption: the monitor is
never entered), or it is the `ioctl`, then `MonitorEnter`, then registry reads
and result writes only, then one `MonitorExit` as the last step before the
return. So the OS call is over before the monitor is entered, every lookup and
result write lies between `MonitorEnter` and `MonitorExit`, and every return
path behind `MonitorEnter` leaves the monitor exactly once. -/
theorem monitor_held_only_for_translation (c : SysConsts) (w : DevPollWorld)
    (itemarr : Option (List (Option Nat))) (timeout num_fds : Int) (reply : DpReply) :
    (SelectSetDevPollImpl_doSelect c w itemarr timeout num_fds reply).trace =
      (SelectSetDevPollImpl_doSelect_steps c w itemarr timeout num_fds reply).filterMap
        DoSelectStep.effect ∧
    (SelectSetDevPollImpl_doSelect_steps c w itemarr timeout num_fds reply = [] ∨
     SelectSetDevPollImpl_doSelect_steps c w itemarr timeout num_fds reply =
       [DoSelectStep.ioctl_DP_POLL timeout
         (if num_fds > w.state.max_retevents then w.state.max_retevents else num_fds)] ∨
     ∃ body,
       SelectSetDevPollImpl_doSelect_steps c w itemarr timeout num_fds reply =
         DoSelectStep.ioctl_DP_POLL timeout
           (if num_fds > w.state.max_retevents then w.state.max_retevents else num_fds) ::
         DoSelectStep.MonitorEnter :: (body ++ [DoSelectStep.MonitorExit]) ∧
       ∀ s ∈ body, s.translates = true) := by
  unfold SelectSetDevPollImpl_doSelect SelectSetDevPollImpl_doSelect_steps
  cases itemarr with
  | none => exact ⟨rfl, Or.inl rfl⟩
  | some items =>
    simp only
    by_cases h1 : (items.length : Int) ≤ 0
    · rw [if_pos h1, if_pos h1]; exact ⟨rfl, Or.inl rfl⟩
    · rw [if_neg h1, if_neg h1]
      by_cases h2 : (w.retitemarr.length : Int) ≤ 0
      · rw [if_pos h2, if_pos h2]; exact ⟨rfl, Or.inl rfl⟩
      · rw [if_neg h2, if_neg h2]
        by_cases h3 : reply.ret = 0
        · rw [if_pos h3, if_pos h3]; exact ⟨rfl, Or.inr (Or.inl rfl)⟩
        · rw [if_neg h3, if_neg h3]
          by_cases h4 : reply.ret < 0
          · rw [if_pos h4, if_pos h4]
            refine ⟨?_, Or.inr (Or.inl rfl)⟩
            split_ifs <;> rfl
          · rw [if_neg h4, if_neg h4]
            obtain ⟨body, hb, ht⟩ := devpoll_loop_steps_shape c reply.retevents reply.ret.toNat
              0 0 w
            refine ⟨?_, Or.inr (Or.inr ⟨body, by rw [hb], ht⟩)⟩
            rw [devpoll_loop_steps_effects]
            simp [DoSelectStep.effect]

/-! ## C24 -/


/-- C24: for every finite sequence of `btree_insert` calls with pairwise
distinct keys on the empty tree `btree_newnode`, all the calls return (no
access outside an array, no null pointer followed) and on the resulting tree
`btree_search` returns, for each inserted key, the data inserted with it, and
NULL for every key that was not inserted. The descent into `children[i]` of
`btree_search` is therefore the right one. -/
theorem btree_search_after_inserts (kvs : List (Int × Option Nat))
    (hdistinct : (kvs.map Prod.fst).Nodup) :
    ∃ tree, btree_insert_seq btree_newnode kvs = some tree ∧
      (∀ key data, (key, data) ∈ kvs → btree_search tree key = some data) ∧
      (∀ key, key ∉ kvs.map Prod.fst → btree_search tree key = some none) := by
  obtain ⟨hwf0, hc0⟩ := btree_newnode_wf
  obtain ⟨h1, t1, hseq, hwf1, hc1⟩ := btree_insert_seq_ok kvs 0 btree_newnode hwf0 hdistinct
    (fun kv _ d => hc0 (kv.1, d))
  refine ⟨t1, hseq, ?_, ?_⟩
  · intro key data hmem
    exact (btree_search_correct h1 0 none none t1 hwf1 key).1 data
      ((hc1 (key, data)).2 (Or.inl hmem))
  · intro key hkey
    apply (btree_search_correct h1 0 none none t1 hwf1 key).2
    intro d hd
    rcases (hc1 (key, d)).1 hd with h0 | h0
    · exact hkey (List.mem_map_of_mem Prod.fst h0)
    · exact hc0 _ h0

/-- The theorem `btree_search_after_inserts` at the seven insertions
`inserts_seven`: the key 4 is found with its data 14, the key 7 with 17, and
the key 9, never inserted, gives NULL, for C24. -/
theorem btree_search_after_inserts_witness :
    (inserts_seven.map Prod.fst).Nodup ∧
    ∃ tree, btree_insert_seq btree_newnode inserts_seven = some tree ∧
      btree_search tree 4 = some (some 14) ∧ btree_search tree 7 = some (some 17) ∧
      btree_search tree 9 = some none := by
  obtain ⟨tree, h1, h2, h3⟩ := btree_search_after_inserts inserts_seven (by decide)
  exact ⟨by decide, tree, h1, h2 4 (some 14) (by decide), h2 7 (some 17) (by decide),
    h3 9 (by decide)⟩

/-! ## C25 -/


/-- C25: translating a portable mask `m` to OS interest bits and translating
those bits back as a `revents` report gives `m & 0x03`, so `READ_READY` and
`WRITE_READY` survive the round trip and `SELECT_ERROR` is never produced.
The header values are taken as the bit flags they are: `POLLIN|POLLPRI` and
`POLLOUT` are nonzero, share no bit with each other and none with
`POLLERR|POLLHUP|POLLNVAL`. -/
theorem interest_round_trip (c : SysConsts) (m : Nat)
    (hin : c.POLLIN ||| c.POLLPRI ≠ 0) (hout : c.POLLOUT ≠ 0)
    (hio : (c.POLLIN ||| c.POLLPRI) &&& c.POLLOUT = 0)
    (hie : (c.POLLIN ||| c.POLLPRI) &&& (c.POLLERR ||| c.POLLHUP ||| c.POLLNVAL) = 0)
    (hoe : c.POLLOUT &&& (c.POLLERR ||| c.POLLHUP ||| c.POLLNVAL) = 0) :
    realevents_of_revents c (realevents_of_events c m) = m &&& 0x03 ∧
    realevents_of_revents c (realevents_of_events c m) &&& SELECTABLE_SELECT_ERROR = 0 := by
  have hoi : c.POLLOUT &&& (c.POLLIN ||| c.POLLPRI) = 0 := by
    rw [Nat.and_comm]; exact hio
  have hm : m &&& 3 = (m &&& 1) ||| (m &&& 2) :=
    Nat.and_or_distrib_left m 1 2
  have h1 : m &&& 1 = 0 ∨ m &&& 1 = 1 := by
    rw [Nat.and_one_is_mod]; omega
  have h2 : m &&& 2 = 0 ∨ m &&& 2 = 2 := by
    have := Nat.and_two_pow m 1
    simp only [pow_one] at this
    rw [this]
    cases m.testBit 1 <;> simp
  have hval : realevents_of_revents c (realevents_of_events c m) = m &&& 0x03 := by
    unfold realevents_of_revents realevents_of_events SELECTABLE_READ_READY
      SELECTABLE_WRITE_READY SELECTABLE_SELECT_ERROR
    rw [hm]
    rcases h1 with h1 | h1 <;> rcases h2 with h2 | h2 <;>
      simp [h1, h2, Nat.and_distrib_right, hin, hout, hio, hie, hoe, hoi]
  refine ⟨hval, ?_⟩
  rw [hval, hm]
  unfold SELECTABLE_SELECT_ERROR
  rcases h1 with h1 | h1 <;> rcases h2 with h2 | h2 <;> rw [h1, h2] <;> decide

/-- The theorem `interest_round_trip` at the Linux header values and the mask
`0x83` (`READ_READY | WRITE_READY | SELECT_ERROR`): the round trip gives
`0x03`, for C25. -/
theorem interest_round_trip_witness :
    realevents_of_events linuxConsts 0x83 = 0x007 ∧
    realevents_of_revents linuxConsts (realevents_of_events linuxConsts 0x83) = 0x03 ∧
    realevents_of_revents linuxConsts (realevents_of_events linuxConsts 0x83) &&&
      SELECTABLE_SELECT_ERROR = 0 := by
  have h := interest_round_trip linuxConsts 0x83 (by decide) (by decide) (by decide)
    (by decide) (by decide)
  exact ⟨by decide, h.1.trans (by decide), h.2⟩

/-! ## C26 -/


/-- C26: `btree_insert` preserves the B-tree invariant with minimum degree
`M = 3`. For every finite sequence of insertions of pairwise distinct keys into
the empty tree, the calls return and the resulting tree obeys `btree_invariant`
for some depth `h` of all its leaves: strictly increasing keys in each node,
at most `2M-1 = 5` keys per node and at least `M-1 = 2` below the root, `n+1`
children under a non-leaf node with `n` keys, the keys under child `i` strictly
between `keys[i-1]` and `keys[i]`. -/
theorem btree_insert_preserves_invariant (kvs : List (Int × Option Nat))
    (hdistinct : (kvs.map Prod.fst).Nodup) :
    ∃ tree h, btree_insert_seq btree_newnode kvs = some tree ∧
      btree_invariant h true tree := by
  obtain ⟨hwf0, hc0⟩ := btree_newnode_wf
  obtain ⟨h1, t1, hseq, hwf1, _⟩ := btree_insert_seq_ok kvs 0 btree_newnode hwf0 hdistinct
    (fun kv _ d => hc0 (kv.1, d))
  exact ⟨t1, h1, hseq, btree_wf_invariant h1 0 none none t1 true hwf1
    (fun h => absurd h (by decide))⟩

/-- The theorem `btree_insert_preserves_invariant` at the seven insertions
`inserts_seven`, after which the tree has a root above two leaves, for C26. -/
theorem btree_insert_preserves_invariant_witness :
    (inserts_seven.map Prod.fst).Nodup ∧
    (btree_insert_seq btree_newnode inserts_seven).map btree_depth = some 2 ∧
    ∃ tree h, btree_insert_seq btree_newnode inserts_seven = some tree ∧
      btree_invariant h true tree :=
  ⟨by decide, by decide, btree_insert_preserves_invariant inserts_seven (by decide)⟩

/-! ## C27 -/

/-- C29 fails as stated: registering an item on the handle 40000 writes its
interest record to the kernel cache (the write succeeds, nothing is raised),
and the registry holds no entry for 40000 on return. -/
theorem high_handle_cached_without_entry :
    (world_high.heap 0).fd = 40000 ∧
    (SelectSetDevPollImpl_register linuxConsts world_high 0 true).trace =
      [DevPollEvent.write_devpoll 40000 0x003] ∧
    (SelectSetDevPollImpl_register linuxConsts world_high 0 true).exn = none ∧
    (SelectSetDevPollImpl_register linuxConsts world_high 0 true).world.state.selitems 40000 =
      none := by
  decide

/-- C29 as amended, for one register and one deregister call on an arbitrary
backend state, `h` being the handle of the item. Each call issues exactly one
write to the kernel cache: the interest record of `h`, respectively its
removal record. When the write fails the call raises `IOException` and leaves
the backend unchanged. When it succeeds and `h` is in `[0, MAX_FDS)`, the
registry holds an entry for `h` on return from register and none on return
from deregister. When it succeeds and `h` is outside `[0, MAX_FDS)`, the
record stays written and the backend is unchanged, nothing being raised. -/
theorem registry_follows_kernel_cache (c : SysConsts) (POLLREMOVE : Nat) (w : DevPollWorld)
    (selitemobj : Nat) (write_ok : Bool) :
    (SelectSetDevPollImpl_register c w selitemobj write_ok).trace =
      [DevPollEvent.write_devpoll (w.heap selitemobj).fd
        (table_interest c (w.heap selitemobj).events)] ∧
    (SelectSetDevPollImpl_deregister POLLREMOVE w selitemobj write_ok).trace =
      [DevPollEvent.write_devpoll (w.heap selitemobj).fd POLLREMOVE] ∧
    (write_ok = false →
      (SelectSetDevPollImpl_register c w selitemobj write_ok).exn =
        some JavaException.IOException ∧
      (SelectSetDevPollImpl_register c w selitemobj write_ok).world = w ∧
      (SelectSetDevPollImpl_deregister POLLREMOVE w selitemobj write_ok).exn =
        some JavaException.IOException ∧
      (SelectSetDevPollImpl_deregister POLLREMOVE w selitemobj write_ok).world = w) ∧
    (write_ok = true → 0 ≤ (w.heap selitemobj).fd → (w.heap selitemobj).fd < (MAX_FDS : Int) →
      (∃ o, (SelectSetDevPollImpl_register c w selitemobj write_ok).world.state.selitems
        (w.heap selitemobj).fd.toNat = some o) ∧
      (SelectSetDevPollImpl_register c w selitemobj write_ok).exn = none ∧
      (SelectSetDevPollImpl_deregister POLLREMOVE w selitemobj write_ok).world.state.selitems
        (w.heap selitemobj).fd.toNat = none ∧
      (SelectSetDevPollImpl_deregister POLLREMOVE w selitemobj write_ok).exn = none) ∧
    (write_ok = true →
      ((w.heap selitemobj).fd < 0 ∨ (MAX_FDS : Int) ≤ (w.heap selitemobj).fd) →
      (SelectSetDevPollImpl_register c w selitemobj write_ok).world = w ∧
      (SelectSetDevPollImpl_register c w selitemobj write_ok).exn = none ∧
      (SelectSetDevPollImpl_deregister POLLREMOVE w selitemobj write_ok).world = w ∧
      (SelectSetDevPollImpl_deregister POLLREMOVE w selitemobj write_ok).exn = none) := by
  have hev : (if (w.heap selitemobj).events ≠ 0 then
      realevents_of_events c (w.heap selitemobj).events else 0) =
      table_interest c (w.heap selitemobj).events := by
    by_cases h0 : (w.heap selitemobj).events = 0
    · simp [h0, table_interest]
    · simp [h0, realevents_of_events_eq]
  refine ⟨?_, ?_, ?_, ?_, ?_⟩
  · unfold SelectSetDevPollImpl_register
    simp only [hev]
    split_ifs
    · rfl
    · rfl
    · cases w.state.selitems (w.heap selitemobj).fd.toNat <;> rfl
  · unfold SelectSetDevPollImpl_deregister
    simp only
    split_ifs
    · rfl
    · rfl
    · cases w.state.selitems (w.heap selitemobj).fd.toNat <;> rfl
  · intro hw
    subst hw
    exact ⟨rfl, rfl, rfl, rfl⟩
  · intro hw h0 h1
    subst hw
    have hr : ¬ ((w.heap selitemobj).fd < 0 ∨ (w.heap selitemobj).fd ≥ (MAX_FDS : Int)) := by
      omega
    unfold SelectSetDevPollImpl_register SelectSetDevPollImpl_deregister
    simp only [Bool.true_eq_false, if_false, if_neg hr]
    cases hs : w.state.selitems (w.heap selitemobj).fd.toNat with
    | none => simp [hs]
    | some o => simp [hs]
  · intro hw hr
    subst hw
    have hr2 : (w.heap selitemobj).fd < 0 ∨ (w.heap selitemobj).fd ≥ (MAX_FDS : Int) := by
      omega
    unfold SelectSetDevPollImpl_register SelectSetDevPollImpl_deregister
    simp only [Bool.true_eq_false, if_false, if_pos hr2]
    simp

/-- The theorem `registry_follows_kernel_cache` at concrete calls: registering
A (handle 5) on the empty registry enters it, deregistering it from the
registry holding A and B removes it, a failed write raises `IOException`, and
the handle 40000 leaves the backend unchanged, for C29. -/
theorem registry_follows_kernel_cache_witness :
    (∃ o, (SelectSetDevPollImpl_register linuxConsts world_fresh 0 true).world.state.selitems
      (5 : Int).toNat = some o) ∧
    (SelectSetDevPollImpl_deregister 0x1000 world_ab 0 true).world.state.selitems
      (5 : Int).toNat = none ∧
    (SelectSetDevPollImpl_register linuxConsts world_ab 0 false).exn =
      some JavaException.IOException ∧
    (SelectSetDevPollImpl_deregister 0x1000 world_ab 0 false).world = world_ab ∧
    (SelectSetDevPollImpl_register linuxConsts world_high 0 true).world = world_high :=
  ⟨((registry_follows_kernel_cache linuxConsts 0x1000 world_fresh 0 true).2.2.2.1 rfl
      (by decide) (by decide)).1,
   ((registry_follows_kernel_cache linuxConsts 0x1000 world_ab 0 true).2.2.2.1 rfl
      (by decide) (by decide)).2.2.1,
   ((registry_follows_kernel_cache linuxConsts 0x1000 world_ab 0 false).2.2.1 rfl).1,
   ((registry_follows_kernel_cache linuxConsts 0x1000 world_ab 0 false).2.2.1 rfl).2.2.2,
   ((registry_follows_kernel_cache linuxConsts 0x1000 world_high 0 true).2.2.2.2 rfl
      (Or.inr (by decide))).1⟩

/-! ## C30 -/


/-- C30 does not hold of the code: after the bounds test raises
`ArrayIndexOutOfBoundsException` there is no `return`, so `nbSocketRead` and
`nbSocketWrite` go on to `read` / `write` on the buffer. With `len = 8` on an
array of length 4, and with `len = -1`, the exception is raised and the OS call
is made all the same with that `len`. -/
theorem stream_bounds_failure_still_calls_os :
    (nbSocketRead 11 stream_call_long io_reply_eight).thrown =
      [JavaException.ArrayIndexOutOfBoundsException] ∧
    (nbSocketRead 11 stream_call_long io_reply_eight).os_calls = [StreamEvent.read 3 0 8] ∧
    (nbSocketRead 11 stream_call_long io_reply_eight).ret = 8 ∧
    (nbSocketWrite 11 4 stream_call_long io_reply_eight).thrown =
      [JavaException.ArrayIndexOutOfBoundsException] ∧
    (nbSocketWrite 11 4 stream_call_long io_reply_eight).os_calls = [StreamEvent.write 3 0 8] ∧
    (nbSocketWrite 11 4 stream_call_long io_reply_eight).ret = 8 ∧
    (nbSocketRead 11 stream_call_negative io_reply_einval).thrown =
      [JavaException.ArrayIndexOutOfBoundsException, JavaException.SocketException] ∧
    (nbSocketRead 11 stream_call_negative io_reply_einval).os_calls =
      [StreamEvent.read 3 0 (-1)] ∧
    (nbSocketWrite 11 4 stream_call_negative io_reply_einval).os_calls =
      [StreamEvent.write 3 0 (-1)] := by
  refine ⟨?_, ?_, ?_, ?_, ?_, ?_, ?_, ?_, ?_⟩ <;> decide

end Nbio
